import Mathlib

/-! Client prediction: the predicting (auto proxy) driver.

A shallow embedding of `ClientPredictionAutoProxyDriver`
(`Public/Driver/ClientPredictionAutoProxyModelDriver.h`) together with the
wrapper types of `Public/ClientPredictionModel.h`; further down, of the
authority driver `FModelAuthDriver` and of the authority side of
`BaseClientPredictionModel`.

* `uint32` fields are natural numbers; every `++` and `+ 1` of the source is
  reduced modulo `2 ^ 32` through `wrap32`.
* The collaborators of the driver (the input delegate, `Simulate`, `Rewind`,
  `EmitInputPackets` and the input buffer) are parameters, gathered in `Env`.
* `check(...)` is fatal: a failed check makes the operation return an `Error`.
* Every call made on a collaborator is appended to the field `Calls` of the
  driver, so that statements about which calls happen can be made.
-/

namespace ClientPrediction

set_option linter.unusedVariables false

/-! ## Constants -/

/-- Modelled from the spec: `kInvalidFrame` is declared in
`ClientPredictionModelTypes.h`, which is not part of the sources at hand. The
spec calls it the "invalid" sentinel of the unsigned counters and treats the
wrap of a counter as that sentinel; it is taken to be the largest `uint32`. -/
def kInvalidFrame : Nat := 4294967295

/-- The constant `kInputWindowSize` of the driver header (`uint32`, value 3). -/
def kInputWindowSize : Nat := 3

/-- The constant `kClientForwardPredictionFrames` of the driver header
(`ClientPredictionAutoProxyModelDriver.h`, line 10: `uint32`, value 5). -/
def kClientForwardPredictionFrames : Nat := 5

/-- Reduction of a natural number to the range of `uint32`. -/
def wrap32 (n : Nat) : Nat := n % 4294967296

/-! ## Wrapper types -/

/-- The struct `FModelStateWrapper<ModelState>`: a model state tagged with its frame
number and with the number of the input packet that produced it. -/
structure FModelStateWrapper (S : Type) where
  FrameNumber : Nat
  InputPacketNumber : Nat
  State : S
deriving DecidableEq

/-- The default constructed wrapper: both numbers are `kInvalidFrame`. -/
def FModelStateWrapper.Default (S : Type) [Inhabited S] : FModelStateWrapper S :=
  { FrameNumber := kInvalidFrame, InputPacketNumber := kInvalidFrame, State := default }

/-- The comparison `FModelStateWrapper::operator==`: the input packet numbers and the bodies
are compared, the frame numbers are not. -/
def FModelStateWrapper.opEq {S : Type} [BEq S] (a Other : FModelStateWrapper S) : Bool :=
  a.InputPacketNumber == Other.InputPacketNumber && a.State == Other.State

/-- The struct `FInputPacketWrapper<InputPacket>`: an input payload tagged with its own
packet number. -/
structure FInputPacketWrapper (I : Type) where
  PacketNumber : Nat
  Packet : I
deriving DecidableEq

/-- The default constructed input packet: its number is `kInvalidFrame`. -/
def FInputPacketWrapper.Default (I : Type) [Inhabited I] : FInputPacketWrapper I :=
  { PacketNumber := kInvalidFrame, Packet := default }

/-! ## Collaborators -/

/-- The calls the driver makes on its collaborators. -/
inductive Call (I S : Type) where
  | InputDelegate : Call I S
  | EmitInputPackets (Window : List (FInputPacketWrapper I)) : Call I S
  | Simulate (PrevState : S) (Input : I) : Call I S
  | InputBufferAck (PacketNumber : Nat) : Call I S
  | InputBufferRewind (PacketNumber : Nat) : Call I S
  | Rewind (State : S) : Call I S
  | ForceSimulate (Ticks : Nat) : Call I S
deriving DecidableEq

/-- The calls that belong to reconciliation: acknowledging, rewinding and
forcing a resimulation. -/
def Call.isReconcile {I S : Type} : Call I S → Bool
  | .InputBufferAck _ => true
  | .InputBufferRewind _ => true
  | .Rewind _ => true
  | .ForceSimulate _ => true
  | _ => false

/-- The calls that produce or send new input. -/
def Call.isInputProduction {I S : Type} : Call I S → Bool
  | .InputDelegate => true
  | .EmitInputPackets _ => true
  | _ => false

/-- The calls of `Simulate`. -/
def Call.isSimulate {I S : Type} : Call I S → Bool
  | .Simulate _ _ => true
  | _ => false

/-- The operations of `FInputBuffer` (declared in `Input.h`, which is not part
of the sources at hand) that the driver uses, over a buffer state `B` and a
packet type `P`. `ConsumeInputRemote` takes the current value of its reference
parameter and returns the `bool` result, the value of the reference parameter
afterwards and the buffer afterwards. -/
structure FInputBuffer (B P : Type) where
  Empty : B
  QueueInputRemote : B → P → B
  ConsumeInputRemote : B → P → Bool × P × B
  RemoteBufferSize : B → Nat
  Ack : B → Nat → B
  Rewind : B → Nat → B

/-- What the driver relies on from the producer side of the buffer: consuming
succeeds right after a packet was queued, and whenever the buffer reports a
positive size. -/
structure FInputBuffer.Lawful {B P : Type} (buf : FInputBuffer B P) : Prop where
  consume_queue : ∀ b p out, (buf.ConsumeInputRemote (buf.QueueInputRemote b p) out).1 = true
  consume_pos : ∀ b out, 0 < buf.RemoteBufferSize b → (buf.ConsumeInputRemote b out).1 = true

/-- The collaborators of a driver. `InputDelegate` gives the payload written by
the input delegate, which may depend on everything that happened before (the
calls made so far); `Simulate` maps the previous state and the input to the
new state. -/
structure Env (I S B : Type) where
  InputDelegate : List (Call I S) → I
  Simulate : S → I → S
  InputBuffer : FInputBuffer B (FInputPacketWrapper I)

/-! ## The driver -/

/-- The fields of `ClientPredictionAutoProxyDriver`, and the calls made so far. -/
structure Driver (I S B : Type) where
  AckedFrame : Nat
  NextFrame : Nat
  NextInputPacket : Nat
  History : List (FModelStateWrapper S)
  CurrentInputPacket : FInputPacketWrapper I
  LastAuthorityState : FModelStateWrapper S
  CurrentState : FModelStateWrapper S
  LastState : S
  SlidingInputWindow : List (FInputPacketWrapper I)
  InputBuffer : B
  Calls : List (Call I S)

/-- The fatal errors: a failed `check`. -/
inductive Error where
  | BufferUnderflow
  | HistoryNotFound
deriving DecidableEq

variable {I S B : Type}

/-- A freshly constructed driver (the member initialisers of the class). -/
def Driver.fresh [Inhabited I] [Inhabited S] (env : Env I S B) : Driver I S B :=
  { AckedFrame := kInvalidFrame
    NextFrame := 0
    NextInputPacket := 0
    History := []
    CurrentInputPacket := FInputPacketWrapper.Default I
    LastAuthorityState := FModelStateWrapper.Default S
    CurrentState := FModelStateWrapper.Default S
    LastState := default
    SlidingInputWindow := []
    InputBuffer := env.InputBuffer.Empty
    Calls := [] }

/-- The method `ReceiveAuthorityState`: the received snapshot replaces `LastAuthorityState`. -/
def ReceiveAuthorityState (s : Driver I S B) (State : FModelStateWrapper S) : Driver I S B :=
  { s with LastAuthorityState := State }

/-- The method `ReceiveInputPackets`: nothing happens on the predicting client. -/
def ReceiveInputPackets (s : Driver I S B) (Packets : List (FInputPacketWrapper I)) :
    Driver I S B := s

/-- The pre-tick part of `Tick` (lines 66 to 87): unless the tick is a forced
one with input left in the buffer, a new packet is numbered, filled by the
input delegate, queued, put at the front of the sliding window (whose last
element is dropped when it is full) and the window is emitted. -/
def PreTick (env : Env I S B) (s : Driver I S B) (bIsForcedSimulation : Bool) : Driver I S B :=
  if bIsForcedSimulation = false ∨ env.InputBuffer.RemoteBufferSize s.InputBuffer = 0 then
    let Packet : FInputPacketWrapper I :=
      { PacketNumber := s.NextInputPacket, Packet := env.InputDelegate s.Calls }
    let Window : List (FInputPacketWrapper I) :=
      Packet :: (if kInputWindowSize ≤ s.SlidingInputWindow.length
        then s.SlidingInputWindow.dropLast else s.SlidingInputWindow)
    { s with
      NextInputPacket := wrap32 (s.NextInputPacket + 1)
      InputBuffer := env.InputBuffer.QueueInputRemote s.InputBuffer Packet
      SlidingInputWindow := Window
      Calls := s.Calls ++ [Call.InputDelegate, Call.EmitInputPackets Window] }
  else s

/-- The result of `InputBuffer.ConsumeInputRemote(CurrentInputPacket)` at line 89. -/
def consumed (env : Env I S B) (s : Driver I S B) (bIsForcedSimulation : Bool) :
    Bool × FInputPacketWrapper I × B :=
  let s1 := PreTick env { s with LastState := s.CurrentState.State } bIsForcedSimulation
  env.InputBuffer.ConsumeInputRemote s1.InputBuffer s1.CurrentInputPacket

/-- The driver after lines 64 to 98 of `Tick` when the check of line 89 passes:
the previous state is kept, the pre-tick part runs, a packet is consumed, the
new state gets the next frame number and the number of the consumed packet,
`Simulate` fills its body and it is enqueued in the history. -/
def TickBody (env : Env I S B) (s : Driver I S B) (bIsForcedSimulation : Bool) : Driver I S B :=
  let s1 := PreTick env { s with LastState := s.CurrentState.State } bIsForcedSimulation
  let r := consumed env s bIsForcedSimulation
  let Cur : FModelStateWrapper S :=
    { FrameNumber := s1.NextFrame
      InputPacketNumber := r.2.1.PacketNumber
      State := env.Simulate s1.LastState r.2.1.Packet }
  { s1 with
    InputBuffer := r.2.2
    CurrentInputPacket := r.2.1
    CurrentState := Cur
    NextFrame := wrap32 (s1.NextFrame + 1)
    History := s1.History ++ [Cur]
    Calls := s1.Calls ++ [Call.Simulate s1.LastState r.2.1.Packet] }

/-- Lines 64 to 98 of `Tick`, with the check of line 89. -/
def TickSimulate (env : Env I S B) (s : Driver I S B) (bIsForcedSimulation : Bool) :
    Except Error (Driver I S B) :=
  if (consumed env s bIsForcedSimulation).1 = true then
    Except.ok (TickBody env s bIsForcedSimulation)
  else Except.error Error.BufferUnderflow

/-- The method `ForceSimulate`: `Ticks` forced ticks in a row. A forced tick returns at
line 103, so it is `TickSimulate` with the flag set (see `Tick_forced`). -/
def ForceSimulate (env : Env I S B) : Nat → Driver I S B → Except Error (Driver I S B)
  | 0, s => Except.ok s
  | Ticks + 1, s =>
    match TickSimulate env s true with
    | Except.error e => Except.error e
    | Except.ok s1 => ForceSimulate env Ticks s1

/-- The method `Rewind_Internal`: the history is emptied, the acked frame and the next
frame are set from the given state, the input buffer and the body are rewound. -/
def Rewind_Internal (env : Env I S B) (s : Driver I S B) (State : FModelStateWrapper S) :
    Driver I S B :=
  { s with
    History := []
    AckedFrame := State.FrameNumber
    NextFrame := wrap32 (State.FrameNumber + 1)
    InputBuffer := env.InputBuffer.Rewind s.InputBuffer State.InputPacketNumber
    Calls := s.Calls ++ [Call.InputBufferRewind State.InputPacketNumber, Call.Rewind State.State] }

/-- The argument of `ForceSimulate` at lines 126 and 152. -/
def forcedTicks (env : Env I S B) (s : Driver I S B) : Nat :=
  max kClientForwardPredictionFrames (env.InputBuffer.RemoteBufferSize s.InputBuffer)

/-- The call `Rewind_Internal(LastAuthorityState, Component)` followed by
`ForceSimulate(FMath::Max(...), Dt, Component)` (lines 125-126 and 151-152). -/
def RewindAndResimulate (env : Env I S B) (s : Driver I S B) : Except Error (Driver I S B) :=
  let s1 := Rewind_Internal env s s.LastAuthorityState
  let Ticks := forcedTicks env s1
  ForceSimulate env Ticks { s1 with Calls := s1.Calls ++ [Call.ForceSimulate Ticks] }

/-- The loop of lines 132 to 138: snapshots are dequeued until one has the
given frame number or the queue is empty. The result is `bFound`, the value of
`HistoricState` and what is left of the queue. -/
def drainHistory (FrameNumber : Nat) :
    List (FModelStateWrapper S) → FModelStateWrapper S →
      Bool × FModelStateWrapper S × List (FModelStateWrapper S)
  | [], HistoricState => (false, HistoricState, [])
  | h :: rest, _ =>
    if h.FrameNumber = FrameNumber then (true, h, rest) else drainHistory FrameNumber rest h

/-- The reconciliation at the end of a real tick (lines 106 to 155 of `Tick`):
the three guards, then either the server is ahead and the driver rewinds and
resimulates, or the history is drained up to the frame of the authority state,
the check of line 140 is made, and the driver acknowledges when the historic
state compares equal and rewinds and resimulates otherwise. -/
def Reconcile [BEq S] [Inhabited S] (env : Env I S B) (s : Driver I S B) :
    Except Error (Driver I S B) :=
  if s.LastAuthorityState.FrameNumber = kInvalidFrame then Except.ok s
  else if s.LastAuthorityState.FrameNumber ≤ s.AckedFrame ∧ s.AckedFrame ≠ kInvalidFrame then
    Except.ok s
  else if s.LastAuthorityState.InputPacketNumber = kInvalidFrame then Except.ok s
  else if s.LastAuthorityState.FrameNumber > s.CurrentState.FrameNumber then
    RewindAndResimulate env s
  else
    let d := drainHistory s.LastAuthorityState.FrameNumber s.History (FModelStateWrapper.Default S)
    let s := { s with History := d.2.2 }
    if d.1 = false then Except.error Error.HistoryNotFound
    else if d.2.1.opEq s.LastAuthorityState = true then
      Except.ok { s with
        AckedFrame := s.LastAuthorityState.FrameNumber
        InputBuffer := env.InputBuffer.Ack s.InputBuffer s.LastAuthorityState.InputPacketNumber
        Calls := s.Calls ++ [Call.InputBufferAck s.LastAuthorityState.InputPacketNumber] }
    else RewindAndResimulate env s

/-- The method `Tick(Dt, Component, bIsForcedSimulation)`: the simulated part (lines 64 to
98), the return of a forced tick (line 103), and the reconciliation. -/
def Tick [BEq S] [Inhabited S] (env : Env I S B) (s : Driver I S B) (bIsForcedSimulation : Bool) :
    Except Error (Driver I S B) :=
  match TickSimulate env s bIsForcedSimulation with
  | Except.error e => Except.error e
  | Except.ok s => if bIsForcedSimulation = true then Except.ok s else Reconcile env s

/-! ## A concrete input buffer and concrete collaborators -/

/-- Modelled from the spec: the producer side of `FInputBuffer`, whose code
(`Input.h`) is not part of the sources at hand. The packets produced and not
yet consumed locally are `Pending`; the packets consumed locally and not yet
acknowledged are `Consumed`, kept so that a rewind can replay them. -/
structure RemoteInputBuffer (I : Type) where
  Consumed : List (FInputPacketWrapper I)
  Pending : List (FInputPacketWrapper I)
deriving DecidableEq

/-- Modelled from the spec: the operations of the producer side of
`FInputBuffer` (`Input.h` is not part of the sources at hand). `queueLocal`
appends to the local consumption queue; `consumeLocal` pops the next packet in
order and fails only if the queue is empty; `bufferSize` counts the queue;
`ack` discards everything up to the given packet number; `rewind` resets the
cursor so that consumption replays from just after the given packet number. -/
def RemoteInputBuffer.ops (I : Type) :
    FInputBuffer (RemoteInputBuffer I) (FInputPacketWrapper I) where
  Empty := { Consumed := [], Pending := [] }
  QueueInputRemote b p := { b with Pending := b.Pending ++ [p] }
  ConsumeInputRemote b out :=
    match b.Pending with
    | [] => (false, out, b)
    | p :: rest => (true, p, { Consumed := b.Consumed ++ [p], Pending := rest })
  RemoteBufferSize b := b.Pending.length
  Ack b PacketNumber :=
    { Consumed := b.Consumed.filter (fun p => decide (PacketNumber < p.PacketNumber))
      Pending := b.Pending.filter (fun p => decide (PacketNumber < p.PacketNumber)) }
  Rewind b PacketNumber :=
    { Consumed := (b.Consumed ++ b.Pending).filter (fun p => decide (p.PacketNumber ≤ PacketNumber))
      Pending := (b.Consumed ++ b.Pending).filter (fun p => decide (PacketNumber < p.PacketNumber)) }

/-- Concrete collaborators over natural numbers: every produced input is `1`
and `Simulate` adds the input to the previous state, so the body of a
snapshot counts the inputs applied so far. -/
def counterEnv : Env Nat Nat (RemoteInputBuffer Nat) where
  InputDelegate := fun _ => 1
  Simulate := fun PrevState Input => PrevState + Input
  InputBuffer := RemoteInputBuffer.ops Nat

/-! ## Auxiliary definitions for the statements -/

/-- The calls added by the pre-tick part: none, or the input delegate followed
by the emission of the window. -/
def preTickCalls (env : Env I S B) (s : Driver I S B) (bIsForcedSimulation : Bool) :
    List (Call I S) :=
  (PreTick env s bIsForcedSimulation).Calls.drop s.Calls.length

/-- The calls made by the simulated part of a tick. -/
def tickBodyCalls (env : Env I S B) (s : Driver I S B) (f : Bool) : List (Call I S) :=
  preTickCalls env { s with LastState := s.CurrentState.State } f ++
    [Call.Simulate s.CurrentState.State (consumed env s f).2.1.Packet]

/-- The driver after `Ticks` forced ticks whose checks all pass. -/
def ForceBody (env : Env I S B) : Nat → Driver I S B → Driver I S B
  | 0, s => s
  | Ticks + 1, s => ForceBody env Ticks (TickBody env s true)

/-- The snapshots enqueued by `n` forced ticks. -/
def forceBodyHistory (env : Env I S B) (n : Nat) (s : Driver I S B) :
    List (FModelStateWrapper S) :=
  (ForceBody env n s).History.drop s.History.length

/-- The calls made by `n` forced ticks. -/
def forceBodyCalls (env : Env I S B) (n : Nat) (s : Driver I S B) : List (Call I S) :=
  (ForceBody env n s).Calls.drop s.Calls.length

/-- The frame numbers of the history increase strictly from front to back and
lie below `NextFrame`. -/
def HistoryOrdered (s : Driver I S B) : Prop :=
  (s.History.map (fun h => h.FrameNumber)).Pairwise (fun a b => a < b) ∧
    ∀ h ∈ s.History, h.FrameNumber < s.NextFrame

/-- The driver on entry to the first forced tick of a resimulation: after
`Rewind_Internal(LastAuthorityState, Component)` and the call of `ForceSimulate`. -/
def Rewound (env : Env I S B) (s : Driver I S B) : Driver I S B :=
  { Rewind_Internal env s s.LastAuthorityState with
    Calls := (Rewind_Internal env s s.LastAuthorityState).Calls ++
      [Call.ForceSimulate (forcedTicks env (Rewind_Internal env s s.LastAuthorityState))] }

/-- The number of forced ticks of a real tick that rewinds: the larger of
`kClientForwardPredictionFrames` and `RemoteBufferSize()` measured after the
simulated part of the tick and the rewind of the buffer. -/
def resimulatedTicks (env : Env I S B) (s : Driver I S B) : Nat :=
  max kClientForwardPredictionFrames
    (env.InputBuffer.RemoteBufferSize
      (env.InputBuffer.Rewind (TickBody env s false).InputBuffer
        s.LastAuthorityState.InputPacketNumber))

/-- A fresh driver that has received an authority state which its first tick
will match: frame `0`, input packet `0`, body `1`. -/
def syncedStart : Driver Nat Nat (RemoteInputBuffer Nat) :=
  ReceiveAuthorityState (Driver.fresh counterEnv)
    { FrameNumber := 0, InputPacketNumber := 0, State := 1 }

/-- A fresh driver that has received an authority state for frame `0` whose
body, `7`, differs from the one its first tick will produce. -/
def divergedStart : Driver Nat Nat (RemoteInputBuffer Nat) :=
  ReceiveAuthorityState (Driver.fresh counterEnv)
    { FrameNumber := 0, InputPacketNumber := 0, State := 7 }

/-- A fresh driver that has received an authority state for frame `3`, ahead of
its first tick, with body `42`. -/
def aheadStart : Driver Nat Nat (RemoteInputBuffer Nat) :=
  ReceiveAuthorityState (Driver.fresh counterEnv)
    { FrameNumber := 3, InputPacketNumber := 0, State := 42 }

/-- The counter `NextFrame` does not wrap during a real tick from `s` to `s'`:
the increment of the real tick stays in range and, if the tick rewinds to the
authority state and forces `n` ticks, so do the `n` increments that follow
the frame of the authority state. -/
def NoWrap (s s' : Driver I S B) : Prop :=
  s.NextFrame + 1 < 4294967296 ∧
    ∀ n, Call.ForceSimulate n ∈ s'.Calls.drop s.Calls.length →
      s.LastAuthorityState.FrameNumber + 1 + n < 4294967296

/-- The states a driver can be in: it is freshly constructed, then receives
authority states and ticks in any order. Only ticks that return and during
which the frame counter does not wrap are followed. -/
inductive Reachable [BEq S] [Inhabited S] [Inhabited I] (env : Env I S B) :
    Driver I S B → Prop where
  | fresh : Reachable env (Driver.fresh env)
  | receive {s : Driver I S B} (State : FModelStateWrapper S) :
      Reachable env s → Reachable env (ReceiveAuthorityState s State)
  | tick {s s' : Driver I S B} :
      Reachable env s → Tick env s false = Except.ok s' → NoWrap s s' → Reachable env s'

/-- The history holds exactly the frames after the acked one (all frames, when
nothing is acked yet) up to the last simulated one, in order. -/
def Consistent (s : Driver I S B) : Prop :=
  s.History.map (fun h => h.FrameNumber) =
      List.range' (s.NextFrame - s.History.length) s.History.length ∧
    s.History.length ≤ s.NextFrame ∧
    (s.AckedFrame = kInvalidFrame → s.History.length = s.NextFrame) ∧
    (s.AckedFrame ≠ kInvalidFrame → s.AckedFrame + 1 + s.History.length = s.NextFrame)

/-- The driver `aheadStart` after its first real tick: it jumped to frame `3`
and resimulated five frames. -/
def aheadEnd : Driver Nat Nat (RemoteInputBuffer Nat) :=
  ForceBody counterEnv 5 (Rewound counterEnv (TickBody counterEnv aheadStart false))

/-- The driver `aheadEnd` after it received an authority state for frame `5`
that equals its own snapshot of that frame. -/
def matchingAfterAhead : Driver Nat Nat (RemoteInputBuffer Nat) :=
  ReceiveAuthorityState aheadEnd { FrameNumber := 5, InputPacketNumber := 2, State := 3 }

/-- The driver `aheadEnd` after it received an authority state for frame `20`,
ahead of it once more. -/
def aheadAgain : Driver Nat Nat (RemoteInputBuffer Nat) :=
  ReceiveAuthorityState aheadEnd { FrameNumber := 20, InputPacketNumber := 0, State := 0 }

/-! ## Auxiliary definitions for the statements about input packets -/

/-- The windows passed to `EmitInputPackets`, in the order of the calls. -/
def emittedWindows (cs : List (Call I S)) : List (List (FInputPacketWrapper I)) :=
  cs.filterMap (fun c =>
    match c with
    | Call.EmitInputPackets Window => some Window
    | _ => none)

/-- The input packets produced, in the order of their production: every
production emits the window with the new packet at its front. -/
def producedPackets (cs : List (Call I S)) : List (FInputPacketWrapper I) :=
  (emittedWindows cs).filterMap List.head?

/-- The states a driver can go through when ticks (real or forced), received
authority states and rewinds follow each other in any order, starting from a
freshly constructed driver. Only ticks that return are followed. -/
inductive Runs [BEq S] [Inhabited S] [Inhabited I] (env : Env I S B) : Driver I S B → Prop where
  | fresh : Runs env (Driver.fresh env)
  | receive {s : Driver I S B} (State : FModelStateWrapper S) :
      Runs env s → Runs env (ReceiveAuthorityState s State)
  | tick {s s' : Driver I S B} (bIsForcedSimulation : Bool) :
      Runs env s → Tick env s bIsForcedSimulation = Except.ok s' → Runs env s'
  | rewind {s : Driver I S B} (State : FModelStateWrapper S) :
      Runs env s → Runs env (Rewind_Internal env s State)

/-- The sliding window and the packet counter agree with the packets produced
so far: the window holds the last `kInputWindowSize` of them, newest first;
the counter is their count, as a `uint32`; the `j`-th of them carries the
number `j`, as a `uint32`; and the `j`-th emitted window held the last
`kInputWindowSize` of the first `j + 1` packets, newest first. -/
def PacketsConsistent (s : Driver I S B) : Prop :=
  s.SlidingInputWindow = (producedPackets s.Calls).reverse.take kInputWindowSize ∧
  s.NextInputPacket = wrap32 (producedPackets s.Calls).length ∧
  (producedPackets s.Calls).map (fun p => p.PacketNumber) =
    (List.range (producedPackets s.Calls).length).map wrap32 ∧
  emittedWindows s.Calls =
    (List.range (producedPackets s.Calls).length).map
      (fun j => ((producedPackets s.Calls).take (j + 1)).reverse.take kInputWindowSize)

/-- A driver that ticked twice and then received an authority state for frame
`0` whose body, `7`, differs from its own snapshot of that frame. -/
def laggingStart : Driver Nat Nat (RemoteInputBuffer Nat) :=
  ReceiveAuthorityState
    (TickBody counterEnv (TickBody counterEnv (Driver.fresh counterEnv) false) false)
    { FrameNumber := 0, InputPacketNumber := 0, State := 7 }

/-- The driver `laggingStart` after its next real tick: it simulated frame `2`,
rewound to frame `0` and resimulated five frames. -/
def laggingEnd : Driver Nat Nat (RemoteInputBuffer Nat) :=
  ForceBody counterEnv 5 (Rewound counterEnv (TickBody counterEnv laggingStart false))

/-! ## The authority driver

A shallow embedding of `FModelAuthDriver`
(`Public/Driver/Drivers/ClientPredictionModelAuthDriver.h`). Its base class
`FSimulatedModelDriver`, its input buffer `FAuthInputBuf` and the replication
proxies are not part of the sources at hand and are parameters. The time
dilation, a floating point number in the source, is a rational number here. -/

/-- The constant `INDEX_NONE` of the engine, `-1`. -/
def INDEX_NONE : Int := -1

/-- The conversion `static_cast<uint32>` of a signed integer. -/
def castUInt32 (n : Int) : Nat := (n % 4294967296).toNat

/-- The conversion of an integer to `uint16`. -/
def castUInt16 (n : Int) : Nat := (n % 65536).toNat

/-- The engine function `FMath::Lerp(A, B, Alpha)`, which is `A + Alpha * (B - A)`,
over the rationals. -/
def Lerp (A B Alpha : ℚ) : ℚ := A + Alpha * (B - A)

/-- Modelled from the spec: the input packet of the authority driver, declared
in `Driver/Input/ClientPredictionInput.h`, which is not part of the sources at
hand: a packet number (compared with `INDEX_NONE` in the source) and a payload
(the member `Body`). -/
structure FInputPacket (I : Type) where
  PacketNumber : Int
  Body : I
deriving DecidableEq

/-- Modelled from the spec: the state snapshot `FPhysicsState<StateType>`,
declared in a header that is not part of the sources at hand: the tick number
(compared with `INDEX_NONE` in the source), the input packet number, the body
and the bit mask of the events. -/
structure FPhysicsState (St : Type) where
  TickNumber : Int
  InputPacketNumber : Int
  Body : St
  Events : Nat
deriving DecidableEq

/-- The calls the authority driver makes on its collaborators. -/
inductive AuthCall (I St : Type) where
  | GetNextInputPacket : AuthCall I St
  | PreTickSimulateWithCurrentInput (TickNumber : Int) (Input : FInputPacket I) : AuthCall I St
  | BasePostPhysicsGameThread : AuthCall I St
  | AutoProxyDispatch (State : FPhysicsState St) : AuthCall I St
  | SimProxyDispatch (State : FPhysicsState St) : AuthCall I St
  | ControlProxyDispatch (TimeDilation : ℚ) : AuthCall I St
deriving DecidableEq

/-- The global settings read by the authority driver (console variables of the
source): the desired size of the input buffer, an `int32`, and the smoothing
factor of the time dilation. -/
structure AuthSettings where
  ClientPredictionDesiredInputBufferSize : Int
  ClientPredictionTimeDilationAlpha : ℚ

/-- The collaborators of the authority driver, over the state `Sim` of the base
class and the state `Buf` of the input buffer: the operations of
`FAuthInputBuf` (`GetNextInputPacket` takes the current value of its reference
parameter and returns its value afterwards and the buffer afterwards) and the
methods of `FSimulatedModelDriver`. -/
structure AuthEnv (I Sim Buf : Type) where
  GetBufferSize : Buf → Nat
  GetNumRecentlyDroppedInputPackets : Buf → Nat
  GetNextInputPacket : Buf → FInputPacket I → FInputPacket I × Buf
  PreTickSimulateWithCurrentInput : Sim → FInputPacket I → Int → Sim
  BasePostPhysicsGameThread : Sim → Sim

/-- The fields of `FModelAuthDriver`, the state of its base class, the member
`CurrentInput` of the base class, and the calls made so far. -/
structure FModelAuthDriver (I St Sim Buf : Type) where
  Base : Sim
  CurrentInput : FInputPacket I
  InputBuf : Buf
  LastSuggestedTimeDilation : ℚ
  LastStateGt : FPhysicsState St
  LastEmittedState : Int
  Calls : List (AuthCall I St)

/-- A freshly constructed authority driver, over the initial state of the base
class and of the input buffer: the suggested time dilation starts at `1.0`,
nothing was emitted and no input packet is in use. -/
def FModelAuthDriver.fresh {I St Sim Buf : Type} [Inhabited I] [Inhabited St]
    (Base : Sim) (InputBuf : Buf) : FModelAuthDriver I St Sim Buf :=
  { Base := Base
    CurrentInput := { PacketNumber := INDEX_NONE, Body := default }
    InputBuf := InputBuf
    LastSuggestedTimeDilation := 1
    LastStateGt :=
      { TickNumber := INDEX_NONE, InputPacketNumber := INDEX_NONE, Body := default, Events := 0 }
    LastEmittedState := INDEX_NONE
    Calls := [] }

/-- The method `PreTickPhysicsThread`: the tick is held while no packet is in
use and the buffer is smaller than desired; otherwise the next packet is
fetched and the tick is simulated with it. -/
def PreTickPhysicsThread {I St Sim Buf : Type} (cfg : AuthSettings) (env : AuthEnv I Sim Buf)
    (d : FModelAuthDriver I St Sim Buf) (TickNumber : Int) : FModelAuthDriver I St Sim Buf :=
  if d.CurrentInput.PacketNumber = INDEX_NONE ∧
      env.GetBufferSize d.InputBuf < castUInt32 cfg.ClientPredictionDesiredInputBufferSize then d
  else
    let r := env.GetNextInputPacket d.InputBuf d.CurrentInput
    { d with
      CurrentInput := r.1
      InputBuf := r.2
      Base := env.PreTickSimulateWithCurrentInput d.Base r.1 TickNumber
      Calls := d.Calls ++
        [AuthCall.GetNextInputPacket, AuthCall.PreTickSimulateWithCurrentInput TickNumber r.1] }

/-- The method `SendCurrentStateToRemotes`: the latest state is dispatched to
the auto proxy and to the simulated proxies when it has a tick number that was
not emitted yet. -/
def SendCurrentStateToRemotes {I St Sim Buf : Type} (d : FModelAuthDriver I St Sim Buf) :
    FModelAuthDriver I St Sim Buf :=
  let SendingState := d.LastStateGt
  if SendingState.TickNumber ≠ INDEX_NONE ∧ SendingState.TickNumber ≠ d.LastEmittedState then
    { d with
      LastEmittedState := SendingState.TickNumber
      Calls := d.Calls ++
        [AuthCall.AutoProxyDispatch SendingState, AuthCall.SimProxyDispatch SendingState] }
  else d

/-- The target of the time dilation computed at lines 80 to 84: the buffer size
and the desired size are `uint16` values; the target is `-1` when the buffer is
larger than desired, `1` when it is smaller and `0` otherwise. -/
def TargetTimeDilation {I Sim Buf : Type} (cfg : AuthSettings) (env : AuthEnv I Sim Buf)
    (InputBuf : Buf) : ℚ :=
  let InputBufferSize := castUInt16 (env.GetBufferSize InputBuf)
  let DesiredInputBufferSize := castUInt16
    (cfg.ClientPredictionDesiredInputBufferSize + env.GetNumRecentlyDroppedInputPackets InputBuf)
  if InputBufferSize > DesiredInputBufferSize then -1
  else if InputBufferSize < DesiredInputBufferSize then 1 else 0

/-- The method `PostPhysicsGameThread`: the method of the base class, the
sending of the state, then the suggested time dilation is moved towards its
target and dispatched in a control packet. -/
def PostPhysicsGameThread {I St Sim Buf : Type} (cfg : AuthSettings) (env : AuthEnv I Sim Buf)
    (d : FModelAuthDriver I St Sim Buf) : FModelAuthDriver I St Sim Buf :=
  let d1 := SendCurrentStateToRemotes
    { d with
      Base := env.BasePostPhysicsGameThread d.Base
      Calls := d.Calls ++ [AuthCall.BasePostPhysicsGameThread] }
  let LastSuggestedTimeDilation := Lerp d1.LastSuggestedTimeDilation
    (TargetTimeDilation cfg env d1.InputBuf) cfg.ClientPredictionTimeDilationAlpha
  { d1 with
    LastSuggestedTimeDilation := LastSuggestedTimeDilation
    Calls := d1.Calls ++ [AuthCall.ControlProxyDispatch LastSuggestedTimeDilation] }

/-- The suggested time dilations produced by successive calls of
`PostPhysicsGameThread`, the input buffer being in the given states at the
successive calls. -/
def PostPhysicsRun {I St Sim Buf : Type} (cfg : AuthSettings) (env : AuthEnv I Sim Buf) :
    List Buf → FModelAuthDriver I St Sim Buf → List ℚ
  | [], _ => []
  | b :: bs, d =>
    (PostPhysicsGameThread cfg env { d with InputBuf := b }).LastSuggestedTimeDilation ::
      PostPhysicsRun cfg env bs (PostPhysicsGameThread cfg env { d with InputBuf := b })

/-- Concrete collaborators of an authority driver: the input buffer is the pair
of its size and of the number of recently dropped packets, the base class has
no state. -/
def pairAuthEnv : AuthEnv Nat Unit (Nat × Nat) where
  GetBufferSize := fun b => b.1
  GetNumRecentlyDroppedInputPackets := fun b => b.2
  GetNextInputPacket := fun b _ => ({ PacketNumber := 0, Body := 0 }, (b.1 - 1, b.2))
  PreTickSimulateWithCurrentInput := fun s _ _ => s
  BasePostPhysicsGameThread := fun s => s

/-- Example settings: the desired buffer size `3` of the source
(`ClientPredictionModelAuthDriver.cpp`) and the smoothing factor one half. -/
def halfSettings : AuthSettings where
  ClientPredictionDesiredInputBufferSize := 3
  ClientPredictionTimeDilationAlpha := 1 / 2

/-- The input buffer is above the desired size, as `PostPhysicsGameThread`
compares them. -/
def BufferAbove {I Sim Buf : Type} (cfg : AuthSettings) (env : AuthEnv I Sim Buf)
    (InputBuf : Buf) : Prop :=
  castUInt16 (cfg.ClientPredictionDesiredInputBufferSize +
    env.GetNumRecentlyDroppedInputPackets InputBuf) < castUInt16 (env.GetBufferSize InputBuf)

/-- The input buffer is under the desired size, as `PostPhysicsGameThread`
compares them. -/
def BufferUnder {I Sim Buf : Type} (cfg : AuthSettings) (env : AuthEnv I Sim Buf)
    (InputBuf : Buf) : Prop :=
  castUInt16 (env.GetBufferSize InputBuf) < castUInt16
    (cfg.ClientPredictionDesiredInputBufferSize + env.GetNumRecentlyDroppedInputPackets InputBuf)

/-! ## The model

A shallow embedding of the authority side of `BaseClientPredictionModel`
(`Public/ClientPredictionModel.h`). The input buffer and the callbacks are
parameters, as for the driver. -/

/-- The constant `kAuthorityTargetInputBufferSize` of the model header (`uint32`,
value 25). -/
def kAuthorityTargetInputBufferSize : Nat := 25

/-- The constant `kSyncFrames` of the model header (`uint32`, value 5). -/
def kSyncFrames : Nat := 5

/-- The calls the model makes on its collaborators. -/
inductive ModelCall (I S : Type) where
  | InputDelegate : ModelCall I S
  | EmitInputPackets (Window : List (FInputPacketWrapper I)) : ModelCall I S
  | ConsumeInputAuthority : ModelCall I S
  | Simulate (PrevState : S) (Input : I) : ModelCall I S
  | PostSimulate (State : S) (Input : I) : ModelCall I S
  | EmitAuthorityState (State : FModelStateWrapper S) : ModelCall I S
  | InputBufferAck (PacketNumber : Nat) : ModelCall I S
  | InputBufferRewind (PacketNumber : Nat) : ModelCall I S
  | Rewind (State : S) : ModelCall I S
  | ForceSimulate (Ticks : Nat) : ModelCall I S
deriving DecidableEq

/-- The calls of `EmitAuthorityState`. -/
def ModelCall.isEmitAuthorityState {I S : Type} : ModelCall I S → Bool
  | .EmitAuthorityState _ => true
  | _ => false

/-- The calls of `ConsumeInputAuthority`. -/
def ModelCall.isConsumeInputAuthority {I S : Type} : ModelCall I S → Bool
  | .ConsumeInputAuthority => true
  | _ => false

/-- The operations of the authority side of `FInputBuffer` (declared in
`Input.h`, which is not part of the sources at hand) that the model uses.
`ConsumeInputAuthority` takes the current value of its reference parameter and
returns the `bool` result, the value of the reference parameter afterwards and
the buffer afterwards. -/
structure FInputBufferAuthority (B P : Type) where
  SetAuthorityTargetBufferSize : B → Nat → B
  GetAuthorityTargetBufferSize : B → Nat
  AuthorityBufferSize : B → Nat
  QueueInputAuthority : B → P → B
  ConsumeInputAuthority : B → P → Bool × P × B

/-- The collaborators of a model: the input delegate, the pure virtual methods
`Simulate` and `PostSimulate`, and both sides of the input buffer. -/
structure ModelEnv (I S B : Type) where
  InputDelegate : List (ModelCall I S) → I
  Simulate : S → I → S
  PostSimulate : S → I → S
  InputBuffer : FInputBuffer B (FInputPacketWrapper I)
  AuthorityBuffer : FInputBufferAuthority B (FInputPacketWrapper I)

/-- The fields of `BaseClientPredictionModel`, and the calls made so far. -/
structure BaseClientPredictionModel (I S B : Type) where
  AckedServerFrame : Nat
  NextLocalFrame : Nat
  NextInputPacket : Nat
  CurrentInputPacketIdx : Nat
  CurrentInputPacket : FInputPacketWrapper I
  ClientHistory : List (FModelStateWrapper S)
  LastAuthorityState : FModelStateWrapper S
  CurrentState : FModelStateWrapper S
  InputBuffer : B
  SlidingInputWindow : List (FInputPacketWrapper I)
  Calls : List (ModelCall I S)

/-- A freshly constructed model: the member initialisers, and the constructor,
which sets the target size of the authority buffer. -/
def BaseClientPredictionModel.fresh [Inhabited I] [Inhabited S] (env : ModelEnv I S B) :
    BaseClientPredictionModel I S B :=
  { AckedServerFrame := kInvalidFrame
    NextLocalFrame := 0
    NextInputPacket := 0
    CurrentInputPacketIdx := kInvalidFrame
    CurrentInputPacket := FInputPacketWrapper.Default I
    ClientHistory := []
    LastAuthorityState := FModelStateWrapper.Default S
    CurrentState := FModelStateWrapper.Default S
    InputBuffer := env.AuthorityBuffer.SetAuthorityTargetBufferSize env.InputBuffer.Empty
      kAuthorityTargetInputBufferSize
    SlidingInputWindow := []
    Calls := [] }

/-- The condition of line 275 of `PreTickAuthority`: a packet is in use, or the
authority buffer is larger than its target size. -/
def consumesInputAuthority (env : ModelEnv I S B) (m : BaseClientPredictionModel I S B) : Prop :=
  m.CurrentInputPacketIdx ≠ kInvalidFrame ∨
    env.AuthorityBuffer.AuthorityBufferSize m.InputBuffer >
      env.AuthorityBuffer.GetAuthorityTargetBufferSize m.InputBuffer

/-- The method `PreTickAuthority`: when a packet is in use or the buffer is larger
than its target, the next packet is consumed (a failed check is fatal) and
becomes the packet in use; then the new state is simulated from the previous
one with the current packet. -/
def PreTickAuthority [Inhabited S] (env : ModelEnv I S B) (m : BaseClientPredictionModel I S B) :
    Except Error (BaseClientPredictionModel I S B) :=
  let simulate (m : BaseClientPredictionModel I S B) : BaseClientPredictionModel I S B :=
    { m with
      CurrentState :=
        { FModelStateWrapper.Default S with
          State := env.Simulate m.CurrentState.State m.CurrentInputPacket.Packet }
      Calls := m.Calls ++ [ModelCall.Simulate m.CurrentState.State m.CurrentInputPacket.Packet] }
  if m.CurrentInputPacketIdx ≠ kInvalidFrame ∨
      env.AuthorityBuffer.AuthorityBufferSize m.InputBuffer >
        env.AuthorityBuffer.GetAuthorityTargetBufferSize m.InputBuffer then
    let r := env.AuthorityBuffer.ConsumeInputAuthority m.InputBuffer m.CurrentInputPacket
    if r.1 = true then
      Except.ok (simulate { m with
        CurrentInputPacket := r.2.1
        InputBuffer := r.2.2
        CurrentInputPacketIdx := r.2.1.PacketNumber
        Calls := m.Calls ++ [ModelCall.ConsumeInputAuthority] })
    else Except.error Error.BufferUnderflow
  else Except.ok (simulate m)

/-- The method `PostTickAuthority`: `PostSimulate` runs on the current state, the
state gets the next frame number and the number of the packet in use, and the
state is emitted when the incremented `NextLocalFrame` is not a multiple of
`kSyncFrames` (line 328). -/
def PostTickAuthority (env : ModelEnv I S B) (m : BaseClientPredictionModel I S B) :
    BaseClientPredictionModel I S B :=
  let CurrentState : FModelStateWrapper S :=
    { FrameNumber := m.NextLocalFrame
      InputPacketNumber := m.CurrentInputPacketIdx
      State := env.PostSimulate m.CurrentState.State m.CurrentInputPacket.Packet }
  let NextLocalFrame := wrap32 (m.NextLocalFrame + 1)
  let Calls := m.Calls ++
    [ModelCall.PostSimulate m.CurrentState.State m.CurrentInputPacket.Packet]
  { m with
    CurrentState := CurrentState
    NextLocalFrame := NextLocalFrame
    Calls := if NextLocalFrame % kSyncFrames ≠ 0
      then Calls ++ [ModelCall.EmitAuthorityState CurrentState] else Calls }

/-- A run of `Ticks` authority ticks: `PreTickAuthority` then `PostTickAuthority`,
one after the other. -/
def AuthorityTicks [Inhabited S] (env : ModelEnv I S B) :
    Nat → BaseClientPredictionModel I S B → Except Error (BaseClientPredictionModel I S B)
  | 0, m => Except.ok m
  | Ticks + 1, m =>
    match PreTickAuthority env m with
    | Except.error e => Except.error e
    | Except.ok m1 => AuthorityTicks env Ticks (PostTickAuthority env m1)

/-- Modelled from the spec: an input buffer with both of its sides, the code of
`FInputBuffer` (`Input.h`) not being part of the sources at hand. The producer
side is `RemoteInputBuffer`; the authority side is the queue of the received
packets that were not consumed yet, the target size, and the number of the
packet consumed last (`kInvalidFrame` when there is none). -/
structure ModelInputBuffer (I : Type) where
  Remote : RemoteInputBuffer I
  Queue : List (FInputPacketWrapper I)
  Target : Nat
  LastConsumed : Nat
deriving DecidableEq

/-- Modelled from the spec: the producer side of `ModelInputBuffer` (`Input.h`
is not part of the sources at hand) works on its part `Remote` as
`RemoteInputBuffer.ops` does. -/
def ModelInputBuffer.remoteOps (I : Type) :
    FInputBuffer (ModelInputBuffer I) (FInputPacketWrapper I) where
  Empty :=
    { Remote := (RemoteInputBuffer.ops I).Empty, Queue := [], Target := 0,
      LastConsumed := kInvalidFrame }
  QueueInputRemote b p := { b with Remote := (RemoteInputBuffer.ops I).QueueInputRemote b.Remote p }
  ConsumeInputRemote b out :=
    (((RemoteInputBuffer.ops I).ConsumeInputRemote b.Remote out).1,
      ((RemoteInputBuffer.ops I).ConsumeInputRemote b.Remote out).2.1,
      { b with Remote := ((RemoteInputBuffer.ops I).ConsumeInputRemote b.Remote out).2.2 })
  RemoteBufferSize b := (RemoteInputBuffer.ops I).RemoteBufferSize b.Remote
  Ack b PacketNumber := { b with Remote := (RemoteInputBuffer.ops I).Ack b.Remote PacketNumber }
  Rewind b PacketNumber :=
    { b with Remote := (RemoteInputBuffer.ops I).Rewind b.Remote PacketNumber }

/-- Modelled from the spec: the authority side of `ModelInputBuffer` (`Input.h`
is not part of the sources at hand). `queueRemote` inserts a received packet,
ignoring one whose number is at most the number consumed last or is queued
already; `consume` pops the oldest packet that was not consumed; `bufferSize`
counts the queue; the target size is a plain setting. -/
def ModelInputBuffer.authorityOps (I : Type) :
    FInputBufferAuthority (ModelInputBuffer I) (FInputPacketWrapper I) where
  SetAuthorityTargetBufferSize b TargetSize := { b with Target := TargetSize }
  GetAuthorityTargetBufferSize b := b.Target
  AuthorityBufferSize b := b.Queue.length
  QueueInputAuthority b p :=
    if (b.LastConsumed ≠ kInvalidFrame ∧ p.PacketNumber ≤ b.LastConsumed) ∨
        p.PacketNumber ∈ b.Queue.map (fun q => q.PacketNumber) then b
    else { b with Queue := b.Queue ++ [p] }
  ConsumeInputAuthority b out :=
    match b.Queue with
    | [] => (false, out, b)
    | p :: rest => (true, p, { b with Queue := rest, LastConsumed := p.PacketNumber })

/-- Concrete collaborators of a model over natural numbers: every produced
input is `1`, `Simulate` adds the input to the previous state and
`PostSimulate` leaves the state as it is. -/
def counterModelEnv : ModelEnv Nat Nat (ModelInputBuffer Nat) where
  InputDelegate := fun _ => 1
  Simulate := fun PrevState Input => PrevState + Input
  PostSimulate := fun State _ => State
  InputBuffer := ModelInputBuffer.remoteOps Nat
  AuthorityBuffer := ModelInputBuffer.authorityOps Nat

/-- A fresh authority model whose buffer received the packets numbered `0` to
`Count - 1`. -/
def filledModel (Count : Nat) : BaseClientPredictionModel Nat Nat (ModelInputBuffer Nat) :=
  { BaseClientPredictionModel.fresh counterModelEnv with
    InputBuffer := (List.range Count).foldl
      (fun b n => counterModelEnv.AuthorityBuffer.QueueInputAuthority b
        { PacketNumber := n, Packet := 1 })
      (BaseClientPredictionModel.fresh counterModelEnv).InputBuffer }

/-! ## Output generation and reception on the predicting driver -/

/-- The method `GenerateOutput`: a copy of `LastState` is interpolated towards
the current state by `Alpha` with the method `Interpolate` of the model state,
given as a function of the copy, `Alpha` and the target; the result is the
output together with the driver afterwards. -/
def GenerateOutput {A : Type} (Interpolate : S → A → S → S) (s : Driver I S B) (Alpha : A) :
    S × Driver I S B :=
  let InterpolatedState := Interpolate s.LastState Alpha s.CurrentState.State
  (InterpolatedState, s)

/-- The method `BaseClientPredictionModel::ReceiveAuthorityState`: the received
snapshot replaces `LastAuthorityState`. -/
def BaseClientPredictionModel.ReceiveAuthorityState (m : BaseClientPredictionModel I S B)
    (State : FModelStateWrapper S) : BaseClientPredictionModel I S B :=
  { m with LastAuthorityState := State }

/-! ## The roles of the model, and its remote side -/

/-- The network roles of the engine (`ENetRole`). -/
inductive ENetRole where
  | ROLE_None
  | ROLE_SimulatedProxy
  | ROLE_AutonomousProxy
  | ROLE_Authority
  | ROLE_MAX
deriving DecidableEq

/-- The constant `kClientForwardPredictionFrames` of `ClientPredictionModel.h`
(line 8), which differs from the one of the driver header. -/
def BaseClientPredictionModel.kClientForwardPredictionFrames : Nat := 10

/-- The method `PreTickRemote`: as the first part of the `Tick` of the driver,
a real tick (or a forced one with an empty buffer) produces, queues and emits a
packet; then a packet is consumed (a failed check is fatal) and becomes the
packet in use, and the new state is simulated from the previous one. -/
def PreTickRemote [Inhabited S] (env : ModelEnv I S B) (m : BaseClientPredictionModel I S B)
    (bIsForcedSimulation : Bool) : Except Error (BaseClientPredictionModel I S B) :=
  let m1 : BaseClientPredictionModel I S B :=
    if bIsForcedSimulation = false ∨ env.InputBuffer.RemoteBufferSize m.InputBuffer = 0 then
      let Packet : FInputPacketWrapper I :=
        { PacketNumber := m.NextInputPacket, Packet := env.InputDelegate m.Calls }
      let Window : List (FInputPacketWrapper I) :=
        Packet :: (if kInputWindowSize ≤ m.SlidingInputWindow.length
          then m.SlidingInputWindow.dropLast else m.SlidingInputWindow)
      { m with
        NextInputPacket := wrap32 (m.NextInputPacket + 1)
        InputBuffer := env.InputBuffer.QueueInputRemote m.InputBuffer Packet
        SlidingInputWindow := Window
        Calls := m.Calls ++ [ModelCall.InputDelegate, ModelCall.EmitInputPackets Window] }
    else m
  let r := env.InputBuffer.ConsumeInputRemote m1.InputBuffer m1.CurrentInputPacket
  if r.1 = true then
    Except.ok { m1 with
      CurrentInputPacket := r.2.1
      InputBuffer := r.2.2
      CurrentInputPacketIdx := r.2.1.PacketNumber
      CurrentState :=
        { FModelStateWrapper.Default S with
          State := env.Simulate m1.CurrentState.State r.2.1.Packet }
      Calls := m1.Calls ++ [ModelCall.Simulate m1.CurrentState.State r.2.1.Packet] }
  else Except.error Error.BufferUnderflow

/-- The method `BaseClientPredictionModel::Rewind_Internal`: the history is
emptied, the acked frame, the next frame and the packet in use are set from
the given state, the input buffer and the body are rewound. -/
def BaseClientPredictionModel.Rewind_Internal (env : ModelEnv I S B)
    (m : BaseClientPredictionModel I S B) (State : FModelStateWrapper S) :
    BaseClientPredictionModel I S B :=
  { m with
    ClientHistory := []
    AckedServerFrame := State.FrameNumber
    NextLocalFrame := wrap32 (State.FrameNumber + 1)
    InputBuffer := env.InputBuffer.Rewind m.InputBuffer State.InputPacketNumber
    CurrentInputPacketIdx := State.InputPacketNumber
    Calls := m.Calls ++
      [ModelCall.InputBufferRewind State.InputPacketNumber, ModelCall.Rewind State.State] }

/-- The call of `Rewind_Internal` followed by the call of the function
`ForceSimulate`, which the model only calls: the owner of the model runs the
forced ticks (lines 375-377 and 400-402). -/
def BaseClientPredictionModel.RewindAndResimulate (env : ModelEnv I S B)
    (m : BaseClientPredictionModel I S B) : BaseClientPredictionModel I S B :=
  let m1 := m.Rewind_Internal env m.LastAuthorityState
  { m1 with
    Calls := m1.Calls ++ [ModelCall.ForceSimulate
      (max BaseClientPredictionModel.kClientForwardPredictionFrames
        (env.InputBuffer.RemoteBufferSize m1.InputBuffer))] }

/-- The method `PostTickRemote`: `PostSimulate` runs on the current state, the
state gets the next frame number and the number of the packet in use and is
enqueued in the history; a forced tick returns there, a real tick reconciles
with the last authority state as the `Tick` of the driver does. -/
def PostTickRemote [BEq S] [Inhabited S] (env : ModelEnv I S B)
    (m : BaseClientPredictionModel I S B) (bIsForcedSimulation : Bool) :
    Except Error (BaseClientPredictionModel I S B) :=
  let CurrentState : FModelStateWrapper S :=
    { FrameNumber := m.NextLocalFrame
      InputPacketNumber := m.CurrentInputPacketIdx
      State := env.PostSimulate m.CurrentState.State m.CurrentInputPacket.Packet }
  let m : BaseClientPredictionModel I S B :=
    { m with
      CurrentState := CurrentState
      NextLocalFrame := wrap32 (m.NextLocalFrame + 1)
      ClientHistory := m.ClientHistory ++ [CurrentState]
      Calls := m.Calls ++
        [ModelCall.PostSimulate m.CurrentState.State m.CurrentInputPacket.Packet] }
  if bIsForcedSimulation = true then Except.ok m
  else if m.LastAuthorityState.FrameNumber = kInvalidFrame then Except.ok m
  else if m.LastAuthorityState.FrameNumber ≤ m.AckedServerFrame ∧
      m.AckedServerFrame ≠ kInvalidFrame then Except.ok m
  else if m.LastAuthorityState.InputPacketNumber = kInvalidFrame then Except.ok m
  else if m.LastAuthorityState.FrameNumber > m.CurrentState.FrameNumber then
    Except.ok (m.RewindAndResimulate env)
  else
    let d := drainHistory m.LastAuthorityState.FrameNumber m.ClientHistory
      (FModelStateWrapper.Default S)
    let m := { m with ClientHistory := d.2.2 }
    if d.1 = false then Except.error Error.HistoryNotFound
    else if d.2.1.opEq m.LastAuthorityState = true then
      Except.ok { m with
        AckedServerFrame := m.LastAuthorityState.FrameNumber
        InputBuffer := env.InputBuffer.Ack m.InputBuffer m.LastAuthorityState.InputPacketNumber
        Calls := m.Calls ++ [ModelCall.InputBufferAck m.LastAuthorityState.InputPacketNumber] }
    else Except.ok (m.RewindAndResimulate env)

/-- The method `BaseClientPredictionModel::PreTick`: the authority and the
autonomous proxy run their part, every other role returns at once. -/
def BaseClientPredictionModel.PreTick [Inhabited S] (env : ModelEnv I S B)
    (m : BaseClientPredictionModel I S B) (bIsForcedSimulation : Bool) (Role : ENetRole) :
    Except Error (BaseClientPredictionModel I S B) :=
  match Role with
  | ENetRole.ROLE_Authority => PreTickAuthority env m
  | ENetRole.ROLE_AutonomousProxy => PreTickRemote env m bIsForcedSimulation
  | _ => Except.ok m

/-- The method `BaseClientPredictionModel::PostTick`: the authority and the
autonomous proxy run their part, every other role returns at once. -/
def BaseClientPredictionModel.PostTick [BEq S] [Inhabited S] (env : ModelEnv I S B)
    (m : BaseClientPredictionModel I S B) (bIsForcedSimulation : Bool) (Role : ENetRole) :
    Except Error (BaseClientPredictionModel I S B) :=
  match Role with
  | ENetRole.ROLE_Authority => Except.ok (PostTickAuthority env m)
  | ENetRole.ROLE_AutonomousProxy => PostTickRemote env m bIsForcedSimulation
  | _ => Except.ok m

/-- The method `BaseClientPredictionModel::GameThreadTick`: for a simulated
proxy the body is rewound to the last authority state when that state has a
valid frame number; every other role does nothing. -/
def BaseClientPredictionModel.GameThreadTick (m : BaseClientPredictionModel I S B)
    (Role : ENetRole) : BaseClientPredictionModel I S B :=
  match Role with
  | ENetRole.ROLE_SimulatedProxy =>
    let LocalLastAuthorityState := m.LastAuthorityState
    if LocalLastAuthorityState.FrameNumber ≠ kInvalidFrame then
      { m with Calls := m.Calls ++ [ModelCall.Rewind LocalLastAuthorityState.State] }
    else m
  | _ => m

/-- The calls of the simulation and of the emission of input or state. -/
def ModelCall.isSimulationOrEmission {I S : Type} : ModelCall I S → Bool
  | .Simulate _ _ => true
  | .PostSimulate _ _ => true
  | .EmitInputPackets _ => true
  | .EmitAuthorityState _ => true
  | _ => false

/-- A model on a simulated proxy that received the authority state of frame
`3` with the body `42`. -/
def proxyModel : BaseClientPredictionModel Nat Nat (ModelInputBuffer Nat) :=
  (BaseClientPredictionModel.fresh counterModelEnv).ReceiveAuthorityState
    { FrameNumber := 3, InputPacketNumber := 0, State := 42 }

/-! ## The events of a tick -/

/-- The method `FSimOutput::DispatchEvent`: the check `Event < 8` is fatal
when it fails; otherwise the bit of the event is set in the mask of the
state, an eight bit value. -/
def FSimOutput.DispatchEvent {St : Type} (PhysState : FPhysicsState St) (Event : Nat) :
    Option (FPhysicsState St) :=
  if Event < 8 then
    some { PhysState with Events := (PhysState.Events ||| (1 <<< Event)) % 256 }
  else none

/-- The events raised one after the other through `FSimOutput::DispatchEvent`
on the same state. -/
def FSimOutput.DispatchEventList {St : Type} :
    FPhysicsState St → List Nat → Option (FPhysicsState St)
  | PhysState, [] => some PhysState
  | PhysState, Event :: rest =>
    match FSimOutput.DispatchEvent PhysState Event with
    | none => none
    | some PhysState1 => FSimOutput.DispatchEventList PhysState1 rest

/-- The method `FPhysicsModel::DispatchEvents`: the events with which
`DispatchEventDelegate` is executed, in the order of the calls; the loop runs
over the events `0` to `7` and tests the bit of each. -/
def DispatchEvents {St : Type} (State : FPhysicsState St) : List Nat :=
  (List.range 8).filter (fun Event => State.Events &&& (1 <<< Event) ≠ 0)

/-! ## The drivers of the physics model and its roles -/

/-- The drivers a physics model holds in `ModelDriver`: the authority driver,
or the driver of the auto proxy, whose class `FModelAutoProxyDriver` is not
part of the sources at hand and whose state is the type `AP`. -/
inductive IModelDriver (I St Sim Buf AP : Type) where
  | Auth (d : FModelAuthDriver I St Sim Buf)
  | AutoProxy (d : AP)

/-- The calls of a physics model on its world manager, with the serial number
of the driver they are made for. -/
inductive WorldManagerCall where
  | RemoveTickCallback (Driver : Nat)
  | AddTickCallback (Driver : Nat)
  | AddRewindCallback (Driver : Nat)
deriving DecidableEq

/-- The collaborators of a physics model: the initial state of the base class
and of the input buffer of an authority driver, `FAuthInputBuf::QueueInputPackets`,
and the construction and the reception of input packets of the driver of the
auto proxy. -/
structure PhysicsModelEnv (I Sim Buf AP : Type) where
  AuthBase : Sim
  AuthInputBuf : Buf
  QueueInputPackets : Buf → List (FInputPacket I) → Buf
  AutoProxy : AP
  AutoProxyReceiveInputPackets : AP → List (FInputPacket I) → AP

/-- The fields of `FPhysicsModel`: whether the three cached pointers are set,
the driver held in `ModelDriver` together with the serial number of its
construction, the number of the drivers constructed so far, and the calls made
on the world manager. -/
structure FPhysicsModel (I St Sim Buf AP : Type) where
  CachedComponent : Bool
  CachedWorldManager : Bool
  Delegate : Bool
  ModelDriver : Option (Nat × IModelDriver I St Sim Buf AP)
  Constructed : Nat
  Calls : List WorldManagerCall

/-- A physics model after `Initialize`: the pointers are set, there is no
driver. -/
def FPhysicsModel.Initialized (I St Sim Buf AP : Type) : FPhysicsModel I St Sim Buf AP :=
  { CachedComponent := true
    CachedWorldManager := true
    Delegate := true
    ModelDriver := none
    Constructed := 0
    Calls := [] }

/-- The method `FModelAuthDriver::ReceiveInputPackets`: the packets are queued
in the input buffer. -/
def FModelAuthDriver.ReceiveInputPackets {I St Sim Buf : Type}
    (QueueInputPackets : Buf → List (FInputPacket I) → Buf) (d : FModelAuthDriver I St Sim Buf)
    (Packets : List (FInputPacket I)) : FModelAuthDriver I St Sim Buf :=
  { d with InputBuf := QueueInputPackets d.InputBuf Packets }

/-- The method `FPhysicsModel::SetNetRole`: the three checks are fatal when
they fail; the tick callback of the driver held so far is removed; then the
authority and the autonomous proxy construct their driver, register it and
store it in `ModelDriver`, and every other role leaves the switch at once. -/
def FPhysicsModel.SetNetRole {I St Sim Buf AP : Type} [Inhabited I] [Inhabited St]
    (env : PhysicsModelEnv I Sim Buf AP) (m : FPhysicsModel I St Sim Buf AP) (Role : ENetRole) :
    Option (FPhysicsModel I St Sim Buf AP) :=
  if m.CachedWorldManager = true ∧ m.CachedComponent = true ∧ m.Delegate = true then
    let m : FPhysicsModel I St Sim Buf AP :=
      match m.ModelDriver with
      | some d => { m with Calls := m.Calls ++ [WorldManagerCall.RemoveTickCallback d.1] }
      | none => m
    match Role with
    | ENetRole.ROLE_Authority =>
      some { m with
        ModelDriver :=
          some (m.Constructed, IModelDriver.Auth (FModelAuthDriver.fresh env.AuthBase env.AuthInputBuf))
        Constructed := m.Constructed + 1
        Calls := m.Calls ++ [WorldManagerCall.AddTickCallback m.Constructed] }
    | ENetRole.ROLE_AutonomousProxy =>
      some { m with
        ModelDriver := some (m.Constructed, IModelDriver.AutoProxy env.AutoProxy)
        Constructed := m.Constructed + 1
        Calls := m.Calls ++ [WorldManagerCall.AddTickCallback m.Constructed,
          WorldManagerCall.AddRewindCallback m.Constructed] }
    | _ => some m
  else none

/-- The method `FPhysicsModel::ReceiveInputPackets`: without a driver nothing
happens, otherwise the packets are handed to the driver held in `ModelDriver`. -/
def FPhysicsModel.ReceiveInputPackets {I St Sim Buf AP : Type}
    (env : PhysicsModelEnv I Sim Buf AP) (m : FPhysicsModel I St Sim Buf AP)
    (Packets : List (FInputPacket I)) : FPhysicsModel I St Sim Buf AP :=
  match m.ModelDriver with
  | none => m
  | some (n, IModelDriver.Auth d) =>
    { m with
      ModelDriver :=
        some (n, IModelDriver.Auth (d.ReceiveInputPackets env.QueueInputPackets Packets)) }
  | some (n, IModelDriver.AutoProxy d) =>
    { m with
      ModelDriver :=
        some (n, IModelDriver.AutoProxy (env.AutoProxyReceiveInputPackets d Packets)) }

/-- The method `FPhysicsModel::Cleanup`: the tick callback of the driver is
removed when there is a world manager and a driver, and both pointers are
reset. -/
def FPhysicsModel.Cleanup {I St Sim Buf AP : Type} (m : FPhysicsModel I St Sim Buf AP) :
    FPhysicsModel I St Sim Buf AP :=
  let m : FPhysicsModel I St Sim Buf AP :=
    match m.CachedWorldManager, m.ModelDriver with
    | true, some d => { m with Calls := m.Calls ++ [WorldManagerCall.RemoveTickCallback d.1] }
    | _, _ => m
  { m with CachedWorldManager := false, ModelDriver := none }

/-- The input buffer of the driver a physics model holds when that driver is
an authority driver. -/
def FPhysicsModel.authorityInputBuf {I St Sim Buf AP : Type} (m : FPhysicsModel I St Sim Buf AP) :
    Option (Nat × Buf) :=
  match m.ModelDriver with
  | some (n, IModelDriver.Auth d) => some (n, d.InputBuf)
  | _ => none

/-- Concrete collaborators of a physics model over natural numbers: the input
buffer of the authority driver is the list of the packets queued so far, the
driver of the auto proxy has no state. -/
def listPhysicsModelEnv : PhysicsModelEnv Nat Unit (List (FInputPacket Nat)) Unit where
  AuthBase := ()
  AuthInputBuf := []
  QueueInputPackets := fun Buf Packets => Buf ++ Packets
  AutoProxy := ()
  AutoProxyReceiveInputPackets := fun d _ => d

/-! ## Serialisation -/

/-- A serialisation function of the engine or of a user type (`Ar << X`,
`X.NetSerialize(Ar)`) over an archive of items of type `Tok`, in its two
directions: `Save` gives the items a saving archive appends for a value,
`Load` reads a value from the front of a loading archive and gives what is
left of it. -/
structure NetSerializer (Tok T : Type) where
  Save : T → List Tok
  Load : List Tok → Option (T × List Tok)

/-- A serialisation function reads back what it wrote, for the values with the
property `P`. -/
def NetSerializer.RoundTrips {Tok T : Type} (ser : NetSerializer Tok T) (P : T → Prop) : Prop :=
  ∀ x rest, P x → ser.Load (ser.Save x ++ rest) = some (x, rest)

/-- The method `FModelStateWrapper::NetSerialize` on a saving archive: the frame
number, the input packet number, then the body. -/
def FModelStateWrapper.NetSerializeSave {Tok : Type} (UInt32 : NetSerializer Tok Nat)
    (Body : NetSerializer Tok S) (w : FModelStateWrapper S) : List Tok :=
  UInt32.Save w.FrameNumber ++ (UInt32.Save w.InputPacketNumber ++ Body.Save w.State)

/-- The method `FModelStateWrapper::NetSerialize` on a loading archive: the frame
number, the input packet number, then the body. -/
def FModelStateWrapper.NetSerializeLoad {Tok : Type} (UInt32 : NetSerializer Tok Nat)
    (Body : NetSerializer Tok S) (Ar : List Tok) : Option (FModelStateWrapper S × List Tok) :=
  match UInt32.Load Ar with
  | none => none
  | some (FrameNumber, Ar) =>
    match UInt32.Load Ar with
    | none => none
    | some (InputPacketNumber, Ar) =>
      match Body.Load Ar with
      | none => none
      | some (State, Ar) =>
        some ({ FrameNumber := FrameNumber, InputPacketNumber := InputPacketNumber,
                State := State }, Ar)

/-- The method `FInputPacketWrapper::NetSerialize` on a saving archive: the packet
number, then the payload. -/
def FInputPacketWrapper.NetSerializeSave {Tok : Type} (UInt32 : NetSerializer Tok Nat)
    (Payload : NetSerializer Tok I) (w : FInputPacketWrapper I) : List Tok :=
  UInt32.Save w.PacketNumber ++ Payload.Save w.Packet

/-- The method `FInputPacketWrapper::NetSerialize` on a loading archive: the packet
number, then the payload. -/
def FInputPacketWrapper.NetSerializeLoad {Tok : Type} (UInt32 : NetSerializer Tok Nat)
    (Payload : NetSerializer Tok I) (Ar : List Tok) : Option (FInputPacketWrapper I × List Tok) :=
  match UInt32.Load Ar with
  | none => none
  | some (PacketNumber, Ar) =>
    match Payload.Load Ar with
    | none => none
    | some (Packet, Ar) => some ({ PacketNumber := PacketNumber, Packet := Packet }, Ar)

/-- A concrete serialisation function: a natural number is one item of the
archive. -/
def itemSerializer : NetSerializer Nat Nat where
  Save := fun n => [n]
  Load := fun Ar =>
    match Ar with
    | [] => none
    | n :: rest => some (n, rest)

/-! ## Concrete drivers near the end of the frame numbers and in a scenario -/

/-- A fresh driver that received an authority state whose frame number is four
below the largest `uint32`. -/
def wrapStart : Driver Nat Nat (RemoteInputBuffer Nat) :=
  ReceiveAuthorityState (Driver.fresh counterEnv)
    { FrameNumber := 4294967291, InputPacketNumber := 0, State := 42 }

/-- The driver `wrapStart` after its first real tick: it jumped to the frame of
the authority state and resimulated five frames. -/
def wrapEnd : Driver Nat Nat (RemoteInputBuffer Nat) :=
  ForceBody counterEnv 5 (Rewound counterEnv (TickBody counterEnv wrapStart false))

/-- A fresh driver that received an authority state for frame `134`. -/
def scenarioBase : Driver Nat Nat (RemoteInputBuffer Nat) :=
  ReceiveAuthorityState (Driver.fresh counterEnv)
    { FrameNumber := 134, InputPacketNumber := 0, State := 42 }

/-- The driver `scenarioBase` after its first real tick, which leaves it at
frame `140`, and after the reception of an authority state for frame `150`
that used the input packet `5`. -/
def scenarioStart : Driver Nat Nat (RemoteInputBuffer Nat) :=
  ReceiveAuthorityState
    (ForceBody counterEnv 5 (Rewound counterEnv (TickBody counterEnv scenarioBase false)))
    { FrameNumber := 150, InputPacketNumber := 5, State := 42 }

/-- The driver `scenarioStart` after its next real tick: it simulated frame
`140`, jumped to frame `150` and resimulated five frames. -/
def scenarioEnd : Driver Nat Nat (RemoteInputBuffer Nat) :=
  ForceBody counterEnv 5 (Rewound counterEnv (TickBody counterEnv scenarioStart false))

/-- An authority driver whose latest state is the one of tick `4`, and which
has emitted nothing yet. -/
def emittingDriver : FModelAuthDriver Nat Nat Unit (Nat × Nat) :=
  { (FModelAuthDriver.fresh () (3, 0) : FModelAuthDriver Nat Nat Unit (Nat × Nat)) with
    LastStateGt := { TickNumber := 4, InputPacketNumber := 2, Body := 42, Events := 0 } }

/-! ## Auxiliary definitions for the statements about the reconciliation -/

/-- The authority state of the driver passes the three guards of lines 106 to
119 of `Tick`: its frame number is valid, it is not acked yet, and its input
packet number is valid. -/
def PassesGuards (s : Driver I S B) : Prop :=
  s.LastAuthorityState.FrameNumber ≠ kInvalidFrame ∧
    ¬ (s.LastAuthorityState.FrameNumber ≤ s.AckedFrame ∧ s.AckedFrame ≠ kInvalidFrame) ∧
    s.LastAuthorityState.InputPacketNumber ≠ kInvalidFrame

/-- The states a driver can go through after the state `s`: it receives
authority states and runs real ticks, in any order. Only ticks that return are
followed. -/
inductive Later [BEq S] [Inhabited S] (env : Env I S B) (s : Driver I S B) :
    Driver I S B → Prop where
  | refl : Later env s s
  | receive {t : Driver I S B} (State : FModelStateWrapper S) :
      Later env s t → Later env s (ReceiveAuthorityState t State)
  | tick {t t' : Driver I S B} :
      Later env s t → Tick env t false = Except.ok t' → Later env s t'

/-- A fresh driver that received an authority state for frame `0` with the
body `1` its first tick will produce, but with the input packet number `7`
instead of `0`. -/
def packetMismatchStart : Driver Nat Nat (RemoteInputBuffer Nat) :=
  ReceiveAuthorityState (Driver.fresh counterEnv)
    { FrameNumber := 0, InputPacketNumber := 7, State := 1 }

/-! ## Settings and buffers outside the usual range -/

/-- Settings with the console variable `cp.DesiredInputBufferSize`, a signed
integer, set to `-1`, and the smoothing factor one half. -/
def negativeSettings : AuthSettings where
  ClientPredictionDesiredInputBufferSize := -1
  ClientPredictionTimeDilationAlpha := 1 / 2

/-- The size of the input buffer and the desired size, the setting plus the
number of the recently dropped packets, are values that the `uint16` locals of
`PostPhysicsGameThread` hold exactly. -/
def BufferInRange {I Sim Buf : Type} (cfg : AuthSettings) (env : AuthEnv I Sim Buf)
    (InputBuf : Buf) : Prop :=
  env.GetBufferSize InputBuf < 65536 ∧
    0 ≤ cfg.ClientPredictionDesiredInputBufferSize +
      env.GetNumRecentlyDroppedInputPackets InputBuf ∧
    cfg.ClientPredictionDesiredInputBufferSize +
      env.GetNumRecentlyDroppedInputPackets InputBuf < 65536

/-- The input buffer is above the desired size, in the words of the spec: the
sizes themselves are compared. -/
def BufferOverDesired {I Sim Buf : Type} (cfg : AuthSettings) (env : AuthEnv I Sim Buf)
    (InputBuf : Buf) : Prop :=
  cfg.ClientPredictionDesiredInputBufferSize +
    env.GetNumRecentlyDroppedInputPackets InputBuf < (env.GetBufferSize InputBuf : Int)

/-- The input buffer is under the desired size, in the words of the spec: the
sizes themselves are compared. -/
def BufferBelowDesired {I Sim Buf : Type} (cfg : AuthSettings) (env : AuthEnv I Sim Buf)
    (InputBuf : Buf) : Prop :=
  (env.GetBufferSize InputBuf : Int) < cfg.ClientPredictionDesiredInputBufferSize +
    env.GetNumRecentlyDroppedInputPackets InputBuf

/-- An authority driver whose suggested time dilation is `0`. -/
def levelDriver : FModelAuthDriver Nat Nat Unit (Nat × Nat) :=
  { (FModelAuthDriver.fresh () (6, 0) : FModelAuthDriver Nat Nat Unit (Nat × Nat)) with
    LastSuggestedTimeDilation := 0 }

/-! # Lemmas -/

/-! ## The simulated part of a tick -/

theorem wrap32_of_lt {n : Nat} (h : n < 4294967296) : wrap32 n = n :=
  Nat.mod_eq_of_lt h

theorem wrap32_lt (n : Nat) : wrap32 n < 4294967296 :=
  Nat.mod_lt _ (by decide)

theorem PreTick_Calls (env : Env I S B) (s : Driver I S B) (f : Bool) :
    (PreTick env s f).Calls = s.Calls ++ preTickCalls env s f := by
  unfold preTickCalls PreTick
  split <;> simp

theorem preTickCalls_reconcile (env : Env I S B) (s : Driver I S B) (f : Bool) :
    (preTickCalls env s f).filter Call.isReconcile = [] := by
  unfold preTickCalls PreTick
  split <;> simp [Call.isReconcile]

theorem preTickCalls_simulate (env : Env I S B) (s : Driver I S B) (f : Bool) :
    (preTickCalls env s f).countP Call.isSimulate = 0 := by
  unfold preTickCalls PreTick
  split <;> simp [Call.isSimulate]

@[simp]
theorem PreTick_AckedFrame (env : Env I S B) (s : Driver I S B) (f : Bool) :
    (PreTick env s f).AckedFrame = s.AckedFrame := by
  unfold PreTick; split <;> rfl

@[simp]
theorem PreTick_NextFrame (env : Env I S B) (s : Driver I S B) (f : Bool) :
    (PreTick env s f).NextFrame = s.NextFrame := by
  unfold PreTick; split <;> rfl

@[simp]
theorem PreTick_History (env : Env I S B) (s : Driver I S B) (f : Bool) :
    (PreTick env s f).History = s.History := by
  unfold PreTick; split <;> rfl

@[simp]
theorem PreTick_LastAuthorityState (env : Env I S B) (s : Driver I S B) (f : Bool) :
    (PreTick env s f).LastAuthorityState = s.LastAuthorityState := by
  unfold PreTick; split <;> rfl

@[simp]
theorem PreTick_LastState (env : Env I S B) (s : Driver I S B) (f : Bool) :
    (PreTick env s f).LastState = s.LastState := by
  unfold PreTick; split <;> rfl

@[simp]
theorem TickBody_AckedFrame (env : Env I S B) (s : Driver I S B) (f : Bool) :
    (TickBody env s f).AckedFrame = s.AckedFrame := by
  simp [TickBody]

@[simp]
theorem TickBody_LastAuthorityState (env : Env I S B) (s : Driver I S B) (f : Bool) :
    (TickBody env s f).LastAuthorityState = s.LastAuthorityState := by
  simp [TickBody]

@[simp]
theorem TickBody_NextFrame (env : Env I S B) (s : Driver I S B) (f : Bool) :
    (TickBody env s f).NextFrame = wrap32 (s.NextFrame + 1) := by
  simp [TickBody]

@[simp]
theorem TickBody_LastState (env : Env I S B) (s : Driver I S B) (f : Bool) :
    (TickBody env s f).LastState = s.CurrentState.State := by
  simp [TickBody]

@[simp]
theorem TickBody_CurrentState_FrameNumber (env : Env I S B) (s : Driver I S B) (f : Bool) :
    (TickBody env s f).CurrentState.FrameNumber = s.NextFrame := by
  simp [TickBody]

theorem TickBody_History (env : Env I S B) (s : Driver I S B) (f : Bool) :
    (TickBody env s f).History = s.History ++ [(TickBody env s f).CurrentState] := by
  simp [TickBody]

theorem TickBody_Calls (env : Env I S B) (s : Driver I S B) (f : Bool) :
    (TickBody env s f).Calls = s.Calls ++ tickBodyCalls env s f := by
  simp [TickBody, tickBodyCalls, PreTick_Calls]

theorem tickBodyCalls_reconcile (env : Env I S B) (s : Driver I S B) (f : Bool) :
    (tickBodyCalls env s f).filter Call.isReconcile = [] := by
  simp [tickBodyCalls, preTickCalls_reconcile, Call.isReconcile]

theorem tickBodyCalls_simulate (env : Env I S B) (s : Driver I S B) (f : Bool) :
    (tickBodyCalls env s f).countP Call.isSimulate = 1 := by
  simp [tickBodyCalls, preTickCalls_simulate, Call.isSimulate]

/-- With a lawful buffer the check of line 89 passes in every state. -/
theorem consumed_ok (env : Env I S B) (hbuf : env.InputBuffer.Lawful) (s : Driver I S B)
    (f : Bool) : (consumed env s f).1 = true := by
  unfold consumed PreTick
  split
  · exact hbuf.consume_queue _ _ _
  · rename_i h
    apply hbuf.consume_pos
    simp only [not_or] at h
    exact Nat.pos_of_ne_zero h.2

theorem TickSimulate_ok (env : Env I S B) (hbuf : env.InputBuffer.Lawful) (s : Driver I S B)
    (f : Bool) : TickSimulate env s f = Except.ok (TickBody env s f) := by
  simp [TickSimulate, consumed_ok env hbuf s f]

/-- A forced tick is the simulated part alone: it returns at line 103. -/
theorem Tick_forced [BEq S] [Inhabited S] (env : Env I S B) (s : Driver I S B) :
    Tick env s true = TickSimulate env s true := by
  unfold Tick
  cases TickSimulate env s true <;> simp


/-! ## Forced resimulation -/

theorem TickSimulate_eq_ok {env : Env I S B} {s s1 : Driver I S B} {f : Bool}
    (h : TickSimulate env s f = Except.ok s1) : s1 = TickBody env s f := by
  unfold TickSimulate at h
  split at h
  · exact (Except.ok.inj h).symm
  · cases h

theorem ForceSimulate_eq_ok {env : Env I S B} :
    ∀ (n : Nat) {s s1 : Driver I S B}, ForceSimulate env n s = Except.ok s1 →
      s1 = ForceBody env n s
  | 0, s, s1, h => by
    simp only [ForceSimulate] at h
    exact (Except.ok.inj h).symm
  | n + 1, s, s1, h => by
    simp only [ForceSimulate] at h
    split at h
    · cases h
    · rename_i s2 h2
      rw [ForceBody, ← TickSimulate_eq_ok h2]
      exact ForceSimulate_eq_ok n h

theorem ForceSimulate_ok (env : Env I S B) (hbuf : env.InputBuffer.Lawful) :
    ∀ (n : Nat) (s : Driver I S B), ForceSimulate env n s = Except.ok (ForceBody env n s)
  | 0, s => rfl
  | n + 1, s => by
    simp only [ForceSimulate, TickSimulate_ok env hbuf, ForceBody]
    exact ForceSimulate_ok env hbuf n _

@[simp]
theorem ForceBody_AckedFrame (env : Env I S B) :
    ∀ (n : Nat) (s : Driver I S B), (ForceBody env n s).AckedFrame = s.AckedFrame
  | 0, s => rfl
  | n + 1, s => by rw [ForceBody, ForceBody_AckedFrame env n, TickBody_AckedFrame]

@[simp]
theorem ForceBody_LastAuthorityState (env : Env I S B) :
    ∀ (n : Nat) (s : Driver I S B),
      (ForceBody env n s).LastAuthorityState = s.LastAuthorityState
  | 0, s => rfl
  | n + 1, s => by
    rw [ForceBody, ForceBody_LastAuthorityState env n, TickBody_LastAuthorityState]

theorem ForceBody_NextFrame (env : Env I S B) :
    ∀ (n : Nat) (s : Driver I S B), s.NextFrame + n < 4294967296 →
      (ForceBody env n s).NextFrame = s.NextFrame + n
  | 0, s, _ => rfl
  | n + 1, s, h => by
    have h1 : wrap32 (s.NextFrame + 1) = s.NextFrame + 1 := wrap32_of_lt (by omega)
    rw [ForceBody, ForceBody_NextFrame env n, TickBody_NextFrame, h1]
    · omega
    · rw [TickBody_NextFrame, h1]; omega

theorem ForceBody_History (env : Env I S B) :
    ∀ (n : Nat) (s : Driver I S B),
      (ForceBody env n s).History = s.History ++ forceBodyHistory env n s
  | 0, s => by simp [forceBodyHistory, ForceBody]
  | n + 1, s => by
    have ih := ForceBody_History env n (TickBody env s true)
    have hb := TickBody_History env s true
    unfold forceBodyHistory
    rw [ForceBody, ih, hb]
    simp

theorem forceBodyHistory_succ (env : Env I S B) (n : Nat) (s : Driver I S B) :
    forceBodyHistory env (n + 1) s =
      (TickBody env s true).CurrentState :: forceBodyHistory env n (TickBody env s true) := by
  have ih := ForceBody_History env n (TickBody env s true)
  have hb := TickBody_History env s true
  unfold forceBodyHistory at *
  rw [ForceBody, ih, hb]
  simp

theorem forceBodyHistory_length (env : Env I S B) :
    ∀ (n : Nat) (s : Driver I S B), (forceBodyHistory env n s).length = n
  | 0, s => by simp [forceBodyHistory, ForceBody]
  | n + 1, s => by
    rw [forceBodyHistory_succ, List.length_cons, forceBodyHistory_length env n]

theorem forceBodyHistory_frames (env : Env I S B) :
    ∀ (n : Nat) (s : Driver I S B), s.NextFrame + n < 4294967296 →
      (forceBodyHistory env n s).map (fun h => h.FrameNumber) = List.range' s.NextFrame n
  | 0, s, _ => by simp [forceBodyHistory, ForceBody]
  | n + 1, s, h => by
    have h1 : wrap32 (s.NextFrame + 1) = s.NextFrame + 1 := wrap32_of_lt (by omega)
    rw [forceBodyHistory_succ, List.map_cons, forceBodyHistory_frames env n,
      TickBody_CurrentState_FrameNumber, TickBody_NextFrame, h1, List.range'_succ]
    rw [TickBody_NextFrame, h1]; omega

theorem ForceBody_Calls (env : Env I S B) :
    ∀ (n : Nat) (s : Driver I S B),
      (ForceBody env n s).Calls = s.Calls ++ forceBodyCalls env n s
  | 0, s => by simp [forceBodyCalls, ForceBody]
  | n + 1, s => by
    have ih := ForceBody_Calls env n (TickBody env s true)
    have hb := TickBody_Calls env s true
    unfold forceBodyCalls
    rw [ForceBody, ih, hb]
    simp

theorem forceBodyCalls_succ (env : Env I S B) (n : Nat) (s : Driver I S B) :
    forceBodyCalls env (n + 1) s =
      tickBodyCalls env s true ++ forceBodyCalls env n (TickBody env s true) := by
  have ih := ForceBody_Calls env n (TickBody env s true)
  have hb := TickBody_Calls env s true
  unfold forceBodyCalls at *
  rw [ForceBody, ih, hb]
  simp

theorem forceBodyCalls_reconcile (env : Env I S B) :
    ∀ (n : Nat) (s : Driver I S B), (forceBodyCalls env n s).filter Call.isReconcile = []
  | 0, s => by simp [forceBodyCalls, ForceBody]
  | n + 1, s => by
    rw [forceBodyCalls_succ, List.filter_append, tickBodyCalls_reconcile,
      forceBodyCalls_reconcile env n, List.append_nil]

theorem forceBodyCalls_simulate (env : Env I S B) :
    ∀ (n : Nat) (s : Driver I S B), (forceBodyCalls env n s).countP Call.isSimulate = n
  | 0, s => by simp [forceBodyCalls, ForceBody]
  | n + 1, s => by
    rw [forceBodyCalls_succ, List.countP_append, tickBodyCalls_simulate,
      forceBodyCalls_simulate env n]
    omega

/-! ## The history drain -/

/-- In a queue with strictly increasing frame numbers the drain stops at the
entry with the frame number looked for and leaves the entries after it. -/
theorem drainHistory_found (a : Nat) :
    ∀ (H : List (FModelStateWrapper S)) (d h : FModelStateWrapper S),
      (H.map (fun h => h.FrameNumber)).Pairwise (fun a b => a < b) →
      h ∈ H → h.FrameNumber = a →
      drainHistory a H d = (true, h, H.filter (fun x => decide (a < x.FrameNumber)))
  | [], d, h, _, hmem, _ => by cases hmem
  | x :: xs, d, h, hp, hmem, hf => by
    simp only [List.map_cons, List.pairwise_cons, List.mem_map, forall_exists_index,
      and_imp, forall_apply_eq_imp_iff₂] at hp
    by_cases hx : x.FrameNumber = a
    · have hhx : h = x := by
        rcases List.mem_cons.1 hmem with h1 | h1
        · exact h1
        · have := hp.1 h h1
          omega
      have hall : xs.filter (fun y => decide (a < y.FrameNumber)) = xs := by
        apply List.filter_eq_self.2
        intro y hy
        have := hp.1 y hy
        simp only [decide_eq_true_eq]
        omega
      simp [drainHistory, hx, hhx, hall]
    · have hmem2 : h ∈ xs := by
        rcases List.mem_cons.1 hmem with h1 | h1
        · exact absurd (h1 ▸ hf) hx
        · exact h1
      have hlt := hp.1 h hmem2
      have hnot : ¬ a < x.FrameNumber := by omega
      simp [drainHistory, hx, hnot, drainHistory_found a xs x h hp.2 hmem2 hf]

/-- The drain finds something exactly when some entry has the frame number. -/
theorem drainHistory_fst (a : Nat) :
    ∀ (H : List (FModelStateWrapper S)) (d : FModelStateWrapper S),
      (drainHistory a H d).1 = true ↔ ∃ h ∈ H, h.FrameNumber = a
  | [], d => by simp [drainHistory]
  | x :: xs, d => by
    by_cases hx : x.FrameNumber = a
    · simp [drainHistory, hx]
    · simp [drainHistory, hx, drainHistory_fst a xs x]

/-- What the drain returns, when it finds something, is an entry of the queue
with the frame number looked for. -/
theorem drainHistory_snd (a : Nat) :
    ∀ (H : List (FModelStateWrapper S)) (d : FModelStateWrapper S),
      (drainHistory a H d).1 = true →
        (drainHistory a H d).2.1 ∈ H ∧ (drainHistory a H d).2.1.FrameNumber = a
  | [], d => by simp [drainHistory]
  | x :: xs, d => by
    by_cases hx : x.FrameNumber = a
    · simp [drainHistory, hx]
    · intro h
      simp only [drainHistory, hx, if_false] at h ⊢
      have := drainHistory_snd a xs x h
      exact ⟨List.mem_cons_of_mem _ this.1, this.2⟩

/-! ## The branches of a real tick -/

/-- The reconciliation after the simulated part of a tick, written over the
state before the tick. -/
theorem Reconcile_TickBody [BEq S] [Inhabited S] (env : Env I S B) (s : Driver I S B) :
    Reconcile env (TickBody env s false) =
      if s.LastAuthorityState.FrameNumber = kInvalidFrame then Except.ok (TickBody env s false)
      else if s.LastAuthorityState.FrameNumber ≤ s.AckedFrame ∧ s.AckedFrame ≠ kInvalidFrame then
        Except.ok (TickBody env s false)
      else if s.LastAuthorityState.InputPacketNumber = kInvalidFrame then
        Except.ok (TickBody env s false)
      else if s.LastAuthorityState.FrameNumber > s.NextFrame then
        RewindAndResimulate env (TickBody env s false)
      else if (drainHistory s.LastAuthorityState.FrameNumber (TickBody env s false).History
          (FModelStateWrapper.Default S)).1 = false then Except.error Error.HistoryNotFound
      else if (drainHistory s.LastAuthorityState.FrameNumber (TickBody env s false).History
          (FModelStateWrapper.Default S)).2.1.opEq s.LastAuthorityState = true then
        Except.ok { TickBody env s false with
          History := (drainHistory s.LastAuthorityState.FrameNumber
            (TickBody env s false).History (FModelStateWrapper.Default S)).2.2
          AckedFrame := s.LastAuthorityState.FrameNumber
          InputBuffer := env.InputBuffer.Ack (TickBody env s false).InputBuffer
            s.LastAuthorityState.InputPacketNumber
          Calls := (TickBody env s false).Calls ++
            [Call.InputBufferAck s.LastAuthorityState.InputPacketNumber] }
      else RewindAndResimulate env { TickBody env s false with
          History := (drainHistory s.LastAuthorityState.FrameNumber
            (TickBody env s false).History (FModelStateWrapper.Default S)).2.2 } := by
  unfold Reconcile
  simp only [TickBody_LastAuthorityState, TickBody_AckedFrame,
    TickBody_CurrentState_FrameNumber]

/-- A real tick with a lawful buffer is the reconciliation of the simulated part. -/
theorem Tick_real [BEq S] [Inhabited S] (env : Env I S B) (hbuf : env.InputBuffer.Lawful)
    (s : Driver I S B) :
    Tick env s false = Reconcile env (TickBody env s false) := by
  unfold Tick
  rw [TickSimulate_ok env hbuf]
  simp only [Bool.false_eq_true, if_false]

/-- A real tick that returns is the reconciliation of the simulated part. -/
theorem Tick_real_eq_ok [BEq S] [Inhabited S] {env : Env I S B} {s s1 : Driver I S B}
    (h : Tick env s false = Except.ok s1) :
    TickSimulate env s false = Except.ok (TickBody env s false) ∧
      Reconcile env (TickBody env s false) = Except.ok s1 := by
  unfold Tick at h
  split at h
  · cases h
  · rename_i s2 h2
    have := TickSimulate_eq_ok h2
    subst this
    simp only [Bool.false_eq_true, if_false] at h
    exact ⟨h2, h⟩

/-- The rewind does not look at the history: two drivers that differ in their
history only are rewound to the same driver. -/
theorem RewindAndResimulate_History (env : Env I S B) (s : Driver I S B)
    (H : List (FModelStateWrapper S)) :
    RewindAndResimulate env { s with History := H } = RewindAndResimulate env s := by
  simp [RewindAndResimulate, Rewind_Internal, forcedTicks]

theorem RewindAndResimulate_TickBody (env : Env I S B) (s : Driver I S B) :
    RewindAndResimulate env (TickBody env s false) =
      ForceSimulate env (resimulatedTicks env s) (Rewound env (TickBody env s false)) := by
  simp [RewindAndResimulate, Rewound, Rewind_Internal, forcedTicks, resimulatedTicks]

theorem RewindAndResimulate_ok (env : Env I S B) (hbuf : env.InputBuffer.Lawful)
    (s : Driver I S B) :
    RewindAndResimulate env (TickBody env s false) =
      Except.ok (ForceBody env (resimulatedTicks env s) (Rewound env (TickBody env s false))) := by
  rw [RewindAndResimulate_TickBody, ForceSimulate_ok env hbuf]

theorem RewindAndResimulate_eq_ok {env : Env I S B} {s s1 : Driver I S B}
    (h : RewindAndResimulate env (TickBody env s false) = Except.ok s1) :
    s1 = ForceBody env (resimulatedTicks env s) (Rewound env (TickBody env s false)) := by
  rw [RewindAndResimulate_TickBody] at h
  exact ForceSimulate_eq_ok _ h

/-- The driver after a real tick that rewinds. -/
theorem ForceBody_Rewound (env : Env I S B) (s : Driver I S B) :
    let s' := ForceBody env (resimulatedTicks env s) (Rewound env (TickBody env s false))
    s'.AckedFrame = s.LastAuthorityState.FrameNumber ∧
    s'.LastAuthorityState = s.LastAuthorityState ∧
    s'.History.length = resimulatedTicks env s ∧
    (s.LastAuthorityState.FrameNumber + 1 + resimulatedTicks env s < 4294967296 →
      s'.NextFrame = s.LastAuthorityState.FrameNumber + 1 + resimulatedTicks env s ∧
      s'.History.map (fun h => h.FrameNumber) =
        List.range' (s.LastAuthorityState.FrameNumber + 1) (resimulatedTicks env s)) ∧
    ∃ cs, s'.Calls = s.Calls ++ tickBodyCalls env s false ++
        [Call.InputBufferRewind s.LastAuthorityState.InputPacketNumber,
          Call.Rewind s.LastAuthorityState.State,
          Call.ForceSimulate (resimulatedTicks env s)] ++ cs ∧
      cs.filter Call.isReconcile = [] ∧ cs.countP Call.isSimulate = resimulatedTicks env s := by
  intro s'
  have hR : (Rewound env (TickBody env s false)).History = [] := rfl
  have hH := ForceBody_History env (resimulatedTicks env s) (Rewound env (TickBody env s false))
  rw [hR, List.nil_append] at hH
  refine ⟨?_, ?_, ?_, ?_, ?_⟩
  · simp [s', Rewound, Rewind_Internal]
  · simp [s', Rewound, Rewind_Internal]
  · simp only [s', hH, forceBodyHistory_length]
  · intro hw
    have hlt : s.LastAuthorityState.FrameNumber + 1 < 4294967296 := by omega
    have hN : (Rewound env (TickBody env s false)).NextFrame =
        s.LastAuthorityState.FrameNumber + 1 := by
      simp [Rewound, Rewind_Internal, wrap32_of_lt hlt]
    constructor
    · simp only [s']
      rw [ForceBody_NextFrame env _ _ (by rw [hN]; exact hw), hN]
    · simp only [s', hH]
      rw [forceBodyHistory_frames env _ _ (by rw [hN]; exact hw), hN]
  · refine ⟨forceBodyCalls env (resimulatedTicks env s) (Rewound env (TickBody env s false)), ?_,
      forceBodyCalls_reconcile env _ _, forceBodyCalls_simulate env _ _⟩
    simp only [s']
    rw [ForceBody_Calls]
    simp [Rewound, Rewind_Internal, TickBody_Calls, forcedTicks, resimulatedTicks]

/-! ## Claims about the branches of a tick -/

/-- C1 (Synced branch). In a real tick with a lawful input buffer, let `A` be
`LastAuthorityState`. If the history is ordered, `A` has a valid frame number
and a valid input packet number, `A` is not acked yet, its frame number is at
most the frame just simulated, and the history entry with that frame number
compares equal to `A`, then the tick returns with `AckedFrame` equal to the
frame number of `A`; the only reconciliation call is one `InputBuffer.Ack` with
the input packet number of `A` (no rewind, no forced resimulation); `NextFrame`
has advanced by one; and the history holds exactly the snapshots with a frame
number above that of `A`. -/
theorem Tick_synced [BEq S] [Inhabited S] (env : Env I S B) (hbuf : env.InputBuffer.Lawful)
    (s : Driver I S B) (h : FModelStateWrapper S)
    (hOrdered : HistoryOrdered s)
    (hFrameValid : s.LastAuthorityState.FrameNumber ≠ kInvalidFrame)
    (hInputValid : s.LastAuthorityState.InputPacketNumber ≠ kInvalidFrame)
    (hNotAcked : s.AckedFrame = kInvalidFrame ∨ s.AckedFrame < s.LastAuthorityState.FrameNumber)
    (hNotAhead : s.LastAuthorityState.FrameNumber ≤ s.NextFrame)
    (hMem : h ∈ (TickBody env s false).History)
    (hFrame : h.FrameNumber = s.LastAuthorityState.FrameNumber)
    (hEq : h.opEq s.LastAuthorityState = true) :
    ∃ s', Tick env s false = Except.ok s' ∧
      s'.AckedFrame = s.LastAuthorityState.FrameNumber ∧
      s'.InputBuffer = env.InputBuffer.Ack (TickBody env s false).InputBuffer
        s.LastAuthorityState.InputPacketNumber ∧
      (∃ cs, s'.Calls = s.Calls ++ cs ∧
        cs.filter Call.isReconcile =
          [Call.InputBufferAck s.LastAuthorityState.InputPacketNumber] ∧
        cs.countP Call.isSimulate = 1) ∧
      s'.NextFrame = wrap32 (s.NextFrame + 1) ∧
      (s.NextFrame + 1 < 4294967296 → s'.NextFrame = s.NextFrame + 1) ∧
      s'.History = (TickBody env s false).History.filter
        (fun x => decide (s.LastAuthorityState.FrameNumber < x.FrameNumber)) := by
  have hp : ((TickBody env s false).History.map (fun h => h.FrameNumber)).Pairwise
      (fun a b => a < b) := by
    rw [TickBody_History, List.map_append, List.pairwise_append]
    refine ⟨hOrdered.1, by simp, ?_⟩
    intro a ha b hb
    simp only [List.map_cons, List.map_nil, List.mem_singleton,
      TickBody_CurrentState_FrameNumber] at hb
    obtain ⟨x, hx, rfl⟩ := List.mem_map.1 ha
    rw [hb]
    exact hOrdered.2 x hx
  have hd := drainHistory_found s.LastAuthorityState.FrameNumber (TickBody env s false).History
    (FModelStateWrapper.Default S) h hp hMem hFrame
  have hna : ¬ (s.LastAuthorityState.FrameNumber ≤ s.AckedFrame ∧ s.AckedFrame ≠ kInvalidFrame) := by
    rintro ⟨h1, h2⟩
    rcases hNotAcked with h3 | h3
    · exact h2 h3
    · omega
  have hT := Tick_real env hbuf s
  rw [Reconcile_TickBody, if_neg hFrameValid, if_neg hna, if_neg hInputValid, if_neg (by omega), hd] at hT
  simp only [Bool.true_eq_false, if_false, hEq, if_true] at hT
  refine ⟨_, hT, ?_⟩
  · refine ⟨rfl, rfl, ⟨tickBodyCalls env s false ++
      [Call.InputBufferAck s.LastAuthorityState.InputPacketNumber], ?_, ?_, ?_⟩, ?_, ?_, rfl⟩
    · simp [TickBody_Calls]
    · simp [tickBodyCalls_reconcile, Call.isReconcile]
    · simp [tickBodyCalls_simulate, Call.isSimulate]
    · simp
    · intro hw
      simp [wrap32_of_lt hw]

/-- C2 (Diverged branch). In a real tick with a lawful input buffer, let `A` be
`LastAuthorityState` and `n` the larger of `kClientForwardPredictionFrames` and
`RemoteBufferSize()` measured after the rewind of the buffer. If `A` passes the
guards, its frame number is at most the frame just simulated, the history has
an entry with that frame number and every such entry compares different from
`A`, and the counter does not wrap, then the tick returns; the reconciliation
calls are `InputBuffer.Rewind` with the input packet number of `A`, `Rewind`
with the body of `A` and `ForceSimulate(n)`, followed by `n` simulations;
`AckedFrame` is the frame number of `A`, `NextFrame` is that number plus
`1 + n`, and the history holds `n` snapshots with the frame numbers that
follow the one of `A`. -/
theorem Tick_diverged [BEq S] [Inhabited S] (env : Env I S B) (hbuf : env.InputBuffer.Lawful)
    (s : Driver I S B)
    (hFrameValid : s.LastAuthorityState.FrameNumber ≠ kInvalidFrame)
    (hInputValid : s.LastAuthorityState.InputPacketNumber ≠ kInvalidFrame)
    (hNotAcked : s.AckedFrame = kInvalidFrame ∨ s.AckedFrame < s.LastAuthorityState.FrameNumber)
    (hNotAhead : s.LastAuthorityState.FrameNumber ≤ s.NextFrame)
    (hMem : ∃ h ∈ (TickBody env s false).History,
      h.FrameNumber = s.LastAuthorityState.FrameNumber)
    (hNe : ∀ h ∈ (TickBody env s false).History,
      h.FrameNumber = s.LastAuthorityState.FrameNumber → h.opEq s.LastAuthorityState = false)
    (hNoWrap : s.LastAuthorityState.FrameNumber + 1 + resimulatedTicks env s < 4294967296) :
    ∃ s', Tick env s false = Except.ok s' ∧
      (∃ cs, s'.Calls = s.Calls ++ tickBodyCalls env s false ++
          [Call.InputBufferRewind s.LastAuthorityState.InputPacketNumber,
            Call.Rewind s.LastAuthorityState.State,
            Call.ForceSimulate (resimulatedTicks env s)] ++ cs ∧
        cs.filter Call.isReconcile = [] ∧
        cs.countP Call.isSimulate = resimulatedTicks env s) ∧
      s'.AckedFrame = s.LastAuthorityState.FrameNumber ∧
      s'.NextFrame = s.LastAuthorityState.FrameNumber + 1 + resimulatedTicks env s ∧
      s'.History.length = resimulatedTicks env s ∧
      s'.History.map (fun h => h.FrameNumber) =
        List.range' (s.LastAuthorityState.FrameNumber + 1) (resimulatedTicks env s) := by
  have hna : ¬ (s.LastAuthorityState.FrameNumber ≤ s.AckedFrame ∧ s.AckedFrame ≠ kInvalidFrame) := by
    rintro ⟨h1, h2⟩
    rcases hNotAcked with h3 | h3
    · exact h2 h3
    · omega
  have hfound := (drainHistory_fst s.LastAuthorityState.FrameNumber
    (TickBody env s false).History (FModelStateWrapper.Default S)).2 hMem
  have hsnd := drainHistory_snd s.LastAuthorityState.FrameNumber
    (TickBody env s false).History (FModelStateWrapper.Default S) hfound
  have hne := hNe _ hsnd.1 hsnd.2
  have hB := ForceBody_Rewound env s
  have hT := Tick_real env hbuf s
  rw [Reconcile_TickBody, if_neg hFrameValid, if_neg hna, if_neg hInputValid,
    if_neg (by omega), if_neg (by simp [hfound]), if_neg (by simp [hne]),
    RewindAndResimulate_History, RewindAndResimulate_ok env hbuf] at hT
  exact ⟨_, hT, hB.2.2.2.2, hB.1, (hB.2.2.2.1 hNoWrap).1, hB.2.2.1, (hB.2.2.2.1 hNoWrap).2⟩

/-- C3 (Ahead branch). In a real tick with a lawful input buffer, let `A` be
`LastAuthorityState`. If `A` passes the guards and its frame number is above
the frame just simulated, the tick returns and the history is not inspected:
the result is the same whatever the history was. The driver is rewound to `A`
(history emptied, `AckedFrame` the frame number of `A`, `NextFrame` one more,
`InputBuffer.Rewind` with the input packet number of `A`, `Rewind` with the
body of `A`) and then exactly `n` forced ticks run, `n` being the larger of
`kClientForwardPredictionFrames` and `RemoteBufferSize()` after the rewind. -/
theorem Tick_ahead [BEq S] [Inhabited S] (env : Env I S B) (hbuf : env.InputBuffer.Lawful)
    (s : Driver I S B)
    (hFrameValid : s.LastAuthorityState.FrameNumber ≠ kInvalidFrame)
    (hFrameRange : s.LastAuthorityState.FrameNumber < 4294967296)
    (hInputValid : s.LastAuthorityState.InputPacketNumber ≠ kInvalidFrame)
    (hNotAcked : s.AckedFrame = kInvalidFrame ∨ s.AckedFrame < s.LastAuthorityState.FrameNumber)
    (hAhead : s.LastAuthorityState.FrameNumber > s.NextFrame) :
    (∀ H, Tick env { s with History := H } false = Tick env s false) ∧
    (Rewound env (TickBody env s false)).History = [] ∧
    (Rewound env (TickBody env s false)).AckedFrame = s.LastAuthorityState.FrameNumber ∧
    (Rewound env (TickBody env s false)).NextFrame = s.LastAuthorityState.FrameNumber + 1 ∧
    (Rewound env (TickBody env s false)).InputBuffer =
      env.InputBuffer.Rewind (TickBody env s false).InputBuffer
        s.LastAuthorityState.InputPacketNumber ∧
    ForceSimulate env (resimulatedTicks env s) (Rewound env (TickBody env s false)) =
      Tick env s false ∧
    ∃ s', Tick env s false = Except.ok s' ∧
      s'.History.length = resimulatedTicks env s ∧
      s'.AckedFrame = s.LastAuthorityState.FrameNumber ∧
      ∃ cs, s'.Calls = s.Calls ++ tickBodyCalls env s false ++
          [Call.InputBufferRewind s.LastAuthorityState.InputPacketNumber,
            Call.Rewind s.LastAuthorityState.State,
            Call.ForceSimulate (resimulatedTicks env s)] ++ cs ∧
        cs.filter Call.isReconcile = [] ∧
        cs.countP Call.isSimulate = resimulatedTicks env s := by
  have hna : ¬ (s.LastAuthorityState.FrameNumber ≤ s.AckedFrame ∧ s.AckedFrame ≠ kInvalidFrame) := by
    rintro ⟨h1, h2⟩
    rcases hNotAcked with h3 | h3
    · exact h2 h3
    · omega
  have hlt : s.LastAuthorityState.FrameNumber + 1 < 4294967296 := by
    unfold kInvalidFrame at hFrameValid
    omega
  have hT : ∀ H, Tick env { s with History := H } false =
      Except.ok (ForceBody env (resimulatedTicks env s) (Rewound env (TickBody env s false))) := by
    intro H
    have hb : TickBody env { s with History := H } false =
        { TickBody env s false with
          History := H ++ [(TickBody env s false).CurrentState] } := by
      simp [TickBody, PreTick, consumed]
    rw [Tick_real env hbuf, Reconcile_TickBody]
    simp only []
    rw [if_neg hFrameValid, if_neg hna, if_neg hInputValid, if_pos hAhead, hb,
      RewindAndResimulate_History, RewindAndResimulate_ok env hbuf]
  have h0 : Tick env s false =
      Except.ok (ForceBody env (resimulatedTicks env s) (Rewound env (TickBody env s false))) :=
    hT s.History
  have hB := ForceBody_Rewound env s
  refine ⟨fun H => (hT H).trans h0.symm, rfl, ?_, ?_, ?_, ?_, _, h0, ?_⟩
  · simp [Rewound, Rewind_Internal]
  · simp [Rewound, Rewind_Internal, wrap32_of_lt hlt]
  · simp [Rewound, Rewind_Internal]
  · rw [h0, ForceSimulate_ok env hbuf]
  · exact ⟨hB.2.2.1, hB.1, hB.2.2.2.2⟩

/-- The concrete buffer is lawful. -/
theorem RemoteInputBuffer.ops_lawful (I : Type) : (RemoteInputBuffer.ops I).Lawful where
  consume_queue := by
    intro b p out
    simp only [RemoteInputBuffer.ops]
    cases b.Pending <;> rfl
  consume_pos := by
    intro b out h
    simp only [RemoteInputBuffer.ops] at h ⊢
    cases hP : b.Pending with
    | nil => simp [hP] at h
    | cons p rest => rfl

theorem counterEnv_lawful : counterEnv.InputBuffer.Lawful :=
  RemoteInputBuffer.ops_lawful Nat

/-- Witness of C1: a fresh driver that received the authority state its first
tick produces acknowledges frame `0` and keeps an empty history. -/
theorem Tick_synced_witness :
    ∃ s', Tick counterEnv syncedStart false = Except.ok s' ∧ s'.AckedFrame = 0 ∧
      s'.NextFrame = 1 ∧ s'.History = [] :=
  (Tick_synced counterEnv counterEnv_lawful syncedStart
    { FrameNumber := 0, InputPacketNumber := 0, State := 1 }
    ⟨List.Pairwise.nil, by intro h hh; cases hh⟩ (by decide) (by decide)
    (Or.inl rfl) (Nat.le_refl 0) (by decide) rfl rfl).imp
    fun s' h => ⟨h.1, h.2.1, h.2.2.2.2.2.1 (by decide), h.2.2.2.2.2.2⟩

/-- Witness of C2: a fresh driver that received an authority state for frame
`0` with another body rewinds and resimulates five frames. -/
theorem Tick_diverged_witness :
    ∃ s', Tick counterEnv divergedStart false = Except.ok s' ∧ s'.AckedFrame = 0 ∧
      s'.NextFrame = 6 ∧ s'.History.map (fun h => h.FrameNumber) = [1, 2, 3, 4, 5] :=
  (Tick_diverged counterEnv counterEnv_lawful divergedStart (by decide) (by decide)
    (Or.inl rfl) (Nat.le_refl 0) (by decide) (by decide) (by decide)).imp
    fun s' h => ⟨h.1, h.2.2.1, h.2.2.2.1, h.2.2.2.2.2⟩

/-- Witness of C3: a fresh driver that received an authority state for frame
`3` jumps there and runs five forced ticks. -/
theorem Tick_ahead_witness :
    ∃ s', Tick counterEnv aheadStart false = Except.ok s' ∧ s'.History.length = 5 ∧
      s'.AckedFrame = 3 :=
  (Tick_ahead counterEnv counterEnv_lawful aheadStart (by decide) (by decide) (by decide)
    (Or.inl rfl) (by decide)).2.2.2.2.2.2.imp
    fun s' h => ⟨h.1, h.2.1, h.2.2.1⟩

/-- C4 (reconciliation guards). In a real tick with a lawful input buffer, if
the frame number of `LastAuthorityState` is the invalid sentinel, or it is at
most `AckedFrame` while `AckedFrame` is valid, or its input packet number is
the invalid sentinel, then the tick is the simulated part alone: `AckedFrame`
is unchanged, the history only gains the snapshot just simulated, the input
buffer is the one left by the simulated part, and no reconciliation call
(`Rewind`, `InputBuffer.Ack`, `InputBuffer.Rewind`, `ForceSimulate`) is made. -/
theorem Tick_guards [BEq S] [Inhabited S] (env : Env I S B) (hbuf : env.InputBuffer.Lawful)
    (s : Driver I S B)
    (hGuard : s.LastAuthorityState.FrameNumber = kInvalidFrame ∨
      (s.LastAuthorityState.FrameNumber ≤ s.AckedFrame ∧ s.AckedFrame ≠ kInvalidFrame) ∨
      s.LastAuthorityState.InputPacketNumber = kInvalidFrame) :
    ∃ s', Tick env s false = Except.ok s' ∧
      s' = TickBody env s false ∧
      s'.AckedFrame = s.AckedFrame ∧
      s'.History = s.History ++ [s'.CurrentState] ∧
      s'.CurrentState.FrameNumber = s.NextFrame ∧
      ∃ cs, s'.Calls = s.Calls ++ cs ∧ cs.filter Call.isReconcile = [] ∧
        cs.countP Call.isSimulate = 1 := by
  have hT : Tick env s false = Except.ok (TickBody env s false) := by
    rw [Tick_real env hbuf, Reconcile_TickBody]
    rcases hGuard with h | h | h
    · rw [if_pos h]
    · split
      · rfl
      · rfl
    · split
      · rfl
      · split
        · rfl
        · rfl
  exact ⟨_, hT, rfl, TickBody_AckedFrame env s false, TickBody_History env s false,
    TickBody_CurrentState_FrameNumber env s false, tickBodyCalls env s false,
    TickBody_Calls env s false, tickBodyCalls_reconcile env s false,
    tickBodyCalls_simulate env s false⟩

/-- Witness of C4: a fresh driver has no authority state; its first tick only
simulates. -/
theorem Tick_guards_witness :
    ∃ s', Tick counterEnv (Driver.fresh counterEnv) false = Except.ok s' ∧
      s'.AckedFrame = kInvalidFrame ∧ s'.History = [s'.CurrentState] :=
  (Tick_guards counterEnv counterEnv_lawful (Driver.fresh counterEnv) (Or.inl rfl)).imp
    fun s' h => ⟨h.1, h.2.2.1, h.2.2.2.1⟩

/-- C5 (forced ticks). With a lawful input buffer, in every driver state and
for every `LastAuthorityState`, a forced tick returns, leaves `AckedFrame` and
`LastAuthorityState` unchanged, makes no reconciliation call (`Rewind`,
`ForceSimulate`, `InputBuffer.Ack`, `InputBuffer.Rewind`) and one simulation,
advances `NextFrame` by one and appends one snapshot, tagged with the old
`NextFrame`, to the history. Hence `ForceSimulate(n)`, whose body is a forced
tick, returns after exactly `n` ticks: `n` snapshots are appended, `n`
simulations and no reconciliation call are made. -/
theorem Tick_forced_frame [BEq S] [Inhabited S] (env : Env I S B)
    (hbuf : env.InputBuffer.Lawful) (s : Driver I S B) :
    (∃ s', Tick env s true = Except.ok s' ∧
      s'.AckedFrame = s.AckedFrame ∧
      s'.LastAuthorityState = s.LastAuthorityState ∧
      s'.NextFrame = wrap32 (s.NextFrame + 1) ∧
      (s.NextFrame + 1 < 4294967296 → s'.NextFrame = s.NextFrame + 1) ∧
      s'.History = s.History ++ [s'.CurrentState] ∧
      s'.CurrentState.FrameNumber = s.NextFrame ∧
      ∃ cs, s'.Calls = s.Calls ++ cs ∧ cs.filter Call.isReconcile = [] ∧
        cs.countP Call.isSimulate = 1) ∧
    ∀ n, (ForceSimulate env (n + 1) s =
        (Tick env s true).bind (fun s1 => ForceSimulate env n s1)) ∧
      ∃ s', ForceSimulate env n s = Except.ok s' ∧
        s'.AckedFrame = s.AckedFrame ∧
        s'.LastAuthorityState = s.LastAuthorityState ∧
        (∃ H, s'.History = s.History ++ H ∧ H.length = n) ∧
        ∃ cs, s'.Calls = s.Calls ++ cs ∧ cs.filter Call.isReconcile = [] ∧
          cs.countP Call.isSimulate = n := by
  have hT : Tick env s true = Except.ok (TickBody env s true) := by
    rw [Tick_forced, TickSimulate_ok env hbuf]
  constructor
  · refine ⟨_, hT, TickBody_AckedFrame env s true, TickBody_LastAuthorityState env s true,
      TickBody_NextFrame env s true, ?_, TickBody_History env s true,
      TickBody_CurrentState_FrameNumber env s true, tickBodyCalls env s true,
      TickBody_Calls env s true, tickBodyCalls_reconcile env s true,
      tickBodyCalls_simulate env s true⟩
    intro hw
    rw [TickBody_NextFrame, wrap32_of_lt hw]
  · intro n
    constructor
    · rw [hT, ForceSimulate, TickSimulate_ok env hbuf]
      rfl
    · exact ⟨_, ForceSimulate_ok env hbuf n s, ForceBody_AckedFrame env n s,
        ForceBody_LastAuthorityState env n s,
        ⟨forceBodyHistory env n s, ForceBody_History env n s, forceBodyHistory_length env n s⟩,
        forceBodyCalls env n s, ForceBody_Calls env n s, forceBodyCalls_reconcile env n s,
        forceBodyCalls_simulate env n s⟩

/-- Witness of C5: three forced ticks of a driver that has an unacked authority
state append three snapshots and acknowledge nothing. -/
theorem Tick_forced_frame_witness :
    ∃ s', ForceSimulate counterEnv 3 syncedStart = Except.ok s' ∧
      s'.AckedFrame = kInvalidFrame ∧ ∃ H, s'.History = [] ++ H ∧ H.length = 3 :=
  (((Tick_forced_frame counterEnv counterEnv_lawful syncedStart).2 3).2).imp
    fun s' h => ⟨h.1, h.2.1, h.2.2.2.1⟩

/-- C6, as amended. With a lawful input buffer a forced tick returns, and:
if `RemoteBufferSize()` is positive when it starts, it produces no input
packet, leaves `NextInputPacket` and `SlidingInputWindow` unchanged and calls
neither the input delegate nor `EmitInputPackets`; if `RemoteBufferSize()` is
zero, it numbers one new packet with `NextInputPacket`, increments
`NextInputPacket`, puts the packet at the front of the window and emits the
window, as a real tick does. -/
theorem Tick_forced_input [BEq S] [Inhabited S] (env : Env I S B)
    (hbuf : env.InputBuffer.Lawful) (s : Driver I S B) :
    ∃ s', Tick env s true = Except.ok s' ∧
      (0 < env.InputBuffer.RemoteBufferSize s.InputBuffer →
        s'.NextInputPacket = s.NextInputPacket ∧
        s'.SlidingInputWindow = s.SlidingInputWindow ∧
        ∃ cs, s'.Calls = s.Calls ++ cs ∧ cs.filter Call.isInputProduction = []) ∧
      (env.InputBuffer.RemoteBufferSize s.InputBuffer = 0 →
        s'.NextInputPacket = wrap32 (s.NextInputPacket + 1) ∧
        s'.SlidingInputWindow.head? =
          some { PacketNumber := s.NextInputPacket, Packet := env.InputDelegate s.Calls } ∧
        ∃ cs, s'.Calls = s.Calls ++ cs ∧
          cs.filter Call.isInputProduction =
            [Call.InputDelegate, Call.EmitInputPackets s'.SlidingInputWindow]) := by
  have hT : Tick env s true = Except.ok (TickBody env s true) := by
    rw [Tick_forced, TickSimulate_ok env hbuf]
  refine ⟨_, hT, ?_, ?_⟩
  · intro hpos
    have hne : env.InputBuffer.RemoteBufferSize s.InputBuffer ≠ 0 := Nat.pos_iff_ne_zero.1 hpos
    refine ⟨?_, ?_, tickBodyCalls env s true, TickBody_Calls env s true, ?_⟩
    · simp [TickBody, PreTick, hne]
    · simp [TickBody, PreTick, hne]
    · simp [tickBodyCalls, preTickCalls, PreTick, hne, Call.isInputProduction]
  · intro hzero
    refine ⟨?_, ?_, tickBodyCalls env s true, TickBody_Calls env s true, ?_⟩
    · simp [TickBody, PreTick, hzero]
    · simp [TickBody, PreTick, hzero]
    · simp [tickBodyCalls, preTickCalls, TickBody, PreTick, hzero, Call.isInputProduction]

/-- Witness of C6 as amended: a forced tick of a driver whose buffer holds one
packet leaves `NextInputPacket` alone. -/
theorem Tick_forced_input_witness :
    ∃ s', Tick counterEnv
        { Driver.fresh counterEnv with
          InputBuffer := { Consumed := [], Pending := [{ PacketNumber := 0, Packet := 1 }] }
          NextInputPacket := 1 } true = Except.ok s' ∧
      s'.NextInputPacket = 1 :=
  (Tick_forced_input counterEnv counterEnv_lawful
    { Driver.fresh counterEnv with
      InputBuffer := { Consumed := [], Pending := [{ PacketNumber := 0, Packet := 1 }] }
      NextInputPacket := 1 }).imp
    fun s' h => ⟨h.1, (h.2.1 (by decide)).1⟩

/-- Counterexample to C6 as stated: a forced tick of a fresh driver, whose
input buffer is empty, numbers a new packet (`NextInputPacket` goes from `0` to
`1`), changes the sliding window and emits it; and the five forced ticks that
follow the rewind of `aheadStart` produce five more packets after the one of
the real tick. -/
theorem Tick_forced_input_counterexample :
    (∃ s', Tick counterEnv (Driver.fresh counterEnv) true = Except.ok s' ∧
      (Driver.fresh counterEnv).NextInputPacket = 0 ∧ s'.NextInputPacket = 1 ∧
      (Driver.fresh counterEnv).SlidingInputWindow = [] ∧
      s'.SlidingInputWindow = [{ PacketNumber := 0, Packet := 1 }] ∧
      s'.Calls = [Call.InputDelegate,
        Call.EmitInputPackets [{ PacketNumber := 0, Packet := 1 }], Call.Simulate 0 1]) ∧
    ∃ s', Tick counterEnv aheadStart false = Except.ok s' ∧ s'.NextInputPacket = 6 ∧
      (s'.Calls.filter Call.isInputProduction).length = 12 :=
  ⟨⟨_, rfl, rfl, rfl, rfl, rfl, rfl⟩, ⟨_, rfl, rfl, rfl⟩⟩

/-! ## Invariants of the reachable states -/

/-- The drain of a queue with consecutive frame numbers that cover the frame
looked for finds it and leaves the frames after it. -/
theorem drainHistory_range (t : Nat) :
    ∀ (H : List (FModelStateWrapper S)) (d : FModelStateWrapper S) (a k : Nat),
      H.map (fun h => h.FrameNumber) = List.range' a k → a ≤ t → t < a + k →
      (drainHistory t H d).1 = true ∧
        (drainHistory t H d).2.2.map (fun h => h.FrameNumber) =
          List.range' (t + 1) (a + k - (t + 1))
  | [], d, a, k, hH, h1, h2 => by
    cases k with
    | zero => omega
    | succ k => simp [List.range'_succ] at hH
  | x :: xs, d, a, k, hH, h1, h2 => by
    cases k with
    | zero => omega
    | succ k =>
      simp only [List.map_cons, List.range'_succ, List.cons.injEq] at hH
      by_cases hx : x.FrameNumber = t
      · have hta : t = a := by omega
        subst hta
        have hk : t + (k + 1) - (t + 1) = k := by omega
        simp [drainHistory, hx, hH.2, hk]
      · have ih := drainHistory_range t xs x (a + 1) k hH.2 (by omega) (by omega)
        have hk : a + 1 + k - (t + 1) = a + (k + 1) - (t + 1) := by omega
        simp only [drainHistory, hx, if_false]
        rw [← hk]
        exact ih

theorem ForceSimulate_ne_HistoryNotFound (env : Env I S B) :
    ∀ (n : Nat) (s : Driver I S B), ForceSimulate env n s ≠ Except.error Error.HistoryNotFound
  | 0, s => by simp [ForceSimulate]
  | n + 1, s => by
    simp only [ForceSimulate]
    split
    · rename_i e he
      unfold TickSimulate at he
      split at he
      · cases he
      · cases he
        simp
    · exact ForceSimulate_ne_HistoryNotFound env n _

/-- The simulated part of a tick keeps the history consistent, when the
counter does not wrap. -/
theorem Consistent_TickBody (env : Env I S B) (s : Driver I S B) (f : Bool)
    (hC : Consistent s) (hw : s.NextFrame + 1 < 4294967296) :
    Consistent (TickBody env s f) := by
  obtain ⟨h1, h2, h3, h4⟩ := hC
  have hN : (TickBody env s f).NextFrame = s.NextFrame + 1 := by
    rw [TickBody_NextFrame, wrap32_of_lt hw]
  have hL : (TickBody env s f).History.length = s.History.length + 1 := by
    rw [TickBody_History]; simp
  refine ⟨?_, ?_, ?_, ?_⟩
  · rw [hN, hL, TickBody_History, List.map_append, h1, List.map_cons, List.map_nil,
      TickBody_CurrentState_FrameNumber, List.range'_concat]
    have e1 : s.NextFrame + 1 - (s.History.length + 1) = s.NextFrame - s.History.length := by
      omega
    have e2 : s.NextFrame - s.History.length + 1 * s.History.length = s.NextFrame := by omega
    rw [e1, e2]
  · rw [hN, hL]; omega
  · intro ha
    rw [TickBody_AckedFrame] at ha
    rw [hN, hL, h3 ha]
  · intro ha
    rw [TickBody_AckedFrame] at ha ⊢
    rw [hN, hL]
    have := h4 ha
    omega

/-- A rewind followed by the forced ticks leaves a consistent history, when
the counter does not wrap. -/
theorem Consistent_Rewound (env : Env I S B) (s : Driver I S B)
    (hv : s.LastAuthorityState.FrameNumber ≠ kInvalidFrame)
    (hw : s.LastAuthorityState.FrameNumber + 1 + resimulatedTicks env s < 4294967296) :
    Consistent (ForceBody env (resimulatedTicks env s) (Rewound env (TickBody env s false))) := by
  have hB := ForceBody_Rewound env s
  simp only [] at hB
  obtain ⟨hA, -, hL, hF, -⟩ := hB
  obtain ⟨hN, hM⟩ := hF hw
  refine ⟨?_, ?_, ?_, ?_⟩
  · rw [hM, hN, hL]
    congr 1
    omega
  · rw [hN, hL]; omega
  · intro ha
    rw [hA] at ha
    exact absurd ha hv
  · intro _
    rw [hA, hN, hL]

/-- Every reachable state is consistent. -/
theorem Reachable_Consistent [BEq S] [Inhabited S] [Inhabited I] (env : Env I S B)
    (s : Driver I S B) (hR : Reachable env s) : Consistent s := by
  induction hR with
  | fresh => simp [Consistent, Driver.fresh]
  | receive State _ ih => exact ih
  | @tick s s' _ hT hW ih =>
    obtain ⟨-, hRec⟩ := Tick_real_eq_ok hT
    have hC1 := Consistent_TickBody env s false ih hW.1
    have hCalls : s' = ForceBody env (resimulatedTicks env s)
        (Rewound env (TickBody env s false)) →
        s.LastAuthorityState.FrameNumber + 1 + resimulatedTicks env s < 4294967296 := by
      intro hs'
      apply hW.2
      obtain ⟨cs, hcs, -⟩ := (ForceBody_Rewound env s).2.2.2.2
      rw [hs', hcs]
      simp
    rw [Reconcile_TickBody] at hRec
    split at hRec
    · cases hRec; exact hC1
    split at hRec
    · cases hRec; exact hC1
    split at hRec
    · cases hRec; exact hC1
    rename_i hv hacked hinput
    split at hRec
    · have hs' := RewindAndResimulate_eq_ok hRec
      rw [hs']
      exact Consistent_Rewound env s hv (hCalls hs')
    rename_i hle
    split at hRec
    · cases hRec
    rename_i hfound
    split at hRec
    · cases hRec
      simp only [Bool.not_eq_false] at hfound
      obtain ⟨h, hmem, hframe⟩ := (drainHistory_fst _ _ _).1 hfound
      obtain ⟨c1, c2, c3, c4⟩ := hC1
      have hin : s.LastAuthorityState.FrameNumber ∈
          List.range' ((TickBody env s false).NextFrame - (TickBody env s false).History.length)
            (TickBody env s false).History.length := by
        rw [← c1, ← hframe]
        exact List.mem_map_of_mem _ hmem
      rw [List.mem_range'_1] at hin
      have hd := drainHistory_range s.LastAuthorityState.FrameNumber
        (TickBody env s false).History (FModelStateWrapper.Default S) _ _ c1 hin.1 hin.2
      have hlen := congrArg List.length hd.2
      simp only [List.length_map, List.length_range'] at hlen
      have hN : (TickBody env s false).NextFrame = s.NextFrame + 1 := by
        rw [TickBody_NextFrame, wrap32_of_lt hW.1]
      refine ⟨?_, ?_, ?_, ?_⟩
      · simp only []
        rw [hd.2, hlen]
        congr 1
        omega
      · simp only []
        rw [hlen]; omega
      · intro ha
        exact absurd ha hv
      · intro _
        simp only []
        rw [hlen]; omega
    · rw [RewindAndResimulate_History] at hRec
      have hs' := RewindAndResimulate_eq_ok hRec
      rw [hs']
      exact Consistent_Rewound env s hv (hCalls hs')

/-- C7 (ordering of the history). In every state reachable from a fresh driver
by ticks and received authority states, the counter not wrapping, the frame
numbers of the history increase strictly from front to back; they are
consecutive, and when the history is not empty the last one is `NextFrame - 1`. -/
theorem History_ordered [BEq S] [Inhabited S] [Inhabited I] (env : Env I S B)
    (s : Driver I S B) (hR : Reachable env s) :
    (s.History.map (fun h => h.FrameNumber)).Pairwise (fun a b => a < b) ∧
    (s.History.map (fun h => h.FrameNumber)).Chain' (fun a b => b = a + 1) ∧
    s.History.map (fun h => h.FrameNumber) =
      List.range' (s.NextFrame - s.History.length) s.History.length ∧
    ∀ h, s.History.getLast? = some h → h.FrameNumber + 1 = s.NextFrame := by
  obtain ⟨h1, h2, -, -⟩ := Reachable_Consistent env s hR
  refine ⟨?_, ?_, h1, ?_⟩
  · rw [h1]
    exact List.pairwise_lt_range' _ _
  · rw [h1]
    cases s.History.length with
    | zero => exact List.chain'_nil
    | succ k =>
      rw [List.range'_succ]
      exact List.chain_succ_range' _ _ 1
  · intro h hh
    have hl : (s.History.map (fun h => h.FrameNumber)).getLast? = some h.FrameNumber := by
      rw [List.getLast?_map, hh]; rfl
    rw [h1] at hl
    cases hn : s.History.length with
    | zero =>
      rw [List.length_eq_zero] at hn
      rw [hn] at hh
      cases hh
    | succ k =>
      rw [hn, List.range'_concat, List.getLast?_concat] at hl
      have := Option.some.inj hl
      omega

theorem Tick_aheadStart : Tick counterEnv aheadStart false = Except.ok aheadEnd :=
  rfl

/-- The driver `aheadEnd` is reachable: a fresh driver receives an authority
state and ticks once. -/
theorem aheadEnd_reachable : Reachable counterEnv aheadEnd := by
  refine Reachable.tick (Reachable.receive _ Reachable.fresh) Tick_aheadStart ⟨by decide, ?_⟩
  intro n hn
  have hc : aheadEnd.Calls.drop (ReceiveAuthorityState (Driver.fresh counterEnv)
      { FrameNumber := 3, InputPacketNumber := 0, State := 42 }).Calls.length =
      [Call.InputDelegate, Call.EmitInputPackets [{ PacketNumber := 0, Packet := 1 }],
        Call.Simulate 0 1, Call.InputBufferRewind 0, Call.Rewind 42, Call.ForceSimulate 5,
        Call.InputDelegate,
        Call.EmitInputPackets [{ PacketNumber := 1, Packet := 1 }, { PacketNumber := 0, Packet := 1 }],
        Call.Simulate 1 1, Call.InputDelegate,
        Call.EmitInputPackets [{ PacketNumber := 2, Packet := 1 },
          { PacketNumber := 1, Packet := 1 }, { PacketNumber := 0, Packet := 1 }],
        Call.Simulate 2 1, Call.InputDelegate,
        Call.EmitInputPackets [{ PacketNumber := 3, Packet := 1 },
          { PacketNumber := 2, Packet := 1 }, { PacketNumber := 1, Packet := 1 }],
        Call.Simulate 3 1, Call.InputDelegate,
        Call.EmitInputPackets [{ PacketNumber := 4, Packet := 1 },
          { PacketNumber := 3, Packet := 1 }, { PacketNumber := 2, Packet := 1 }],
        Call.Simulate 4 1, Call.InputDelegate,
        Call.EmitInputPackets [{ PacketNumber := 5, Packet := 1 },
          { PacketNumber := 4, Packet := 1 }, { PacketNumber := 3, Packet := 1 }],
        Call.Simulate 5 1] := by decide
  rw [hc] at hn
  simp at hn
  subst hn
  decide

/-- Witness of C7: after the first tick of `aheadStart` the history holds the
frames `4` to `8` and `NextFrame` is `9`. -/
theorem History_ordered_witness :
    aheadEnd.History.map (fun h => h.FrameNumber) = [4, 5, 6, 7, 8] ∧ aheadEnd.NextFrame = 9 ∧
    (aheadEnd.History.map (fun h => h.FrameNumber)).Pairwise (fun a b => a < b) :=
  ⟨by decide, by decide, (History_ordered counterEnv aheadEnd aheadEnd_reachable).1⟩

/-- C8 (`HistoryNotFound` is unreachable). In every state reachable from a
fresh driver by ticks and received authority states, with arbitrary authority
states and the counter not wrapping, a real tick never fails the check of line
140; and whenever the authority state is not acked yet and its frame number is
at most the frame just simulated (as it is when the drain of the history is
entered), the history holds a snapshot with that frame number and the drain
finds it. -/
theorem HistoryNotFound_unreachable [BEq S] [Inhabited S] [Inhabited I] (env : Env I S B)
    (s : Driver I S B) (hR : Reachable env s) :
    Tick env s false ≠ Except.error Error.HistoryNotFound ∧
    ((s.AckedFrame = kInvalidFrame ∨ s.AckedFrame < s.LastAuthorityState.FrameNumber) →
      s.LastAuthorityState.FrameNumber ≤ s.NextFrame →
      (∃ h ∈ (TickBody env s false).History,
        h.FrameNumber = s.LastAuthorityState.FrameNumber) ∧
      (drainHistory s.LastAuthorityState.FrameNumber (TickBody env s false).History
        (FModelStateWrapper.Default S)).1 = true) := by
  obtain ⟨c1, c2, c3, c4⟩ := Reachable_Consistent env s hR
  have key : (s.AckedFrame = kInvalidFrame ∨ s.AckedFrame < s.LastAuthorityState.FrameNumber) →
      s.LastAuthorityState.FrameNumber ≤ s.NextFrame →
      ∃ h ∈ (TickBody env s false).History,
        h.FrameNumber = s.LastAuthorityState.FrameNumber := by
    intro hacked hle
    have hm : s.LastAuthorityState.FrameNumber ∈
        (TickBody env s false).History.map (fun h => h.FrameNumber) := by
      rw [TickBody_History, List.map_append, c1, List.map_cons, List.map_nil,
        TickBody_CurrentState_FrameNumber]
      rcases Nat.lt_or_ge s.LastAuthorityState.FrameNumber s.NextFrame with h1 | h1
      · apply List.mem_append_left
        rw [List.mem_range'_1]
        rcases hacked with h2 | h2
        · have := c3 h2
          omega
        · by_cases h3 : s.AckedFrame = kInvalidFrame
          · have := c3 h3
            omega
          · have := c4 h3
            omega
      · apply List.mem_append_right
        simp only [List.mem_singleton]
        omega
    obtain ⟨h, hmem, hf⟩ := List.mem_map.1 hm
    exact ⟨h, hmem, hf⟩
  refine ⟨?_, fun hacked hle => ⟨key hacked hle, (drainHistory_fst _ _ _).2 (key hacked hle)⟩⟩
  intro hT
  unfold Tick at hT
  split at hT
  · rename_i e he
    unfold TickSimulate at he
    split at he
    · cases he
    · cases he
      cases hT
  · rename_i s1 h1
    have := TickSimulate_eq_ok h1
    subst this
    simp only [Bool.false_eq_true, if_false] at hT
    rw [Reconcile_TickBody] at hT
    split at hT
    · cases hT
    split at hT
    · cases hT
    split at hT
    · cases hT
    rename_i hv hacked hinput
    split at hT
    · rw [RewindAndResimulate_TickBody] at hT
      exact ForceSimulate_ne_HistoryNotFound env _ _ hT
    rename_i hle
    have hacked2 : s.AckedFrame = kInvalidFrame ∨
        s.AckedFrame < s.LastAuthorityState.FrameNumber := by
      by_cases h3 : s.AckedFrame = kInvalidFrame
      · exact Or.inl h3
      · right
        by_contra h4
        exact hacked ⟨by omega, h3⟩
    have hfound := (drainHistory_fst _ _ (FModelStateWrapper.Default S)).2
      (key hacked2 (by omega))
    split at hT
    · rename_i hnf
      rw [hfound] at hnf
      cases hnf
    split at hT
    · cases hT
    · rw [RewindAndResimulate_History, RewindAndResimulate_TickBody] at hT
      exact ForceSimulate_ne_HistoryNotFound env _ _ hT

/-- Witness of C8: `aheadEnd`, whose history holds the frames `4` to `8`,
receives an authority state for frame `5`; the next tick finds that frame. -/
theorem HistoryNotFound_unreachable_witness :
    Tick counterEnv matchingAfterAhead false ≠ Except.error Error.HistoryNotFound ∧
    ∃ h ∈ (TickBody counterEnv matchingAfterAhead false).History, h.FrameNumber = 5 :=
  ⟨(HistoryNotFound_unreachable counterEnv matchingAfterAhead
      (Reachable.receive _ aheadEnd_reachable)).1,
    ((HistoryNotFound_unreachable counterEnv matchingAfterAhead
      (Reachable.receive _ aheadEnd_reachable)).2 (Or.inr (by decide)) (by decide)).1⟩

/-- C9 (the acked frame only increases). For every tick that returns, forced or
not, and every authority state: if `AckedFrame` changes, its new value is the
frame number of `LastAuthorityState`; and if `AckedFrame` was valid before the
tick, then afterwards it is unchanged or strictly greater, and it is still
valid. -/
theorem AckedFrame_increases [BEq S] [Inhabited S] (env : Env I S B)
    (s s' : Driver I S B) (bIsForcedSimulation : Bool)
    (hT : Tick env s bIsForcedSimulation = Except.ok s') :
    (s'.AckedFrame ≠ s.AckedFrame → s'.AckedFrame = s.LastAuthorityState.FrameNumber) ∧
    (s.AckedFrame ≠ kInvalidFrame →
      (s'.AckedFrame = s.AckedFrame ∨ s.AckedFrame < s'.AckedFrame) ∧
      s'.AckedFrame ≠ kInvalidFrame) := by
  have key : s'.AckedFrame = s.AckedFrame ∨
      (s'.AckedFrame = s.LastAuthorityState.FrameNumber ∧
        s.LastAuthorityState.FrameNumber ≠ kInvalidFrame ∧
        ¬ (s.LastAuthorityState.FrameNumber ≤ s.AckedFrame ∧ s.AckedFrame ≠ kInvalidFrame)) := by
    cases bIsForcedSimulation with
    | true =>
      rw [Tick_forced] at hT
      rw [TickSimulate_eq_ok hT]
      exact Or.inl (TickBody_AckedFrame env s true)
    | false =>
      obtain ⟨-, hRec⟩ := Tick_real_eq_ok hT
      rw [Reconcile_TickBody] at hRec
      split at hRec
      · cases hRec; exact Or.inl (TickBody_AckedFrame env s false)
      split at hRec
      · cases hRec; exact Or.inl (TickBody_AckedFrame env s false)
      split at hRec
      · cases hRec; exact Or.inl (TickBody_AckedFrame env s false)
      rename_i hv hacked hinput
      split at hRec
      · rw [RewindAndResimulate_eq_ok hRec]
        exact Or.inr ⟨(ForceBody_Rewound env s).1, hv, hacked⟩
      split at hRec
      · cases hRec
      split at hRec
      · cases hRec
        exact Or.inr ⟨rfl, hv, hacked⟩
      · rw [RewindAndResimulate_History] at hRec
        rw [RewindAndResimulate_eq_ok hRec]
        exact Or.inr ⟨(ForceBody_Rewound env s).1, hv, hacked⟩
  constructor
  · intro hne
    rcases key with h | h
    · exact absurd h hne
    · exact h.1
  · intro hvalid
    rcases key with h | ⟨h1, h2, h3⟩
    · exact ⟨Or.inl h, h ▸ hvalid⟩
    · refine ⟨Or.inr ?_, h1 ▸ h2⟩
      rw [h1]
      by_contra h4
      exact h3 ⟨by omega, hvalid⟩

/-- Witness of C9: `aheadEnd` has acked frame `3`; after it receives an
authority state for frame `20` its next tick moves the acked frame to `20`. -/
theorem AckedFrame_increases_witness :
    aheadAgain.AckedFrame = 3 ∧
    (ForceBody counterEnv (resimulatedTicks counterEnv aheadAgain)
      (Rewound counterEnv (TickBody counterEnv aheadAgain false))).AckedFrame = 20 ∧
    ((ForceBody counterEnv (resimulatedTicks counterEnv aheadAgain)
        (Rewound counterEnv (TickBody counterEnv aheadAgain false))).AckedFrame =
        aheadAgain.AckedFrame ∨
      aheadAgain.AckedFrame <
        (ForceBody counterEnv (resimulatedTicks counterEnv aheadAgain)
          (Rewound counterEnv (TickBody counterEnv aheadAgain false))).AckedFrame) :=
  ⟨by decide, by decide,
    ((AckedFrame_increases counterEnv aheadAgain
      (ForceBody counterEnv (resimulatedTicks counterEnv aheadAgain)
        (Rewound counterEnv (TickBody counterEnv aheadAgain false))) false
      rfl).2 (by decide)).1⟩

/-- C10, evaluated where the code departs from it. A fresh driver whose first
tick produced the body `1` rewinds to an authority state with body `42`
(`Rewind` is called with `42`); the first forced tick then calls `Simulate`
with the previous state `1`, the body the driver had before the rewind, and
the resimulated bodies are `2` to `6`, not those obtained from `42`. -/
theorem Rewind_keeps_previous_body :
    Tick counterEnv aheadStart false = Except.ok aheadEnd ∧
    aheadStart.LastAuthorityState.State = 42 ∧
    (TickBody counterEnv aheadStart false).CurrentState.State = 1 ∧
    aheadEnd.Calls.take 9 =
      [Call.InputDelegate, Call.EmitInputPackets [{ PacketNumber := 0, Packet := 1 }],
        Call.Simulate 0 1, Call.InputBufferRewind 0, Call.Rewind 42, Call.ForceSimulate 5,
        Call.InputDelegate,
        Call.EmitInputPackets [{ PacketNumber := 1, Packet := 1 }, { PacketNumber := 0, Packet := 1 }],
        Call.Simulate 1 1] ∧
    aheadEnd.History.map (fun h => h.State) = [2, 3, 4, 5, 6] :=
  ⟨rfl, rfl, rfl, by decide, by decide⟩

/-! ## The outcomes of a tick -/

/-- A tick that returns ends in one of three ways: with the simulated part
alone, with an acknowledgement, or with a rewind and the forced ticks. -/
theorem Tick_cases [BEq S] [Inhabited S] {env : Env I S B} {s s' : Driver I S B} {f : Bool}
    (hT : Tick env s f = Except.ok s') :
    s' = TickBody env s f ∨
    (f = false ∧ s' = { TickBody env s false with
        History := (drainHistory s.LastAuthorityState.FrameNumber
          (TickBody env s false).History (FModelStateWrapper.Default S)).2.2
        AckedFrame := s.LastAuthorityState.FrameNumber
        InputBuffer := env.InputBuffer.Ack (TickBody env s false).InputBuffer
          s.LastAuthorityState.InputPacketNumber
        Calls := (TickBody env s false).Calls ++
          [Call.InputBufferAck s.LastAuthorityState.InputPacketNumber] }) ∨
    (f = false ∧ s.LastAuthorityState.FrameNumber ≠ kInvalidFrame ∧
      s' = ForceBody env (resimulatedTicks env s) (Rewound env (TickBody env s false))) := by
  cases f with
  | true =>
    rw [Tick_forced] at hT
    exact Or.inl (TickSimulate_eq_ok hT)
  | false =>
    obtain ⟨-, hRec⟩ := Tick_real_eq_ok hT
    rw [Reconcile_TickBody] at hRec
    split at hRec
    · cases hRec; exact Or.inl rfl
    split at hRec
    · cases hRec; exact Or.inl rfl
    split at hRec
    · cases hRec; exact Or.inl rfl
    rename_i hv hacked hinput
    split at hRec
    · exact Or.inr (Or.inr ⟨rfl, hv, RewindAndResimulate_eq_ok hRec⟩)
    split at hRec
    · cases hRec
    split at hRec
    · cases hRec
      exact Or.inr (Or.inl ⟨rfl, rfl⟩)
    · rw [RewindAndResimulate_History] at hRec
      exact Or.inr (Or.inr ⟨rfl, hv, RewindAndResimulate_eq_ok hRec⟩)

/-! ## The check of the input buffer -/

/-- C20 (`BufferUnderflow` is unreachable). Assume only that `QueueInputRemote`
leaves a buffer of positive size and that `ConsumeInputRemote` succeeds
whenever `RemoteBufferSize()` is positive. Then in every driver state and for
every tick, forced or not, the buffer has a positive size at the moment
`ConsumeInputRemote` is called at line 89 and the check passes; so neither a
tick nor a run of forced ticks ever fails with `BufferUnderflow`. -/
theorem BufferUnderflow_unreachable [BEq S] [Inhabited S] (env : Env I S B)
    (hQueue : ∀ b p, 0 < env.InputBuffer.RemoteBufferSize (env.InputBuffer.QueueInputRemote b p))
    (hConsume : ∀ b out, 0 < env.InputBuffer.RemoteBufferSize b →
      (env.InputBuffer.ConsumeInputRemote b out).1 = true)
    (s : Driver I S B) (bIsForcedSimulation : Bool) :
    0 < env.InputBuffer.RemoteBufferSize
      (PreTick env { s with LastState := s.CurrentState.State } bIsForcedSimulation).InputBuffer ∧
    (consumed env s bIsForcedSimulation).1 = true ∧
    TickSimulate env s bIsForcedSimulation = Except.ok (TickBody env s bIsForcedSimulation) ∧
    Tick env s bIsForcedSimulation ≠ Except.error Error.BufferUnderflow ∧
    ∀ n, ForceSimulate env n s ≠ Except.error Error.BufferUnderflow := by
  have hbuf : env.InputBuffer.Lawful :=
    ⟨fun b p out => hConsume _ _ (hQueue b p), hConsume⟩
  have hpos : 0 < env.InputBuffer.RemoteBufferSize
      (PreTick env { s with LastState := s.CurrentState.State } bIsForcedSimulation).InputBuffer := by
    unfold PreTick
    split
    · exact hQueue _ _
    · rename_i h
      simp only [not_or] at h
      exact Nat.pos_of_ne_zero h.2
  refine ⟨hpos, hConsume _ _ hpos, TickSimulate_ok env hbuf s _, ?_, ?_⟩
  · cases bIsForcedSimulation with
    | true =>
      rw [Tick_forced, TickSimulate_ok env hbuf]
      simp
    | false =>
      rw [Tick_real env hbuf, Reconcile_TickBody]
      repeat' split
      all_goals first
        | (rw [RewindAndResimulate_ok env hbuf]; simp)
        | (rw [RewindAndResimulate_History, RewindAndResimulate_ok env hbuf]; simp)
        | simp
  · intro n
    rw [ForceSimulate_ok env hbuf]
    simp

/-- Witness of C20: the concrete buffer satisfies both assumptions, and a
forced tick of a fresh driver, whose buffer is empty, passes the check. -/
theorem BufferUnderflow_unreachable_witness :
    (consumed counterEnv (Driver.fresh counterEnv) true).1 = true ∧
    Tick counterEnv (Driver.fresh counterEnv) true ≠ Except.error Error.BufferUnderflow :=
  ⟨(BufferUnderflow_unreachable counterEnv
      (fun b p => by simp [counterEnv, RemoteInputBuffer.ops])
      counterEnv_lawful.consume_pos (Driver.fresh counterEnv) true).2.1,
    (BufferUnderflow_unreachable counterEnv
      (fun b p => by simp [counterEnv, RemoteInputBuffer.ops])
      counterEnv_lawful.consume_pos (Driver.fresh counterEnv) true).2.2.2.1⟩

/-! ## Input packets and the sliding window -/

theorem emittedWindows_append (a b : List (Call I S)) :
    emittedWindows (a ++ b) = emittedWindows a ++ emittedWindows b := by
  simp [emittedWindows, List.filterMap_append]

theorem emittedWindows_of_not_production (cs : List (Call I S))
    (h : cs.filter Call.isInputProduction = []) : emittedWindows cs = [] := by
  induction cs with
  | nil => rfl
  | cons c cs ih =>
    cases c <;> simp_all [emittedWindows, Call.isInputProduction, List.filter_cons]

/-- The window kept after the oldest packet is dropped from a full window. -/
theorem window_truncate {α : Type} (l : List α) :
    (if kInputWindowSize ≤ (l.take kInputWindowSize).length
      then (l.take kInputWindowSize).dropLast else l.take kInputWindowSize) = l.take 2 := by
  rcases l with _ | ⟨a, _ | ⟨b, _ | ⟨c, l⟩⟩⟩ <;> simp [kInputWindowSize]

/-- Consistency only depends on the window, the counter and the emitted windows. -/
theorem PacketsConsistent_congr (s s' : Driver I S B)
    (hW : s'.SlidingInputWindow = s.SlidingInputWindow)
    (hN : s'.NextInputPacket = s.NextInputPacket)
    (hE : emittedWindows s'.Calls = emittedWindows s.Calls)
    (h : PacketsConsistent s) : PacketsConsistent s' := by
  unfold PacketsConsistent producedPackets at *
  rw [hW, hN, hE]
  exact h

/-- The production of a packet keeps the window and the counter consistent. -/
theorem PacketsConsistent_PreTick (env : Env I S B) (s : Driver I S B) (f : Bool)
    (h : PacketsConsistent s) : PacketsConsistent (PreTick env s f) := by
  unfold PreTick
  split
  · obtain ⟨h1, h2, h3, h4⟩ := h
    have hw := window_truncate (producedPackets s.Calls).reverse
    rw [← h1] at hw
    have hE : ∀ P : FInputPacketWrapper I,
        emittedWindows (s.Calls ++ [Call.InputDelegate,
          Call.EmitInputPackets (P :: (producedPackets s.Calls).reverse.take 2)]) =
        emittedWindows s.Calls ++ [P :: (producedPackets s.Calls).reverse.take 2] := by
      intro P
      rw [emittedWindows_append]
      rfl
    have hP : ∀ P : FInputPacketWrapper I,
        producedPackets (s.Calls ++ [Call.InputDelegate,
          Call.EmitInputPackets (P :: (producedPackets s.Calls).reverse.take 2)]) =
        producedPackets s.Calls ++ [P] := by
      intro P
      show List.filterMap List.head? (emittedWindows _) = _
      rw [hE, List.filterMap_append]
      rfl
    simp only [hw]
    unfold PacketsConsistent
    simp only [hP, hE]
    refine ⟨?_, ?_, ?_, ?_⟩
    · simp [kInputWindowSize]
    · rw [List.length_append, List.length_singleton, h2]
      simp [wrap32, Nat.add_mod]
    · rw [List.map_append, h3, List.length_append, List.length_singleton, List.range_succ,
        List.map_append, h2]
      rfl
    · rw [h4, List.length_append, List.length_singleton, List.range_succ, List.map_append]
      congr 1
      · apply List.map_congr_left
        intro j hj
        rw [List.mem_range] at hj
        rw [List.take_append_of_le_length (by omega)]
      · have e : ∀ P : FInputPacketWrapper I,
            List.take ((producedPackets s.Calls).length + 1) (producedPackets s.Calls ++ [P]) =
              producedPackets s.Calls ++ [P] :=
          fun P => List.take_of_length_le (by simp)
        simp only [List.map_cons, List.map_nil, e]
        simp [kInputWindowSize]
  · exact h

theorem PacketsConsistent_TickBody (env : Env I S B) (s : Driver I S B) (f : Bool)
    (h : PacketsConsistent s) : PacketsConsistent (TickBody env s f) := by
  have h0 : PacketsConsistent { s with LastState := s.CurrentState.State } :=
    PacketsConsistent_congr s _ rfl rfl rfl h
  refine PacketsConsistent_congr _ _ ?_ ?_ ?_ (PacketsConsistent_PreTick env _ f h0)
  · rfl
  · rfl
  · simp only [TickBody]
    rw [emittedWindows_append]
    simp [emittedWindows]

theorem PacketsConsistent_ForceBody (env : Env I S B) :
    ∀ (n : Nat) (s : Driver I S B), PacketsConsistent s → PacketsConsistent (ForceBody env n s)
  | 0, s, h => h
  | n + 1, s, h => by
    rw [ForceBody]
    exact PacketsConsistent_ForceBody env n _ (PacketsConsistent_TickBody env s true h)

theorem PacketsConsistent_Rewind_Internal (env : Env I S B) (s : Driver I S B)
    (State : FModelStateWrapper S) (h : PacketsConsistent s) :
    PacketsConsistent (Rewind_Internal env s State) := by
  refine PacketsConsistent_congr s _ rfl rfl ?_ h
  simp only [Rewind_Internal]
  rw [emittedWindows_append]
  simp [emittedWindows]

theorem PacketsConsistent_Rewound (env : Env I S B) (s : Driver I S B)
    (h : PacketsConsistent s) : PacketsConsistent (Rewound env s) := by
  refine PacketsConsistent_congr (Rewind_Internal env s s.LastAuthorityState) _ rfl rfl ?_
    (PacketsConsistent_Rewind_Internal env s _ h)
  simp only [Rewound]
  rw [emittedWindows_append]
  simp [emittedWindows]

theorem PacketsConsistent_Tick [BEq S] [Inhabited S] {env : Env I S B} {s s' : Driver I S B}
    {f : Bool} (hT : Tick env s f = Except.ok s') (h : PacketsConsistent s) :
    PacketsConsistent s' := by
  rcases Tick_cases hT with h1 | ⟨-, h1⟩ | ⟨-, -, h1⟩
  · rw [h1]
    exact PacketsConsistent_TickBody env s f h
  · rw [h1]
    refine PacketsConsistent_congr (TickBody env s false) _ rfl rfl ?_
      (PacketsConsistent_TickBody env s false h)
    simp only []
    rw [emittedWindows_append]
    simp [emittedWindows]
  · rw [h1]
    exact PacketsConsistent_ForceBody env _ _
      (PacketsConsistent_Rewound env _ (PacketsConsistent_TickBody env s false h))

/-- The window and the packet counter are consistent in every state of a run. -/
theorem Runs_PacketsConsistent [BEq S] [Inhabited S] [Inhabited I] (env : Env I S B)
    (s : Driver I S B) (hR : Runs env s) : PacketsConsistent s := by
  induction hR with
  | fresh =>
    refine ⟨rfl, rfl, rfl, rfl⟩
  | receive State _ ih => exact PacketsConsistent_congr _ _ rfl rfl rfl ih
  | tick f _ hT ih => exact PacketsConsistent_Tick hT ih
  | rewind State _ ih => exact PacketsConsistent_Rewind_Internal env _ State ih

/-- The element at place `i` of the window emitted with the `k`-th packet is
the packet produced `i` productions earlier. -/
theorem window_getElem {α : Type} (prod : List α) (k i : Nat) (hk : k ≤ prod.length)
    (hi : i < min k kInputWindowSize) :
    ((prod.take k).reverse.take kInputWindowSize)[i]? = prod[k - 1 - i]? := by
  have h1 : i < kInputWindowSize := lt_of_lt_of_le hi (min_le_right _ _)
  have h2 : i < k := lt_of_lt_of_le hi (min_le_left _ _)
  have hl : (prod.take k).length = k := by
    rw [List.length_take]; omega
  rw [List.getElem?_take_of_lt h1, List.getElem?_reverse (by omega), hl,
    List.getElem?_take_of_lt (by omega)]

/-- The driver `aheadEnd` is a state of a run. -/
theorem aheadEnd_runs : Runs counterEnv aheadEnd :=
  Runs.tick false (Runs.receive _ Runs.fresh) Tick_aheadStart

/-- C11 (sliding input window). In every state of a run that starts from a
fresh driver, for every `k` from `1` to the number of packets produced so far:
the window passed to `EmitInputPackets` when the `k`-th packet was produced
holds the last `kInputWindowSize = 3` of the first `k` packets produced,
newest first; its length is `min k 3`, at most `3`; as long as the packet
counter has not wrapped (`k ≤ 2 ^ 32`) its packet numbers are `k - 1`, `k - 2`
down to `max 0 (k - 3)`; so the emission for packet `k - 1` still carries
packet `k - 3`. -/
theorem SlidingInputWindow_emitted [BEq S] [Inhabited S] [Inhabited I] (env : Env I S B)
    (s : Driver I S B) (hR : Runs env s) (k : Nat) (hk1 : 1 ≤ k)
    (hk2 : k ≤ (producedPackets s.Calls).length) :
    (emittedWindows s.Calls).length = (producedPackets s.Calls).length ∧
    ∃ w, (emittedWindows s.Calls)[k - 1]? = some w ∧
      w = ((producedPackets s.Calls).take k).reverse.take kInputWindowSize ∧
      w.length = min k kInputWindowSize ∧ w.length ≤ kInputWindowSize ∧
      (∀ i, i < min k kInputWindowSize → w[i]? = (producedPackets s.Calls)[k - 1 - i]?) ∧
      (k ≤ 4294967296 →
        w.map (fun p => p.PacketNumber) =
          (List.range (min k kInputWindowSize)).map (fun i => k - 1 - i)) ∧
      (k ≤ 4294967296 → kInputWindowSize ≤ k → ∃ p ∈ w, p.PacketNumber = k - kInputWindowSize) := by
  obtain ⟨-, -, h3, h4⟩ := Runs_PacketsConsistent env s hR
  have hlen : (emittedWindows s.Calls).length = (producedPackets s.Calls).length := by
    rw [h4]; simp
  have hwl : (((producedPackets s.Calls).take k).reverse.take kInputWindowSize).length =
      min k kInputWindowSize := by
    simp only [List.length_take, List.length_reverse]
    omega
  have hnum : ∀ j, j < (producedPackets s.Calls).length → j < 4294967296 →
      ((producedPackets s.Calls)[j]?).map (fun p => p.PacketNumber) = some j := by
    intro j hj hj2
    rw [← List.getElem?_map, h3, List.getElem?_map, List.getElem?_range hj]
    simp [wrap32_of_lt hj2]
  have hmap : k ≤ 4294967296 →
      (((producedPackets s.Calls).take k).reverse.take kInputWindowSize).map
        (fun p => p.PacketNumber) =
        (List.range (min k kInputWindowSize)).map (fun i => k - 1 - i) := by
    intro hk3
    apply List.ext_getElem?
    intro i
    by_cases hi : i < min k kInputWindowSize
    · rw [List.getElem?_map, window_getElem _ k i hk2 hi, hnum _ (by omega) (by omega),
        List.getElem?_map, List.getElem?_range hi]
      rfl
    · rw [List.getElem?_eq_none (by rw [List.length_map, hwl]; omega),
        List.getElem?_eq_none (by simp; omega)]
  refine ⟨hlen, _, ?_, rfl, hwl, ?_, fun i hi => window_getElem _ k i hk2 hi, hmap, ?_⟩
  · rw [h4, List.getElem?_map, List.getElem?_range (by omega)]
    have : k - 1 + 1 = k := by omega
    simp [this]
  · rw [hwl]; exact min_le_right _ _
  · intro hk3 hk4
    have hm : k - kInputWindowSize ∈
        (((producedPackets s.Calls).take k).reverse.take kInputWindowSize).map
          (fun p => p.PacketNumber) := by
      rw [hmap hk3, List.mem_map]
      refine ⟨kInputWindowSize - 1, ?_, ?_⟩
      · rw [List.mem_range]
        unfold kInputWindowSize at *
        omega
      · unfold kInputWindowSize at *
        omega
    obtain ⟨p, hp, hpn⟩ := List.mem_map.1 hm
    exact ⟨p, hp, hpn⟩

/-- Witness of C11: the fourth packet of the run that ends in `aheadEnd` was
emitted in a window with the packets numbered `3`, `2` and `1`. -/
theorem SlidingInputWindow_emitted_witness :
    ∃ w, (emittedWindows aheadEnd.Calls)[4 - 1]? = some w ∧
      w.length = min 4 kInputWindowSize ∧
      w.map (fun p => p.PacketNumber) = [3, 2, 1] :=
  (SlidingInputWindow_emitted counterEnv aheadEnd aheadEnd_runs 4 (by decide)
    (by decide)).2.imp
    fun w h => ⟨h.1, h.2.2.1, h.2.2.2.2.2.1 (by decide)⟩

/-- C12 (input packet numbers). In every state of a run of real ticks, forced
ticks, received authority states and rewinds that starts from a fresh driver,
as long as the packet counter has not wrapped (at most `2 ^ 32` packets were
produced): the `i`-th packet produced carries the number `i - 1`, so the
numbers are consecutive from `0` and strictly increasing, and
`NextInputPacket` is the number of packets produced. `Rewind_Internal` sets
`NextFrame` to the frame after the given state and leaves `NextInputPacket`,
`SlidingInputWindow` and the packets produced unchanged, so no number is used
again after a rewind. -/
theorem PacketNumbers_consecutive [BEq S] [Inhabited S] [Inhabited I] (env : Env I S B)
    (s : Driver I S B) (hR : Runs env s)
    (hN : (producedPackets s.Calls).length ≤ 4294967296) :
    (producedPackets s.Calls).map (fun p => p.PacketNumber) =
      List.range (producedPackets s.Calls).length ∧
    ((producedPackets s.Calls).map (fun p => p.PacketNumber)).Pairwise (fun a b => a < b) ∧
    (∀ i, 1 ≤ i → i ≤ (producedPackets s.Calls).length →
      ((producedPackets s.Calls)[i - 1]?).map (fun p => p.PacketNumber) = some (i - 1)) ∧
    ((producedPackets s.Calls).length < 4294967296 →
      s.NextInputPacket = (producedPackets s.Calls).length) ∧
    ∀ State : FModelStateWrapper S,
      (Rewind_Internal env s State).NextFrame = wrap32 (State.FrameNumber + 1) ∧
      (Rewind_Internal env s State).NextInputPacket = s.NextInputPacket ∧
      (Rewind_Internal env s State).SlidingInputWindow = s.SlidingInputWindow ∧
      producedPackets (Rewind_Internal env s State).Calls = producedPackets s.Calls := by
  obtain ⟨-, h2, h3, -⟩ := Runs_PacketsConsistent env s hR
  have hr : (List.range (producedPackets s.Calls).length).map wrap32 =
      List.range (producedPackets s.Calls).length := by
    conv_rhs => rw [← List.map_id (List.range (producedPackets s.Calls).length)]
    apply List.map_congr_left
    intro j hj
    rw [List.mem_range] at hj
    exact wrap32_of_lt (by omega)
  rw [hr] at h3
  refine ⟨h3, ?_, ?_, ?_, ?_⟩
  · rw [h3]
    exact List.pairwise_lt_range _
  · intro i hi1 hi2
    rw [← List.getElem?_map, h3, List.getElem?_range (by omega)]
  · intro hlt
    rw [h2, wrap32_of_lt hlt]
  · intro State
    refine ⟨rfl, rfl, rfl, ?_⟩
    unfold producedPackets
    simp only [Rewind_Internal]
    rw [emittedWindows_append]
    simp [emittedWindows]

/-- Witness of C12: in `aheadEnd`, reached through a rewind, six packets were
produced, numbered `0` to `5`, and the next number is `6`. -/
theorem PacketNumbers_consecutive_witness :
    (producedPackets aheadEnd.Calls).map (fun p => p.PacketNumber) = List.range 6 ∧
    aheadEnd.NextInputPacket = 6 :=
  ⟨(PacketNumbers_consecutive counterEnv aheadEnd aheadEnd_runs (by decide)).1,
    (PacketNumbers_consecutive counterEnv aheadEnd aheadEnd_runs (by decide)).2.2.2.1
      (by decide)⟩

/-! ## Frame numbers of the simulated snapshots -/

/-- The driver `laggingStart` is a state of a run: two real ticks of a fresh
driver, then a received authority state. -/
theorem laggingStart_runs : Runs counterEnv laggingStart :=
  Runs.receive _ (Runs.tick false (Runs.tick false Runs.fresh rfl) rfl)

/-- Counterexample to C13 as stated: a driver ticks twice (frames `0` and `1`)
and receives an authority state for frame `0` that differs from its own. Its
third tick simulates frame `2`, rewinds, and the first forced tick simulates a
snapshot numbered `1`: the numbers of the successively simulated snapshots are
`0, 1, 2, 1, 2, 3, 4, 5`, with no counter near its wrap. -/
theorem FrameNumbers_counterexample :
    Runs counterEnv laggingStart ∧
    Tick counterEnv laggingStart false = Except.ok laggingEnd ∧
    laggingStart.CurrentState.FrameNumber = 1 ∧
    (TickBody counterEnv laggingStart false).CurrentState.FrameNumber = 2 ∧
    (TickBody counterEnv (Rewound counterEnv (TickBody counterEnv laggingStart false))
      true).CurrentState.FrameNumber = 1 ∧
    laggingEnd.History.map (fun h => h.FrameNumber) = [1, 2, 3, 4, 5] :=
  ⟨laggingStart_runs, rfl, rfl, rfl, rfl, by decide⟩

/-- C13, as amended. For every tick that returns, forced or not: the snapshot
it simulates first is numbered with the old `NextFrame`. Either no rewind
happens, then this is the current snapshot afterwards and `NextFrame` has been
incremented once, so the next simulated snapshot gets the following number.
Or the tick is a real one that rewinds to the authority state `A` and runs `n`
forced ticks, at least `kClientForwardPredictionFrames` of them; then, the
counter not wrapping, the forced snapshots are numbered `A.FrameNumber + 1` to
`A.FrameNumber + n` in increasing order, whatever the number of the snapshot
simulated before the rewind was, and `NextFrame` ends at
`A.FrameNumber + 1 + n`. If the frame number of `A` is at least the number of
the snapshot simulated before the rewind, all forced snapshots are numbered
above that snapshot; if it is below, the first forced snapshot is numbered
`A.FrameNumber + 1`, which is not above the number of the snapshot simulated
before the rewind, so the numbers do not increase there. -/
theorem FrameNumbers_between_rewinds [BEq S] [Inhabited S] (env : Env I S B)
    (s s' : Driver I S B) (bIsForcedSimulation : Bool)
    (hT : Tick env s bIsForcedSimulation = Except.ok s') :
    (TickBody env s bIsForcedSimulation).CurrentState.FrameNumber = s.NextFrame ∧
    ((s'.CurrentState = (TickBody env s bIsForcedSimulation).CurrentState ∧
        s'.NextFrame = wrap32 (s.NextFrame + 1) ∧
        (s.NextFrame + 1 < 4294967296 →
          s'.CurrentState.FrameNumber < s'.NextFrame ∧
          s'.NextFrame = s'.CurrentState.FrameNumber + 1)) ∨
      (bIsForcedSimulation = false ∧
        s' = ForceBody env (resimulatedTicks env s) (Rewound env (TickBody env s false)) ∧
        s'.History.length = resimulatedTicks env s ∧
        kClientForwardPredictionFrames ≤ resimulatedTicks env s ∧
        (s.LastAuthorityState.FrameNumber + 1 + resimulatedTicks env s < 4294967296 →
          s'.History.map (fun h => h.FrameNumber) =
            List.range' (s.LastAuthorityState.FrameNumber + 1) (resimulatedTicks env s) ∧
          (s'.History.map (fun h => h.FrameNumber)).Pairwise (fun a b => a < b) ∧
          s'.NextFrame = s.LastAuthorityState.FrameNumber + 1 + resimulatedTicks env s ∧
          (s.NextFrame ≤ s.LastAuthorityState.FrameNumber →
            ∀ h ∈ s'.History,
              (TickBody env s false).CurrentState.FrameNumber < h.FrameNumber) ∧
          (s.LastAuthorityState.FrameNumber < s.NextFrame →
            ∃ h ∈ s'.History, h.FrameNumber = s.LastAuthorityState.FrameNumber + 1 ∧
              h.FrameNumber ≤ (TickBody env s false).CurrentState.FrameNumber)))) := by
  refine ⟨TickBody_CurrentState_FrameNumber env s _, ?_⟩
  have hplain : (TickBody env s bIsForcedSimulation).CurrentState =
      (TickBody env s bIsForcedSimulation).CurrentState ∧
      (TickBody env s bIsForcedSimulation).NextFrame = wrap32 (s.NextFrame + 1) ∧
      (s.NextFrame + 1 < 4294967296 →
        (TickBody env s bIsForcedSimulation).CurrentState.FrameNumber <
          (TickBody env s bIsForcedSimulation).NextFrame ∧
        (TickBody env s bIsForcedSimulation).NextFrame =
          (TickBody env s bIsForcedSimulation).CurrentState.FrameNumber + 1) := by
    refine ⟨rfl, TickBody_NextFrame env s _, ?_⟩
    intro hw
    rw [TickBody_CurrentState_FrameNumber, TickBody_NextFrame, wrap32_of_lt hw]
    omega
  rcases Tick_cases hT with h1 | ⟨hf, h1⟩ | ⟨hf, -, h1⟩
  · left
    rw [h1]
    exact hplain
  · left
    subst hf
    rw [h1]
    exact hplain
  · right
    subst hf
    have hB := ForceBody_Rewound env s
    simp only [] at hB
    have hn : kClientForwardPredictionFrames ≤ resimulatedTicks env s := by
      unfold resimulatedTicks
      exact le_max_left _ _
    rw [h1]
    refine ⟨rfl, rfl, hB.2.2.1, hn, ?_⟩
    intro hw
    obtain ⟨hN, hH⟩ := hB.2.2.2.1 hw
    refine ⟨hH, ?_, hN, ?_, ?_⟩
    · rw [hH]
      exact List.pairwise_lt_range' _ _
    · intro hle h hh
      have hm : h.FrameNumber ∈ List.range' (s.LastAuthorityState.FrameNumber + 1)
          (resimulatedTicks env s) := by
        rw [← hH]
        exact List.mem_map_of_mem _ hh
      rw [List.mem_range'_1] at hm
      rw [TickBody_CurrentState_FrameNumber]
      omega
    · intro hlt
      have hm : s.LastAuthorityState.FrameNumber + 1 ∈
          (ForceBody env (resimulatedTicks env s)
            (Rewound env (TickBody env s false))).History.map (fun h => h.FrameNumber) := by
        rw [hH, List.mem_range'_1]
        unfold kClientForwardPredictionFrames at hn
        omega
      obtain ⟨h, hh, hf⟩ := List.mem_map.1 hm
      refine ⟨h, hh, hf, ?_⟩
      rw [hf, TickBody_CurrentState_FrameNumber]
      omega

/-- Witness of C13 as amended: the third tick of `laggingStart` simulates
frame `2`, rewinds to frame `0`, and its five forced snapshots are numbered `1`
to `5`, the first of them not above `2`. -/
theorem FrameNumbers_between_rewinds_witness :
    (TickBody counterEnv laggingStart false).CurrentState.FrameNumber = 2 ∧
    laggingEnd.History.map (fun h => h.FrameNumber) = [1, 2, 3, 4, 5] ∧
    laggingEnd.NextFrame = 6 ∧
    ∃ h ∈ laggingEnd.History, h.FrameNumber = 0 + 1 ∧
      h.FrameNumber ≤ (TickBody counterEnv laggingStart false).CurrentState.FrameNumber := by
  have h := FrameNumbers_between_rewinds counterEnv laggingStart laggingEnd false rfl
  refine ⟨h.1, ?_⟩
  rcases h.2 with h2 | h2
  · exact absurd h2.1 (by decide)
  · exact ⟨(h2.2.2.2.2 (by decide)).1, (h2.2.2.2.2 (by decide)).2.2.1,
      (h2.2.2.2.2 (by decide)).2.2.2.2 (by decide)⟩

/-! ## The authority driver -/

/-- C14, as the code has it. `PreTickPhysicsThread` makes no call and leaves
the driver, with `CurrentInput`, unchanged if and only if no packet is in use
(`CurrentInput.PacketNumber == INDEX_NONE`) and the size of the input buffer is
strictly below `ClientPredictionDesiredInputBufferSize` converted to `uint32`,
as in the source. In every other case it fetches the next input packet into
`CurrentInput` and calls `PreTickSimulateWithCurrentInput` with it. For a
setting that is not negative the comparison is the one of the size with the
setting itself; for a negative setting it is the one of the size with the
setting plus `2 ^ 32`. -/
theorem PreTickPhysicsThread_hold {I St Sim Buf : Type} (cfg : AuthSettings)
    (env : AuthEnv I Sim Buf) (d : FModelAuthDriver I St Sim Buf) (TickNumber : Int) :
    ((PreTickPhysicsThread cfg env d TickNumber).Calls = d.Calls ↔
      (d.CurrentInput.PacketNumber = INDEX_NONE ∧
        env.GetBufferSize d.InputBuf <
          castUInt32 cfg.ClientPredictionDesiredInputBufferSize)) ∧
    ((d.CurrentInput.PacketNumber = INDEX_NONE ∧
        env.GetBufferSize d.InputBuf <
          castUInt32 cfg.ClientPredictionDesiredInputBufferSize) →
      PreTickPhysicsThread cfg env d TickNumber = d) ∧
    (¬ (d.CurrentInput.PacketNumber = INDEX_NONE ∧
        env.GetBufferSize d.InputBuf <
          castUInt32 cfg.ClientPredictionDesiredInputBufferSize) →
      (PreTickPhysicsThread cfg env d TickNumber).CurrentInput =
        (env.GetNextInputPacket d.InputBuf d.CurrentInput).1 ∧
      (PreTickPhysicsThread cfg env d TickNumber).InputBuf =
        (env.GetNextInputPacket d.InputBuf d.CurrentInput).2 ∧
      (PreTickPhysicsThread cfg env d TickNumber).Base =
        env.PreTickSimulateWithCurrentInput d.Base
          (env.GetNextInputPacket d.InputBuf d.CurrentInput).1 TickNumber ∧
      (PreTickPhysicsThread cfg env d TickNumber).Calls = d.Calls ++
        [AuthCall.GetNextInputPacket,
          AuthCall.PreTickSimulateWithCurrentInput TickNumber
            (env.GetNextInputPacket d.InputBuf d.CurrentInput).1]) ∧
    (0 ≤ cfg.ClientPredictionDesiredInputBufferSize →
      cfg.ClientPredictionDesiredInputBufferSize < 4294967296 →
      ((d.CurrentInput.PacketNumber = INDEX_NONE ∧
          env.GetBufferSize d.InputBuf <
            castUInt32 cfg.ClientPredictionDesiredInputBufferSize) ↔
        (d.CurrentInput.PacketNumber = INDEX_NONE ∧
          (env.GetBufferSize d.InputBuf : Int) <
            cfg.ClientPredictionDesiredInputBufferSize))) ∧
    (cfg.ClientPredictionDesiredInputBufferSize < 0 →
      -4294967296 ≤ cfg.ClientPredictionDesiredInputBufferSize →
      ((d.CurrentInput.PacketNumber = INDEX_NONE ∧
          env.GetBufferSize d.InputBuf <
            castUInt32 cfg.ClientPredictionDesiredInputBufferSize) ↔
        (d.CurrentInput.PacketNumber = INDEX_NONE ∧
          (env.GetBufferSize d.InputBuf : Int) <
            cfg.ClientPredictionDesiredInputBufferSize + 4294967296))) := by
  refine ⟨?_, ?_, ?_, ?_, ?_⟩
  · unfold PreTickPhysicsThread
    constructor
    · intro h
      by_contra hc
      rw [if_neg hc] at h
      simp at h
    · intro hc
      rw [if_pos hc]
  · intro hc
    unfold PreTickPhysicsThread
    rw [if_pos hc]
  · intro hc
    unfold PreTickPhysicsThread
    rw [if_neg hc]
    exact ⟨rfl, rfl, rfl, rfl⟩
  · intro h0 h1
    have hcast : ((castUInt32 cfg.ClientPredictionDesiredInputBufferSize : Nat) : Int) =
        cfg.ClientPredictionDesiredInputBufferSize := by
      unfold castUInt32
      rw [Int.emod_eq_of_lt h0 h1]
      exact Int.toNat_of_nonneg h0
    constructor
    · rintro ⟨ha, hb⟩
      refine ⟨ha, ?_⟩
      rw [← hcast]
      exact_mod_cast hb
    · rintro ⟨ha, hb⟩
      refine ⟨ha, ?_⟩
      rw [← hcast] at hb
      exact_mod_cast hb
  · intro h0 h1
    have hmod : cfg.ClientPredictionDesiredInputBufferSize % 4294967296 =
        cfg.ClientPredictionDesiredInputBufferSize + 4294967296 := by
      omega
    have hcast : ((castUInt32 cfg.ClientPredictionDesiredInputBufferSize : Nat) : Int) =
        cfg.ClientPredictionDesiredInputBufferSize + 4294967296 := by
      unfold castUInt32
      rw [hmod]
      exact Int.toNat_of_nonneg (by omega)
    constructor
    · rintro ⟨ha, hb⟩
      refine ⟨ha, ?_⟩
      rw [← hcast]
      exact_mod_cast hb
    · rintro ⟨ha, hb⟩
      refine ⟨ha, ?_⟩
      rw [← hcast] at hb
      exact_mod_cast hb

/-- Witness of C14: with the desired size `3`, a fresh driver whose buffer
holds two packets is held, and one whose buffer holds three packets fetches a
packet and simulates. -/
theorem PreTickPhysicsThread_hold_witness :
    PreTickPhysicsThread halfSettings pairAuthEnv
      (FModelAuthDriver.fresh () (2, 0) : FModelAuthDriver Nat Nat Unit (Nat × Nat)) 0 =
      FModelAuthDriver.fresh () (2, 0) ∧
    (PreTickPhysicsThread halfSettings pairAuthEnv
      (FModelAuthDriver.fresh () (3, 0) : FModelAuthDriver Nat Nat Unit (Nat × Nat)) 0).Calls =
      [AuthCall.GetNextInputPacket,
        AuthCall.PreTickSimulateWithCurrentInput 0 { PacketNumber := 0, Body := 0 }] :=
  ⟨(PreTickPhysicsThread_hold halfSettings pairAuthEnv
      (FModelAuthDriver.fresh () (2, 0)) 0).2.1 (by decide),
    ((PreTickPhysicsThread_hold halfSettings pairAuthEnv
      (FModelAuthDriver.fresh () (3, 0)) 0).2.2.1 (by decide)).2.2.2⟩

/-- C14, evaluated where the code departs from it. With the setting `-1`, a
fresh driver, which has no packet in use, and a buffer of five packets, the
size is not below the setting, and yet the tick is held: the driver is
unchanged and no call is made. -/
theorem PreTickPhysicsThread_hold_counterexample :
    (FModelAuthDriver.fresh () (5, 0) :
      FModelAuthDriver Nat Nat Unit (Nat × Nat)).CurrentInput.PacketNumber = INDEX_NONE ∧
    ¬ ((pairAuthEnv.GetBufferSize (5, 0) : Int) <
      negativeSettings.ClientPredictionDesiredInputBufferSize) ∧
    PreTickPhysicsThread negativeSettings pairAuthEnv
      (FModelAuthDriver.fresh () (5, 0) : FModelAuthDriver Nat Nat Unit (Nat × Nat)) 0 =
      FModelAuthDriver.fresh () (5, 0) ∧
    (PreTickPhysicsThread negativeSettings pairAuthEnv
      (FModelAuthDriver.fresh () (5, 0) : FModelAuthDriver Nat Nat Unit (Nat × Nat)) 0).Calls =
      [] :=
  ⟨rfl, by decide, rfl, rfl⟩

theorem SendCurrentStateToRemotes_InputBuf {I St Sim Buf : Type}
    (d : FModelAuthDriver I St Sim Buf) :
    (SendCurrentStateToRemotes d).InputBuf = d.InputBuf := by
  unfold SendCurrentStateToRemotes
  simp only []
  split <;> rfl

theorem SendCurrentStateToRemotes_LastSuggestedTimeDilation {I St Sim Buf : Type}
    (d : FModelAuthDriver I St Sim Buf) :
    (SendCurrentStateToRemotes d).LastSuggestedTimeDilation = d.LastSuggestedTimeDilation := by
  unfold SendCurrentStateToRemotes
  simp only []
  split <;> rfl

/-- The new suggested time dilation is the old one moved towards the target. -/
theorem PostPhysicsGameThread_LastSuggestedTimeDilation {I St Sim Buf : Type}
    (cfg : AuthSettings) (env : AuthEnv I Sim Buf) (d : FModelAuthDriver I St Sim Buf) :
    (PostPhysicsGameThread cfg env d).LastSuggestedTimeDilation =
      Lerp d.LastSuggestedTimeDilation (TargetTimeDilation cfg env d.InputBuf)
        cfg.ClientPredictionTimeDilationAlpha := by
  simp only [PostPhysicsGameThread, SendCurrentStateToRemotes_InputBuf,
    SendCurrentStateToRemotes_LastSuggestedTimeDilation]

theorem TargetTimeDilation_bounds {I Sim Buf : Type} (cfg : AuthSettings)
    (env : AuthEnv I Sim Buf) (b : Buf) :
    -1 ≤ TargetTimeDilation cfg env b ∧ TargetTimeDilation cfg env b ≤ 1 := by
  unfold TargetTimeDilation
  simp only []
  split
  · norm_num
  · split <;> norm_num

theorem Lerp_bounds (a t α : ℚ) (hα0 : 0 < α) (hα1 : α ≤ 1) (ha : -1 ≤ a ∧ a ≤ 1)
    (ht : -1 ≤ t ∧ t ≤ 1) : -1 ≤ Lerp a t α ∧ Lerp a t α ≤ 1 := by
  unfold Lerp
  constructor
  · nlinarith [mul_nonneg (sub_nonneg.2 hα1) (sub_nonneg.2 ha.1),
      mul_nonneg hα0.le (sub_nonneg.2 ht.1)]
  · nlinarith [mul_nonneg (sub_nonneg.2 hα1) (sub_nonneg.2 ha.2),
      mul_nonneg hα0.le (sub_nonneg.2 ht.2)]

theorem PostPhysicsGameThread_bounds {I St Sim Buf : Type} (cfg : AuthSettings)
    (env : AuthEnv I Sim Buf) (hα0 : 0 < cfg.ClientPredictionTimeDilationAlpha)
    (hα1 : cfg.ClientPredictionTimeDilationAlpha ≤ 1) (d : FModelAuthDriver I St Sim Buf)
    (hd : -1 ≤ d.LastSuggestedTimeDilation ∧ d.LastSuggestedTimeDilation ≤ 1) :
    -1 ≤ (PostPhysicsGameThread cfg env d).LastSuggestedTimeDilation ∧
      (PostPhysicsGameThread cfg env d).LastSuggestedTimeDilation ≤ 1 := by
  rw [PostPhysicsGameThread_LastSuggestedTimeDilation]
  exact Lerp_bounds _ _ _ hα0 hα1 hd (TargetTimeDilation_bounds cfg env _)

theorem PostPhysicsRun_bounds {I St Sim Buf : Type} (cfg : AuthSettings)
    (env : AuthEnv I Sim Buf) (hα0 : 0 < cfg.ClientPredictionTimeDilationAlpha)
    (hα1 : cfg.ClientPredictionTimeDilationAlpha ≤ 1) :
    ∀ (bs : List Buf) (d : FModelAuthDriver I St Sim Buf),
      (-1 ≤ d.LastSuggestedTimeDilation ∧ d.LastSuggestedTimeDilation ≤ 1) →
      ∀ x ∈ PostPhysicsRun cfg env bs d, -1 ≤ x ∧ x ≤ 1
  | [], d, _, x, hx => by simp [PostPhysicsRun] at hx
  | b :: bs, d, hd, x, hx => by
    have h1 := PostPhysicsGameThread_bounds cfg env hα0 hα1 { d with InputBuf := b } hd
    simp only [PostPhysicsRun, List.mem_cons] at hx
    rcases hx with hx | hx
    · rw [hx]; exact h1
    · exact PostPhysicsRun_bounds cfg env hα0 hα1 bs _ h1 x hx

/-- C18 (the suggested time dilation stays within `[-1, 1]`), over the
rationals. For every smoothing factor in `(0, 1]`: a call of
`PostPhysicsGameThread` on a driver whose suggested time dilation lies in
`[-1, 1]` leaves it in `[-1, 1]`; a fresh driver starts at `1`; hence, for
every sequence of states of the input buffer (sizes and numbers of dropped
packets), every value produced by the successive calls on a fresh driver lies
in `[-1, 1]`. -/
theorem TimeDilation_bounded {I St Sim Buf : Type} [Inhabited I] [Inhabited St]
    (cfg : AuthSettings) (env : AuthEnv I Sim Buf)
    (hα0 : 0 < cfg.ClientPredictionTimeDilationAlpha)
    (hα1 : cfg.ClientPredictionTimeDilationAlpha ≤ 1) :
    (∀ d : FModelAuthDriver I St Sim Buf,
      -1 ≤ d.LastSuggestedTimeDilation → d.LastSuggestedTimeDilation ≤ 1 →
      -1 ≤ (PostPhysicsGameThread cfg env d).LastSuggestedTimeDilation ∧
        (PostPhysicsGameThread cfg env d).LastSuggestedTimeDilation ≤ 1) ∧
    (∀ (Base : Sim) (InputBuf : Buf),
      (FModelAuthDriver.fresh Base InputBuf :
        FModelAuthDriver I St Sim Buf).LastSuggestedTimeDilation = 1) ∧
    ∀ (Base : Sim) (InputBuf : Buf) (bs : List Buf),
      ∀ x ∈ PostPhysicsRun cfg env bs
        (FModelAuthDriver.fresh Base InputBuf : FModelAuthDriver I St Sim Buf),
        -1 ≤ x ∧ x ≤ 1 := by
  refine ⟨fun d h1 h2 => PostPhysicsGameThread_bounds cfg env hα0 hα1 d ⟨h1, h2⟩,
    fun _ _ => rfl, ?_⟩
  intro Base InputBuf bs
  apply PostPhysicsRun_bounds cfg env hα0 hα1
  simp only [FModelAuthDriver.fresh]
  norm_num

/-- Witness of C18: with the smoothing factor one half, the value produced on
a fresh driver whose buffer holds `6` packets lies in `[-1, 1]`. -/
theorem TimeDilation_bounded_witness :
    -1 ≤ (PostPhysicsGameThread halfSettings pairAuthEnv
      (FModelAuthDriver.fresh () (6, 0) :
        FModelAuthDriver Nat Nat Unit (Nat × Nat))).LastSuggestedTimeDilation ∧
    (PostPhysicsGameThread halfSettings pairAuthEnv
      (FModelAuthDriver.fresh () (6, 0) :
        FModelAuthDriver Nat Nat Unit (Nat × Nat))).LastSuggestedTimeDilation ≤ 1 :=
  (TimeDilation_bounded halfSettings pairAuthEnv (by norm_num [halfSettings])
    (by norm_num [halfSettings])).1 (FModelAuthDriver.fresh () (6, 0))
    (by norm_num [FModelAuthDriver.fresh]) (by norm_num [FModelAuthDriver.fresh])

theorem TargetTimeDilation_above {I Sim Buf : Type} (cfg : AuthSettings)
    (env : AuthEnv I Sim Buf) (b : Buf) (h : BufferAbove cfg env b) :
    TargetTimeDilation cfg env b = -1 := by
  unfold BufferAbove at h
  unfold TargetTimeDilation
  simp only []
  rw [if_pos h]

theorem TargetTimeDilation_under {I Sim Buf : Type} (cfg : AuthSettings)
    (env : AuthEnv I Sim Buf) (b : Buf) (h : BufferUnder cfg env b) :
    TargetTimeDilation cfg env b = 1 := by
  unfold BufferUnder at h
  unfold TargetTimeDilation
  simp only []
  rw [if_neg (by omega), if_pos h]

/-- The values produced while the buffer stays above the desired size. -/
theorem PostPhysicsRun_above {I St Sim Buf : Type} (cfg : AuthSettings)
    (env : AuthEnv I Sim Buf) :
    ∀ (bs : List Buf) (d : FModelAuthDriver I St Sim Buf),
      (∀ b ∈ bs, BufferAbove cfg env b) →
      PostPhysicsRun cfg env bs d = (List.range bs.length).map (fun k =>
        (1 - cfg.ClientPredictionTimeDilationAlpha) ^ (k + 1) *
          (d.LastSuggestedTimeDilation + 1) - 1)
  | [], d, _ => rfl
  | b :: bs, d, h => by
    have hb := TargetTimeDilation_above cfg env b (h b (List.mem_cons_self _ _))
    have h1 : (PostPhysicsGameThread cfg env { d with InputBuf := b }).LastSuggestedTimeDilation =
        (1 - cfg.ClientPredictionTimeDilationAlpha) * (d.LastSuggestedTimeDilation + 1) - 1 := by
      rw [PostPhysicsGameThread_LastSuggestedTimeDilation]
      simp only [hb, Lerp]
      ring
    rw [PostPhysicsRun, PostPhysicsRun_above cfg env bs _
      (fun b' hb' => h b' (List.mem_cons_of_mem _ hb')), h1, List.length_cons,
      List.range_succ_eq_map, List.map_cons, List.map_map]
    congr 1
    · ring
    · apply List.map_congr_left
      intro k _
      simp only [Function.comp, Nat.succ_eq_add_one]
      ring

/-- The values produced while the buffer stays under the desired size. -/
theorem PostPhysicsRun_under {I St Sim Buf : Type} (cfg : AuthSettings)
    (env : AuthEnv I Sim Buf) :
    ∀ (bs : List Buf) (d : FModelAuthDriver I St Sim Buf),
      (∀ b ∈ bs, BufferUnder cfg env b) →
      PostPhysicsRun cfg env bs d = (List.range bs.length).map (fun k =>
        1 - (1 - cfg.ClientPredictionTimeDilationAlpha) ^ (k + 1) *
          (1 - d.LastSuggestedTimeDilation))
  | [], d, _ => rfl
  | b :: bs, d, h => by
    have hb := TargetTimeDilation_under cfg env b (h b (List.mem_cons_self _ _))
    have h1 : (PostPhysicsGameThread cfg env { d with InputBuf := b }).LastSuggestedTimeDilation =
        1 - (1 - cfg.ClientPredictionTimeDilationAlpha) * (1 - d.LastSuggestedTimeDilation) := by
      rw [PostPhysicsGameThread_LastSuggestedTimeDilation]
      simp only [hb, Lerp]
      ring
    rw [PostPhysicsRun, PostPhysicsRun_under cfg env bs _
      (fun b' hb' => h b' (List.mem_cons_of_mem _ hb')), h1, List.length_cons,
      List.range_succ_eq_map, List.map_cons, List.map_map]
    congr 1
    · ring
    · apply List.map_congr_left
      intro k _
      simp only [Function.comp, Nat.succ_eq_add_one]
      ring

/-- The values produced are monotone while the target stays the same. -/
theorem PostPhysicsRun_chain {I St Sim Buf : Type} (cfg : AuthSettings)
    (env : AuthEnv I Sim Buf) (hα0 : 0 < cfg.ClientPredictionTimeDilationAlpha)
    (hα1 : cfg.ClientPredictionTimeDilationAlpha ≤ 1) (t : ℚ) (ht : -1 ≤ t ∧ t ≤ 1)
    (R : ℚ → ℚ → Prop)
    (hR : ∀ a : ℚ, -1 ≤ a → a ≤ 1 →
      R a (Lerp a t cfg.ClientPredictionTimeDilationAlpha)) :
    ∀ (bs : List Buf) (d : FModelAuthDriver I St Sim Buf),
      (∀ b ∈ bs, TargetTimeDilation cfg env b = t) →
      (-1 ≤ d.LastSuggestedTimeDilation ∧ d.LastSuggestedTimeDilation ≤ 1) →
      List.Chain R d.LastSuggestedTimeDilation (PostPhysicsRun cfg env bs d)
  | [], d, _, _ => List.Chain.nil
  | b :: bs, d, h, hd => by
    have hb := h b (List.mem_cons_self _ _)
    have h1 := PostPhysicsGameThread_LastSuggestedTimeDilation cfg env { d with InputBuf := b }
    simp only [hb] at h1
    rw [PostPhysicsRun]
    refine List.Chain.cons ?_ ?_
    · rw [h1]
      exact hR _ hd.1 hd.2
    · exact PostPhysicsRun_chain cfg env hα0 hα1 t ht R hR bs _
        (fun b' hb' => h b' (List.mem_cons_of_mem _ hb'))
        (PostPhysicsGameThread_bounds cfg env hα0 hα1 _ hd)

/-- The powers of a number in `[0, 1)` fall below every positive bound. -/
theorem pow_eventually_small (r ε : ℚ) (hr0 : 0 ≤ r) (hr1 : r < 1) (hε : 0 < ε) :
    ∃ K : Nat, ∀ k, K ≤ k → r ^ (k + 1) * 2 < ε := by
  obtain ⟨K, hK⟩ := exists_pow_lt_of_lt_one (half_pos hε) hr1
  refine ⟨K, fun k hk => ?_⟩
  have h1 : r ^ (k + 1) ≤ r ^ K := pow_le_pow_of_le_one hr0 hr1.le (by omega)
  linarith

/-- The values produced while the comparison made by `PostPhysicsGameThread`,
on the `uint16` values of the two sizes, keeps the same result: the closed
form, the monotony, the bound and the convergence. -/
theorem PostPhysicsRun_converges {I St Sim Buf : Type} (cfg : AuthSettings)
    (env : AuthEnv I Sim Buf) (d : FModelAuthDriver I St Sim Buf)
    (hα0 : 0 < cfg.ClientPredictionTimeDilationAlpha)
    (hα1 : cfg.ClientPredictionTimeDilationAlpha ≤ 1)
    (hx0 : -1 ≤ d.LastSuggestedTimeDilation) (hx1 : d.LastSuggestedTimeDilation ≤ 1) :
    (∀ bs : List Buf, (∀ b ∈ bs, BufferAbove cfg env b) →
      PostPhysicsRun cfg env bs d = (List.range bs.length).map (fun k =>
        (1 - cfg.ClientPredictionTimeDilationAlpha) ^ (k + 1) *
          (d.LastSuggestedTimeDilation + 1) - 1) ∧
      List.Chain (fun a b => b ≤ a) d.LastSuggestedTimeDilation (PostPhysicsRun cfg env bs d) ∧
      ∀ x ∈ PostPhysicsRun cfg env bs d, -1 ≤ x) ∧
    (∀ ε : ℚ, 0 < ε → ∃ K : Nat, ∀ bs : List Buf, (∀ b ∈ bs, BufferAbove cfg env b) →
      ∀ k x, K ≤ k → (PostPhysicsRun cfg env bs d)[k]? = some x → x + 1 < ε) ∧
    (∀ bs : List Buf, (∀ b ∈ bs, BufferUnder cfg env b) →
      PostPhysicsRun cfg env bs d = (List.range bs.length).map (fun k =>
        1 - (1 - cfg.ClientPredictionTimeDilationAlpha) ^ (k + 1) *
          (1 - d.LastSuggestedTimeDilation)) ∧
      List.Chain (fun a b => a ≤ b) d.LastSuggestedTimeDilation (PostPhysicsRun cfg env bs d) ∧
      ∀ x ∈ PostPhysicsRun cfg env bs d, x ≤ 1) ∧
    (∀ ε : ℚ, 0 < ε → ∃ K : Nat, ∀ bs : List Buf, (∀ b ∈ bs, BufferUnder cfg env b) →
      ∀ k x, K ≤ k → (PostPhysicsRun cfg env bs d)[k]? = some x → 1 - x < ε) := by
  have hr0 : 0 ≤ 1 - cfg.ClientPredictionTimeDilationAlpha := sub_nonneg.2 hα1
  have hr1 : 1 - cfg.ClientPredictionTimeDilationAlpha < 1 := by linarith
  refine ⟨?_, ?_, ?_, ?_⟩
  · intro bs hbs
    refine ⟨PostPhysicsRun_above cfg env bs d hbs, ?_,
      fun x hx => (PostPhysicsRun_bounds cfg env hα0 hα1 bs d ⟨hx0, hx1⟩ x hx).1⟩
    apply PostPhysicsRun_chain cfg env hα0 hα1 (-1) (by norm_num) _ _ bs d
      (fun b hb => TargetTimeDilation_above cfg env b (hbs b hb)) ⟨hx0, hx1⟩
    intro a ha0 ha1
    unfold Lerp
    nlinarith [mul_nonneg hα0.le (by linarith : (0 : ℚ) ≤ a + 1)]
  · intro ε hε
    obtain ⟨K, hK⟩ := pow_eventually_small _ ε hr0 hr1 hε
    refine ⟨K, fun bs hbs k x hk hx => ?_⟩
    rw [PostPhysicsRun_above cfg env bs d hbs, List.getElem?_map] at hx
    cases hk2 : (List.range bs.length)[k]? with
    | none => rw [hk2] at hx; cases hx
    | some j =>
      rw [hk2] at hx
      have hj : j = k := by
        have := List.getElem?_eq_some.1 hk2
        obtain ⟨hlt, he⟩ := this
        simpa using he.symm
      subst hj
      simp only [Option.map_some', Option.some.injEq] at hx
      rw [← hx]
      have h2 := hK j hk
      have h3 : (1 - cfg.ClientPredictionTimeDilationAlpha) ^ (j + 1) *
          (d.LastSuggestedTimeDilation + 1) ≤
          (1 - cfg.ClientPredictionTimeDilationAlpha) ^ (j + 1) * 2 :=
        mul_le_mul_of_nonneg_left (by linarith) (pow_nonneg hr0 _)
      linarith
  · intro bs hbs
    refine ⟨PostPhysicsRun_under cfg env bs d hbs, ?_,
      fun x hx => (PostPhysicsRun_bounds cfg env hα0 hα1 bs d ⟨hx0, hx1⟩ x hx).2⟩
    apply PostPhysicsRun_chain cfg env hα0 hα1 1 (by norm_num) _ _ bs d
      (fun b hb => TargetTimeDilation_under cfg env b (hbs b hb)) ⟨hx0, hx1⟩
    intro a ha0 ha1
    unfold Lerp
    nlinarith [mul_nonneg hα0.le (by linarith : (0 : ℚ) ≤ 1 - a)]
  · intro ε hε
    obtain ⟨K, hK⟩ := pow_eventually_small _ ε hr0 hr1 hε
    refine ⟨K, fun bs hbs k x hk hx => ?_⟩
    rw [PostPhysicsRun_under cfg env bs d hbs, List.getElem?_map] at hx
    cases hk2 : (List.range bs.length)[k]? with
    | none => rw [hk2] at hx; cases hx
    | some j =>
      rw [hk2] at hx
      have hj : j = k := by
        have := List.getElem?_eq_some.1 hk2
        obtain ⟨hlt, he⟩ := this
        simpa using he.symm
      subst hj
      simp only [Option.map_some', Option.some.injEq] at hx
      rw [← hx]
      have h2 := hK j hk
      have h3 : (1 - cfg.ClientPredictionTimeDilationAlpha) ^ (j + 1) *
          (1 - d.LastSuggestedTimeDilation) ≤
          (1 - cfg.ClientPredictionTimeDilationAlpha) ^ (j + 1) * 2 :=
        mul_le_mul_of_nonneg_left (by linarith) (pow_nonneg hr0 _)
      linarith

/-- The conversion to `uint16` leaves a value in the range of `uint16` as it
is. -/
theorem castUInt16_of_range (n : Int) (h0 : 0 ≤ n) (h1 : n < 65536) :
    ((castUInt16 n : Nat) : Int) = n := by
  unfold castUInt16
  rw [Int.emod_eq_of_lt h0 h1]
  exact Int.toNat_of_nonneg h0

/-- For sizes in the range of `uint16` the comparison made by
`PostPhysicsGameThread` is the comparison of the sizes themselves. -/
theorem BufferInRange_iff {I Sim Buf : Type} (cfg : AuthSettings) (env : AuthEnv I Sim Buf)
    (b : Buf) (h : BufferInRange cfg env b) :
    (BufferAbove cfg env b ↔ BufferOverDesired cfg env b) ∧
      (BufferUnder cfg env b ↔ BufferBelowDesired cfg env b) := by
  obtain ⟨hs, hd0, hd1⟩ := h
  have h1 := castUInt16_of_range (env.GetBufferSize b) (by omega) (by omega)
  have h2 := castUInt16_of_range _ hd0 hd1
  unfold BufferAbove BufferUnder BufferOverDesired BufferBelowDesired
  constructor
  · rw [← Int.ofNat_lt, h1, h2]
  · rw [← Int.ofNat_lt, h1, h2]

/-- C19, as the code has it, over the rationals. Let the smoothing factor
`alpha` lie in `(0, 1]` and the suggested time dilation `x0` of the driver lie
in `[-1, 1]`, and let the size of the buffer and the desired size (the setting
plus the number of the recently dropped packets) be values a `uint16` holds
(the size below `2 ^ 16`, the desired size from `0` to below `2 ^ 16`) at
every call of `PostPhysicsGameThread`. If at every call the buffer is above
the desired size, the values `x_k` produced satisfy
`x_k + 1 = (1 - alpha) ^ k * (x0 + 1)`, they never increase, they stay at or
above `-1`, and they come as close to `-1` as wished. If at every call the
buffer is under the desired size, symmetrically
`1 - x_k = (1 - alpha) ^ k * (1 - x0)`, the values never decrease, stay at or
below `1` and come as close to `1` as wished. In that range the comparison of
the code is the comparison of the sizes themselves; in general the code
compares the two sizes converted to `uint16`, and the closed forms hold
whenever that comparison keeps its result. -/
theorem TimeDilation_equilibrium {I St Sim Buf : Type} (cfg : AuthSettings)
    (env : AuthEnv I Sim Buf) (d : FModelAuthDriver I St Sim Buf)
    (hα0 : 0 < cfg.ClientPredictionTimeDilationAlpha)
    (hα1 : cfg.ClientPredictionTimeDilationAlpha ≤ 1)
    (hx0 : -1 ≤ d.LastSuggestedTimeDilation) (hx1 : d.LastSuggestedTimeDilation ≤ 1) :
    (∀ bs : List Buf,
      (∀ b ∈ bs, BufferInRange cfg env b ∧ BufferOverDesired cfg env b) →
      PostPhysicsRun cfg env bs d = (List.range bs.length).map (fun k =>
        (1 - cfg.ClientPredictionTimeDilationAlpha) ^ (k + 1) *
          (d.LastSuggestedTimeDilation + 1) - 1) ∧
      List.Chain (fun a b => b ≤ a) d.LastSuggestedTimeDilation (PostPhysicsRun cfg env bs d) ∧
      ∀ x ∈ PostPhysicsRun cfg env bs d, -1 ≤ x) ∧
    (∀ ε : ℚ, 0 < ε → ∃ K : Nat, ∀ bs : List Buf,
      (∀ b ∈ bs, BufferInRange cfg env b ∧ BufferOverDesired cfg env b) →
      ∀ k x, K ≤ k → (PostPhysicsRun cfg env bs d)[k]? = some x → x + 1 < ε) ∧
    (∀ bs : List Buf,
      (∀ b ∈ bs, BufferInRange cfg env b ∧ BufferBelowDesired cfg env b) →
      PostPhysicsRun cfg env bs d = (List.range bs.length).map (fun k =>
        1 - (1 - cfg.ClientPredictionTimeDilationAlpha) ^ (k + 1) *
          (1 - d.LastSuggestedTimeDilation)) ∧
      List.Chain (fun a b => a ≤ b) d.LastSuggestedTimeDilation (PostPhysicsRun cfg env bs d) ∧
      ∀ x ∈ PostPhysicsRun cfg env bs d, x ≤ 1) ∧
    (∀ ε : ℚ, 0 < ε → ∃ K : Nat, ∀ bs : List Buf,
      (∀ b ∈ bs, BufferInRange cfg env b ∧ BufferBelowDesired cfg env b) →
      ∀ k x, K ≤ k → (PostPhysicsRun cfg env bs d)[k]? = some x → 1 - x < ε) ∧
    (∀ b : Buf, BufferInRange cfg env b →
      (BufferAbove cfg env b ↔ BufferOverDesired cfg env b) ∧
      (BufferUnder cfg env b ↔ BufferBelowDesired cfg env b)) ∧
    (∀ bs : List Buf, (∀ b ∈ bs, BufferAbove cfg env b) →
      PostPhysicsRun cfg env bs d = (List.range bs.length).map (fun k =>
        (1 - cfg.ClientPredictionTimeDilationAlpha) ^ (k + 1) *
          (d.LastSuggestedTimeDilation + 1) - 1) ∧
      List.Chain (fun a b => b ≤ a) d.LastSuggestedTimeDilation (PostPhysicsRun cfg env bs d)) ∧
    (∀ bs : List Buf, (∀ b ∈ bs, BufferUnder cfg env b) →
      PostPhysicsRun cfg env bs d = (List.range bs.length).map (fun k =>
        1 - (1 - cfg.ClientPredictionTimeDilationAlpha) ^ (k + 1) *
          (1 - d.LastSuggestedTimeDilation)) ∧
      List.Chain (fun a b => a ≤ b) d.LastSuggestedTimeDilation
        (PostPhysicsRun cfg env bs d)) := by
  obtain ⟨h1, h2, h3, h4⟩ := PostPhysicsRun_converges cfg env d hα0 hα1 hx0 hx1
  have hA : ∀ bs : List Buf,
      (∀ b ∈ bs, BufferInRange cfg env b ∧ BufferOverDesired cfg env b) →
      ∀ b ∈ bs, BufferAbove cfg env b := fun bs h b hb =>
    (BufferInRange_iff cfg env b (h b hb).1).1.2 (h b hb).2
  have hU : ∀ bs : List Buf,
      (∀ b ∈ bs, BufferInRange cfg env b ∧ BufferBelowDesired cfg env b) →
      ∀ b ∈ bs, BufferUnder cfg env b := fun bs h b hb =>
    (BufferInRange_iff cfg env b (h b hb).1).2.2 (h b hb).2
  refine ⟨fun bs h => h1 bs (hA bs h), ?_, fun bs h => h3 bs (hU bs h), ?_,
    fun b hb => BufferInRange_iff cfg env b hb,
    fun bs h => ⟨(h1 bs h).1, (h1 bs h).2.1⟩, fun bs h => ⟨(h3 bs h).1, (h3 bs h).2.1⟩⟩
  · intro ε hε
    obtain ⟨K, hK⟩ := h2 ε hε
    exact ⟨K, fun bs h => hK bs (hA bs h)⟩
  · intro ε hε
    obtain ⟨K, hK⟩ := h4 ε hε
    exact ⟨K, fun bs h => hK bs (hU bs h)⟩

/-- Witness of C19: with the smoothing factor one half, a fresh driver (value
`1`) whose buffer holds `6` packets against the desired `3` at two successive
calls produces `(1/2) ^ 1 * 2 - 1` and `(1/2) ^ 2 * 2 - 1`, that is `0` and
`-1/2`. -/
theorem TimeDilation_equilibrium_witness :
    PostPhysicsRun halfSettings pairAuthEnv [(6, 0), (6, 0)]
      (FModelAuthDriver.fresh () (6, 0) : FModelAuthDriver Nat Nat Unit (Nat × Nat)) =
      (List.range 2).map (fun k => (1 - (1 / 2 : ℚ)) ^ (k + 1) * (1 + 1) - 1) :=
  ((TimeDilation_equilibrium halfSettings pairAuthEnv
    (FModelAuthDriver.fresh () (6, 0) : FModelAuthDriver Nat Nat Unit (Nat × Nat))
    (by norm_num [halfSettings]) (by norm_num [halfSettings])
    (by norm_num [FModelAuthDriver.fresh]) (by norm_num [FModelAuthDriver.fresh])).1
    [(6, 0), (6, 0)]
    (fun b hb => by
      simp only [List.mem_cons, List.mem_singleton, List.not_mem_nil, or_false, or_self] at hb
      subst hb
      unfold BufferInRange BufferOverDesired
      decide)).1

/-- C19, evaluated where the code departs from it. With the desired size `3`
and no dropped packet, a buffer of `65538` packets is above the desired size at
two successive calls; the `uint16` local holds `2`, which is below `3`, and the
suggested time dilation, `0` before, rises to `1/2` and to `3/4`, towards `+1`,
instead of falling towards `-1`. -/
theorem TimeDilation_equilibrium_counterexample :
    BufferOverDesired halfSettings pairAuthEnv ((65538, 0) : Nat × Nat) ∧
    castUInt16 (pairAuthEnv.GetBufferSize ((65538, 0) : Nat × Nat)) = 2 ∧
    levelDriver.LastSuggestedTimeDilation = 0 ∧
    PostPhysicsRun halfSettings pairAuthEnv [(65538, 0), (65538, 0)] levelDriver =
      [1 / 2, 3 / 4] := by
  refine ⟨by unfold BufferOverDesired; decide, by decide, rfl, ?_⟩
  rw [PostPhysicsRun_under halfSettings pairAuthEnv [(65538, 0), (65538, 0)] levelDriver
    (fun b hb => by
      simp only [List.mem_cons, List.mem_singleton, List.not_mem_nil, or_false, or_self] at hb
      subst hb
      unfold BufferUnder
      decide)]
  norm_num [List.range_succ, halfSettings, levelDriver]

/-! ## The authority side of the model -/

set_option maxRecDepth 100000

/-- C15, evaluated where the code departs from it. A fresh authority model has
no packet in use; with exactly `kAuthorityTargetInputBufferSize = 25` packets
in its buffer, the size equal to the target, `PreTickAuthority` consumes no
packet: the buffer is left as it was, no packet is in use afterwards and the
only call is `Simulate`. With `26` packets it consumes one. -/
theorem PreTickAuthority_at_target :
    (filledModel 25).CurrentInputPacketIdx = kInvalidFrame ∧
    counterModelEnv.AuthorityBuffer.AuthorityBufferSize (filledModel 25).InputBuffer = 25 ∧
    counterModelEnv.AuthorityBuffer.GetAuthorityTargetBufferSize
      (filledModel 25).InputBuffer = 25 ∧
    ¬ consumesInputAuthority counterModelEnv (filledModel 25) ∧
    (∃ m, PreTickAuthority counterModelEnv (filledModel 25) = Except.ok m ∧
      m.InputBuffer = (filledModel 25).InputBuffer ∧
      m.CurrentInputPacketIdx = kInvalidFrame ∧
      m.Calls = [ModelCall.Simulate 0 0]) ∧
    ∃ m, PreTickAuthority counterModelEnv (filledModel 26) = Except.ok m ∧
      counterModelEnv.AuthorityBuffer.AuthorityBufferSize m.InputBuffer = 25 ∧
      m.CurrentInputPacketIdx = 0 ∧
      m.Calls = [ModelCall.ConsumeInputAuthority, ModelCall.Simulate 0 1] :=
  ⟨rfl, rfl, rfl, fun h => h.elim (fun h1 => h1 rfl) (fun h2 => absurd h2 (by decide)),
    ⟨_, rfl, rfl, rfl, rfl⟩, ⟨_, rfl, rfl, rfl, rfl⟩⟩

/-- C16, evaluated where the code departs from it. In the first five authority
ticks of a fresh model `EmitAuthorityState` is called four times, for the
frames `0` to `3`, and not for frame `4`; in the first ten ticks it is called
eight times, for every frame but `4` and `9`. -/
theorem PostTickAuthority_cadence :
    (∃ m, AuthorityTicks counterModelEnv 5 (filledModel 0) = Except.ok m ∧
      m.NextLocalFrame = 5 ∧
      (m.Calls.filter ModelCall.isEmitAuthorityState).length = 4 ∧
      m.Calls.filter ModelCall.isEmitAuthorityState =
        [ModelCall.EmitAuthorityState { FrameNumber := 0, InputPacketNumber := kInvalidFrame, State := 0 },
          ModelCall.EmitAuthorityState { FrameNumber := 1, InputPacketNumber := kInvalidFrame, State := 0 },
          ModelCall.EmitAuthorityState { FrameNumber := 2, InputPacketNumber := kInvalidFrame, State := 0 },
          ModelCall.EmitAuthorityState { FrameNumber := 3, InputPacketNumber := kInvalidFrame, State := 0 }]) ∧
    ∃ m, AuthorityTicks counterModelEnv 10 (filledModel 0) = Except.ok m ∧
      m.NextLocalFrame = 10 ∧
      (m.Calls.filter ModelCall.isEmitAuthorityState).map
        (fun c => match c with
          | ModelCall.EmitAuthorityState State => State.FrameNumber
          | _ => 0) = [0, 1, 2, 3, 5, 6, 7, 8] :=
  ⟨⟨_, rfl, rfl, by decide, by decide⟩, ⟨_, rfl, rfl, by decide⟩⟩

/-! ## Output generation and reception -/

/-- C21 (`GenerateOutput` is a pure read). For every driver state and every
`Alpha`, `GenerateOutput` returns the interpolation of `LastState` towards
`CurrentState.State` by `Alpha` and leaves the driver, with every field of
it, unchanged; and after the simulated part of a tick `LastState` is the body
the driver had before that tick, so the output interpolates from the state
before the most recent tick to the state after it. -/
theorem GenerateOutput_pure {A : Type} (Interpolate : S → A → S → S) (env : Env I S B)
    (s : Driver I S B) (Alpha : A) (f : Bool) :
    (GenerateOutput Interpolate s Alpha).1 =
      Interpolate s.LastState Alpha s.CurrentState.State ∧
    (GenerateOutput Interpolate s Alpha).2 = s ∧
    (GenerateOutput Interpolate (TickBody env s f) Alpha).1 =
      Interpolate s.CurrentState.State Alpha (TickBody env s f).CurrentState.State :=
  ⟨rfl, rfl, by simp [GenerateOutput]⟩

/-- C23 (the authority state is overwritten, never queued). For every driver
state and every received snapshot, whatever its frame number and that of the
snapshot stored before, `ReceiveAuthorityState` stores it as
`LastAuthorityState` and changes no other field; a second reception replaces
the first; `ReceiveInputPackets` on the predicting driver changes nothing;
and `BaseClientPredictionModel::ReceiveAuthorityState` does the same on the
model. -/
theorem ReceiveAuthorityState_overwrites (s : Driver I S B) (State Other : FModelStateWrapper S)
    (Packets : List (FInputPacketWrapper I)) (m : BaseClientPredictionModel I S B) :
    ReceiveAuthorityState s State =
      { AckedFrame := s.AckedFrame, NextFrame := s.NextFrame,
        NextInputPacket := s.NextInputPacket, History := s.History,
        CurrentInputPacket := s.CurrentInputPacket, LastAuthorityState := State,
        CurrentState := s.CurrentState, LastState := s.LastState,
        SlidingInputWindow := s.SlidingInputWindow, InputBuffer := s.InputBuffer,
        Calls := s.Calls } ∧
    ReceiveAuthorityState (ReceiveAuthorityState s Other) State = ReceiveAuthorityState s State ∧
    ReceiveInputPackets s Packets = s ∧
    (m.ReceiveAuthorityState State).LastAuthorityState = State ∧
    (m.ReceiveAuthorityState State) =
      { m with LastAuthorityState := State } ∧
    (m.ReceiveAuthorityState Other).ReceiveAuthorityState State = m.ReceiveAuthorityState State :=
  ⟨rfl, rfl, rfl, rfl, rfl, rfl⟩

/-! ## The sending of the state by the authority driver -/

/-- C30 (fan-out and de-duplication of the state). `SendCurrentStateToRemotes`
dispatches if and only if the tick number of the latest state is not
`INDEX_NONE` and differs from `LastEmittedState`. When it dispatches, the same
snapshot goes once to the auto proxy and once to the simulated proxies, and
`LastEmittedState` becomes its tick number; otherwise the driver is unchanged.
Hence a second call with the same latest state dispatches nothing more. -/
theorem SendCurrentStateToRemotes_dedup {I St Sim Buf : Type}
    (d : FModelAuthDriver I St Sim Buf) :
    ((SendCurrentStateToRemotes d).Calls ≠ d.Calls ↔
      (d.LastStateGt.TickNumber ≠ INDEX_NONE ∧
        d.LastStateGt.TickNumber ≠ d.LastEmittedState)) ∧
    ((d.LastStateGt.TickNumber ≠ INDEX_NONE ∧
        d.LastStateGt.TickNumber ≠ d.LastEmittedState) →
      SendCurrentStateToRemotes d =
        { d with
          LastEmittedState := d.LastStateGt.TickNumber
          Calls := d.Calls ++ [AuthCall.AutoProxyDispatch d.LastStateGt,
            AuthCall.SimProxyDispatch d.LastStateGt] }) ∧
    (¬ (d.LastStateGt.TickNumber ≠ INDEX_NONE ∧
        d.LastStateGt.TickNumber ≠ d.LastEmittedState) →
      SendCurrentStateToRemotes d = d) ∧
    SendCurrentStateToRemotes (SendCurrentStateToRemotes d) = SendCurrentStateToRemotes d := by
  refine ⟨?_, ?_, ?_, ?_⟩
  · unfold SendCurrentStateToRemotes
    simp only []
    constructor
    · intro h
      by_contra hc
      rw [if_neg hc] at h
      exact h rfl
    · intro hc
      rw [if_pos hc]
      simp
  · intro hc
    unfold SendCurrentStateToRemotes
    simp only []
    rw [if_pos hc]
  · intro hc
    unfold SendCurrentStateToRemotes
    simp only []
    rw [if_neg hc]
  · by_cases hc : d.LastStateGt.TickNumber ≠ INDEX_NONE ∧
        d.LastStateGt.TickNumber ≠ d.LastEmittedState
    · have h1 : SendCurrentStateToRemotes d =
          { d with
            LastEmittedState := d.LastStateGt.TickNumber
            Calls := d.Calls ++ [AuthCall.AutoProxyDispatch d.LastStateGt,
              AuthCall.SimProxyDispatch d.LastStateGt] } := by
        unfold SendCurrentStateToRemotes
        simp only []
        rw [if_pos hc]
      rw [h1]
      unfold SendCurrentStateToRemotes
      simp only []
      rw [if_neg (by simp)]
    · have h1 : SendCurrentStateToRemotes d = d := by
        unfold SendCurrentStateToRemotes
        simp only []
        rw [if_neg hc]
      rw [h1, h1]

/-- Witness of C30: a driver whose latest state is the one of tick `4` and
which has emitted nothing dispatches that state to both channels and records
the tick `4`. -/
theorem SendCurrentStateToRemotes_dedup_witness :
    (SendCurrentStateToRemotes emittingDriver).Calls =
      [AuthCall.AutoProxyDispatch
          { TickNumber := 4, InputPacketNumber := 2, Body := 42, Events := 0 },
        AuthCall.SimProxyDispatch
          { TickNumber := 4, InputPacketNumber := 2, Body := 42, Events := 0 }] ∧
    (SendCurrentStateToRemotes emittingDriver).LastEmittedState = 4 := by
  have h := (SendCurrentStateToRemotes_dedup emittingDriver).2.1 (by decide)
  rw [h]
  exact ⟨rfl, rfl⟩

/-! ## The roles of the model -/

/-- C22 (a simulated proxy never simulates or emits input). For the role of a
simulated proxy, `PreTick` and `PostTick` of the model return the model as it
was, with no call added, so neither `Simulate`, `PostSimulate`,
`EmitInputPackets` nor `EmitAuthorityState` is called. `GameThreadTick` on a
simulated proxy rewinds the body to `LastAuthorityState` if the frame number
of that state is not the invalid sentinel and does nothing if it is; in both
cases no field of the model changes. For the authority and the autonomous
proxy `GameThreadTick` does nothing at all. -/
theorem SimulatedProxy_idle [BEq S] [Inhabited S] (env : ModelEnv I S B)
    (m : BaseClientPredictionModel I S B) (bIsForcedSimulation : Bool) :
    m.PreTick env bIsForcedSimulation ENetRole.ROLE_SimulatedProxy = Except.ok m ∧
    m.PostTick env bIsForcedSimulation ENetRole.ROLE_SimulatedProxy = Except.ok m ∧
    (m.LastAuthorityState.FrameNumber ≠ kInvalidFrame →
      m.GameThreadTick ENetRole.ROLE_SimulatedProxy =
        { m with Calls := m.Calls ++ [ModelCall.Rewind m.LastAuthorityState.State] }) ∧
    (m.LastAuthorityState.FrameNumber = kInvalidFrame →
      m.GameThreadTick ENetRole.ROLE_SimulatedProxy = m) ∧
    ((m.GameThreadTick ENetRole.ROLE_SimulatedProxy).Calls.filter
        ModelCall.isSimulationOrEmission = m.Calls.filter ModelCall.isSimulationOrEmission) ∧
    m.GameThreadTick ENetRole.ROLE_Authority = m ∧
    m.GameThreadTick ENetRole.ROLE_AutonomousProxy = m := by
  refine ⟨rfl, rfl, ?_, ?_, ?_, rfl, rfl⟩
  · intro h
    simp only [BaseClientPredictionModel.GameThreadTick]
    rw [if_pos h]
  · intro h
    simp only [BaseClientPredictionModel.GameThreadTick]
    rw [if_neg (by simpa using h)]
  · simp only [BaseClientPredictionModel.GameThreadTick]
    split
    · simp [ModelCall.isSimulationOrEmission]
    · rfl

/-- Witness of C22: a simulated proxy that received the authority state of
frame `3` with the body `42` rewinds the body to `42` in `GameThreadTick`. -/
theorem SimulatedProxy_idle_witness :
    (proxyModel.GameThreadTick ENetRole.ROLE_SimulatedProxy).Calls = [ModelCall.Rewind 42] ∧
    (proxyModel.GameThreadTick ENetRole.ROLE_SimulatedProxy).CurrentState =
      proxyModel.CurrentState := by
  have h := (SimulatedProxy_idle counterModelEnv proxyModel false).2.2.1 (by decide)
  rw [h]
  exact ⟨rfl, rfl⟩

/-- C29, as the code has it. On an authority tick where no packet is in use
and the buffer has not reached its target size, `PreTickAuthority` returns and
consumes nothing (the input buffer, the packet in use and its number are
unchanged), but it still calls `Simulate` with the previous body and the
current input packet and replaces `CurrentState` by a new state holding the
simulated body; the following `PostTickAuthority` assigns the next frame
number to that state and increments `NextLocalFrame`. -/
theorem PreTickAuthority_hold_simulates [Inhabited S] (env : ModelEnv I S B)
    (m : BaseClientPredictionModel I S B)
    (hIdle : m.CurrentInputPacketIdx = kInvalidFrame)
    (hBelow : env.AuthorityBuffer.AuthorityBufferSize m.InputBuffer <
      env.AuthorityBuffer.GetAuthorityTargetBufferSize m.InputBuffer) :
    ∃ m1, PreTickAuthority env m = Except.ok m1 ∧
      m1.InputBuffer = m.InputBuffer ∧
      m1.CurrentInputPacket = m.CurrentInputPacket ∧
      m1.CurrentInputPacketIdx = m.CurrentInputPacketIdx ∧
      m1.Calls = m.Calls ++ [ModelCall.Simulate m.CurrentState.State m.CurrentInputPacket.Packet] ∧
      m1.CurrentState =
        { FModelStateWrapper.Default S with
          State := env.Simulate m.CurrentState.State m.CurrentInputPacket.Packet } ∧
      (PostTickAuthority env m1).CurrentState.FrameNumber = m.NextLocalFrame ∧
      (PostTickAuthority env m1).NextLocalFrame = wrap32 (m.NextLocalFrame + 1) := by
  have hHold : ¬ (m.CurrentInputPacketIdx ≠ kInvalidFrame ∨
      env.AuthorityBuffer.AuthorityBufferSize m.InputBuffer >
        env.AuthorityBuffer.GetAuthorityTargetBufferSize m.InputBuffer) := by
    rintro (h | h)
    · exact h hIdle
    · omega
  have hT : PreTickAuthority env m = Except.ok
      { m with
        CurrentState :=
          { FModelStateWrapper.Default S with
            State := env.Simulate m.CurrentState.State m.CurrentInputPacket.Packet }
        Calls := m.Calls ++
          [ModelCall.Simulate m.CurrentState.State m.CurrentInputPacket.Packet] } := by
    unfold PreTickAuthority
    simp only []
    rw [if_neg hHold]
  exact ⟨_, hT, rfl, rfl, rfl, rfl, rfl, rfl, rfl⟩

/-- Witness of C29 as amended: an authority whose buffer holds five packets,
fewer than the target of `25`, simulates and numbers its first tick. -/
theorem PreTickAuthority_hold_simulates_witness :
    ∃ m1, PreTickAuthority counterModelEnv (filledModel 5) = Except.ok m1 ∧
      m1.Calls = [ModelCall.Simulate 0 0] ∧
      (PostTickAuthority counterModelEnv m1).NextLocalFrame = 1 := by
  obtain ⟨m1, h1, _, _, _, hc, _, _, hn⟩ :=
    PreTickAuthority_hold_simulates counterModelEnv (filledModel 5) rfl (by decide)
  exact ⟨m1, h1, by rw [hc]; rfl, by rw [hn]; rfl⟩

/-- C29, evaluated where the code departs from it. An authority whose buffer
holds five packets, fewer than the target of `25`, and which has no packet in
use, calls `Simulate` in `PreTickAuthority`; `PostTickAuthority` then assigns
the frame number `0` and moves `NextLocalFrame` from `0` to `1`; and the
`PreTickAuthority` of the next tick, still on hold, replaces `CurrentState`. -/
theorem Authority_hold_counterexample :
    ¬ consumesInputAuthority counterModelEnv (filledModel 5) ∧
    (filledModel 5).CurrentInputPacketIdx = kInvalidFrame ∧
    counterModelEnv.AuthorityBuffer.AuthorityBufferSize (filledModel 5).InputBuffer = 5 ∧
    counterModelEnv.AuthorityBuffer.GetAuthorityTargetBufferSize (filledModel 5).InputBuffer = 25 ∧
    (filledModel 5).NextLocalFrame = 0 ∧
    ∃ m1, PreTickAuthority counterModelEnv (filledModel 5) = Except.ok m1 ∧
      m1.Calls = [ModelCall.Simulate 0 0] ∧
      (PostTickAuthority counterModelEnv m1).NextLocalFrame = 1 ∧
      (PostTickAuthority counterModelEnv m1).CurrentState.FrameNumber = 0 ∧
      ¬ consumesInputAuthority counterModelEnv (PostTickAuthority counterModelEnv m1) ∧
      ∃ m3, PreTickAuthority counterModelEnv (PostTickAuthority counterModelEnv m1) =
          Except.ok m3 ∧
        m3.CurrentState ≠ (PostTickAuthority counterModelEnv m1).CurrentState :=
  ⟨by unfold consumesInputAuthority; decide, rfl, rfl, rfl, rfl, _, rfl, rfl, rfl, rfl,
    by unfold consumesInputAuthority; decide, _, rfl, by decide⟩

/-! ## The events of a tick -/

/-- The test of a bit with a shifted one is the test of that bit. -/
theorem and_shiftLeft_ne_zero (a e : Nat) : a &&& (1 <<< e) ≠ 0 ↔ a.testBit e = true := by
  rw [Nat.one_shiftLeft]
  constructor
  · intro h
    obtain ⟨i, hi⟩ := Nat.ne_zero_implies_bit_true h
    rw [Nat.testBit_and, Nat.testBit_two_pow] at hi
    simp only [Bool.and_eq_true, decide_eq_true_eq] at hi
    rw [hi.2]
    exact hi.1
  · intro h hz
    have h2 : (a &&& 2 ^ e).testBit e = true := by
      rw [Nat.testBit_and, Nat.testBit_two_pow, h]
      simp
    rw [hz, Nat.zero_testBit] at h2
    cases h2

theorem DispatchEvents_testBit {St : Type} (State : FPhysicsState St) :
    DispatchEvents State = (List.range 8).filter (fun Event => State.Events.testBit Event) := by
  unfold DispatchEvents
  apply List.filter_congr
  intro e _
  by_cases h : State.Events.testBit e = true
  · simp [h, (and_shiftLeft_ne_zero State.Events e).2 h]
  · have h2 : ¬ (State.Events &&& (1 <<< e) ≠ 0) := fun hc =>
      h ((and_shiftLeft_ne_zero State.Events e).1 hc)
    simp only [Bool.not_eq_true] at h
    simp [h, h2]

theorem DispatchEvent_testBit {St : Type} (PhysState : FPhysicsState St) (Event : Nat)
    (hEvent : Event < 8) :
    ∃ Out, FSimOutput.DispatchEvent PhysState Event = some Out ∧
      Out.Body = PhysState.Body ∧ Out.TickNumber = PhysState.TickNumber ∧
      Out.InputPacketNumber = PhysState.InputPacketNumber ∧
      ∀ i, Out.Events.testBit i =
        (decide (i < 8) && (PhysState.Events.testBit i || decide (Event = i))) := by
  refine ⟨{ PhysState with Events := (PhysState.Events ||| (1 <<< Event)) % 256 }, ?_, rfl, rfl,
    rfl, ?_⟩
  · unfold FSimOutput.DispatchEvent
    rw [if_pos hEvent]
  · intro i
    show ((PhysState.Events ||| (1 <<< Event)) % 2 ^ 8).testBit i = _
    rw [Nat.testBit_mod_two_pow, Nat.testBit_or, Nat.one_shiftLeft, Nat.testBit_two_pow]

theorem DispatchEventList_testBit {St : Type} :
    ∀ (Events : List Nat) (PhysState : FPhysicsState St), (∀ e ∈ Events, e < 8) →
      ∃ Out, FSimOutput.DispatchEventList PhysState Events = some Out ∧
        Out.Body = PhysState.Body ∧
        ∀ i, i < 8 → Out.Events.testBit i = (PhysState.Events.testBit i || decide (i ∈ Events))
  | [], PhysState, _ => ⟨PhysState, rfl, rfl, by simp⟩
  | Event :: rest, PhysState, h => by
    obtain ⟨Out1, h1, hb1, _, _, ht1⟩ :=
      DispatchEvent_testBit PhysState Event (h Event (List.mem_cons_self _ _))
    obtain ⟨Out, h2, hb2, ht2⟩ :=
      DispatchEventList_testBit rest Out1 (fun e he => h e (List.mem_cons_of_mem _ he))
    refine ⟨Out, ?_, hb2.trans hb1, ?_⟩
    · simp only [FSimOutput.DispatchEventList, h1, h2]
    · intro i hi
      rw [ht2 i hi, ht1 i]
      by_cases hE : Event = i
      · subst hE
        simp [hi]
      · have hE2 : ¬ i = Event := fun hc => hE hc.symm
        simp [hi, hE, hE2]

/-- C24 (round trip of the event mask). For every finite sequence of events
between `0` and `7` raised through `FSimOutput::DispatchEvent` on a state whose
mask is `0`, every call returns, and `FPhysicsModel::DispatchEvents` on the
resulting state executes the delegate for the events `0` to `7` that were
raised, in ascending order, once for each distinct event and for no event that
was not raised; the body of the state is not touched. On every state, raising
an event a second time changes nothing more, raising it sets its bit, and the
bits of the other events are unchanged. -/
theorem Events_round_trip {St : Type} (PhysState : FPhysicsState St) (Events : List Nat)
    (hMask : PhysState.Events = 0) (hEvents : ∀ e ∈ Events, e < 8) :
    (∃ Out, FSimOutput.DispatchEventList PhysState Events = some Out ∧
      DispatchEvents Out = (List.range 8).filter (fun e => decide (e ∈ Events)) ∧
      (DispatchEvents Out).Pairwise (fun a b => a < b) ∧
      (DispatchEvents Out).Nodup ∧
      (∀ e, e ∈ DispatchEvents Out ↔ e ∈ Events) ∧
      Out.Body = PhysState.Body) ∧
    (∀ (Q : FPhysicsState St) (Event : Nat), Event < 8 →
      ∃ Q1, FSimOutput.DispatchEvent Q Event = some Q1 ∧
        FSimOutput.DispatchEvent Q1 Event = some Q1 ∧
        Q1.Events.testBit Event = true ∧
        (∀ i, i < 8 → i ≠ Event → Q1.Events.testBit i = Q.Events.testBit i) ∧
        (∀ i, i < 8 → i ≠ Event → (i ∈ DispatchEvents Q1 ↔ i ∈ DispatchEvents Q))) := by
  constructor
  · obtain ⟨Out, h1, hb, ht⟩ := DispatchEventList_testBit Events PhysState hEvents
    have hD : DispatchEvents Out = (List.range 8).filter (fun e => decide (e ∈ Events)) := by
      rw [DispatchEvents_testBit]
      apply List.filter_congr
      intro i hi
      rw [ht i (List.mem_range.1 hi), hMask, Nat.zero_testBit, Bool.false_or]
    have hP : (DispatchEvents Out).Pairwise (fun a b => a < b) := by
      rw [hD]
      exact List.Pairwise.filter _ (List.pairwise_lt_range 8)
    refine ⟨Out, h1, hD, hP, ?_, ?_, hb⟩
    · exact hP.imp (fun h => Nat.ne_of_lt h)
    · intro e
      rw [hD, List.mem_filter, List.mem_range]
      simp only [decide_eq_true_eq]
      exact ⟨fun h => h.2, fun h => ⟨hEvents e h, h⟩⟩
  · intro Q Event hEvent
    obtain ⟨Q1, h1, hb1, hk1, hp1, ht1⟩ := DispatchEvent_testBit Q Event hEvent
    obtain ⟨Q2, h2, hb2, hk2, hp2, ht2⟩ := DispatchEvent_testBit Q1 Event hEvent
    have hEq : Q2 = Q1 := by
      have he : Q2.Events = Q1.Events := by
        apply Nat.eq_of_testBit_eq
        intro i
        rw [ht2 i, ht1 i]
        by_cases hi : i < 8 <;> by_cases hE : Event = i <;> simp [hi, hE]
      cases Q1
      cases Q2
      simp only [FPhysicsState.mk.injEq]
      exact ⟨hk2, hp2, hb2, he⟩
    have hbit : ∀ i, i < 8 → i ≠ Event → Q1.Events.testBit i = Q.Events.testBit i := by
      intro i hi hne
      have hE : ¬ Event = i := fun hc => hne hc.symm
      rw [ht1 i]
      simp [hi, hE]
    refine ⟨Q1, h1, by rw [h2, hEq], ?_, hbit, ?_⟩
    · rw [ht1 Event]
      simp [hEvent]
    · intro i hi hne
      rw [DispatchEvents_testBit, DispatchEvents_testBit, List.mem_filter, List.mem_filter,
        hbit i hi hne]

/-- Witness of C24: the events `5`, `2`, `5` raised on an empty mask are
dispatched as `2`, `5`. -/
theorem Events_round_trip_witness :
    ∃ Out, FSimOutput.DispatchEventList
        ({ TickNumber := 0, InputPacketNumber := 0, Body := 0, Events := 0 } : FPhysicsState Nat)
        [5, 2, 5] = some Out ∧
      DispatchEvents Out = [2, 5] := by
  obtain ⟨Out, h1, h2, _⟩ := (Events_round_trip
    ({ TickNumber := 0, InputPacketNumber := 0, Body := 0, Events := 0 } : FPhysicsState Nat)
    [5, 2, 5] rfl (by decide)).1
  exact ⟨Out, h1, by rw [h2]; decide⟩

/-! ## Serialisation -/

/-- C26 (round trip and order of the serialisation). Over serialisation
functions of the engine for `uint32` and of the user for the body and the
payload that read back what they wrote, `FModelStateWrapper::NetSerialize`
writes the frame number, the input packet number and the body, in that order,
and reading what it wrote, whatever follows in the archive, gives a wrapper
equal to the written one in all three fields and leaves what follows; and
`FInputPacketWrapper::NetSerialize` does the same with the packet number and
the payload. -/
theorem NetSerialize_round_trip {Tok : Type} (UInt32 : NetSerializer Tok Nat)
    (Body : NetSerializer Tok S) (Payload : NetSerializer Tok I)
    (hUInt32 : UInt32.RoundTrips (fun n => n < 4294967296))
    (hBody : Body.RoundTrips (fun _ => True)) (hPayload : Payload.RoundTrips (fun _ => True))
    (w : FModelStateWrapper S) (p : FInputPacketWrapper I) (rest : List Tok)
    (hFrame : w.FrameNumber < 4294967296) (hInput : w.InputPacketNumber < 4294967296)
    (hPacket : p.PacketNumber < 4294967296) :
    FModelStateWrapper.NetSerializeLoad UInt32 Body
        (FModelStateWrapper.NetSerializeSave UInt32 Body w ++ rest) = some (w, rest) ∧
    FModelStateWrapper.NetSerializeSave UInt32 Body w =
      UInt32.Save w.FrameNumber ++ (UInt32.Save w.InputPacketNumber ++ Body.Save w.State) ∧
    FInputPacketWrapper.NetSerializeLoad UInt32 Payload
        (FInputPacketWrapper.NetSerializeSave UInt32 Payload p ++ rest) = some (p, rest) ∧
    FInputPacketWrapper.NetSerializeSave UInt32 Payload p =
      UInt32.Save p.PacketNumber ++ Payload.Save p.Packet := by
  refine ⟨?_, rfl, ?_, rfl⟩
  · unfold FModelStateWrapper.NetSerializeLoad FModelStateWrapper.NetSerializeSave
    rw [List.append_assoc, hUInt32 _ _ hFrame]
    simp only []
    rw [List.append_assoc, hUInt32 _ _ hInput]
    simp only []
    rw [hBody _ _ trivial]
  · unfold FInputPacketWrapper.NetSerializeLoad FInputPacketWrapper.NetSerializeSave
    rw [List.append_assoc, hUInt32 _ _ hPacket]
    simp only []
    rw [hPayload _ _ trivial]

/-- Witness of C26: with one item of the archive for each number, the wrapper
of frame `3`, input packet `2` and body `42` is written as `3, 2, 42` and read
back, and the item `9` that follows is left. -/
theorem NetSerialize_round_trip_witness :
    FModelStateWrapper.NetSerializeLoad itemSerializer itemSerializer
        (FModelStateWrapper.NetSerializeSave itemSerializer itemSerializer
          { FrameNumber := 3, InputPacketNumber := 2, State := 42 } ++ [9]) =
      some ({ FrameNumber := 3, InputPacketNumber := 2, State := 42 }, [9]) ∧
    FModelStateWrapper.NetSerializeSave itemSerializer itemSerializer
        { FrameNumber := 3, InputPacketNumber := 2, State := 42 } = [3, 2, 42] := by
  have h := NetSerialize_round_trip itemSerializer itemSerializer itemSerializer
    (fun _ _ _ => rfl) (fun _ _ _ => rfl) (fun _ _ _ => rfl)
    { FrameNumber := 3, InputPacketNumber := 2, State := 42 }
    { PacketNumber := 0, Packet := 0 } [9] (by decide) (by decide) (by decide)
  exact ⟨h.1, rfl⟩

/-! ## The roles of the physics model -/

/-- C25, evaluated where the code departs from it. An initialised physics
model becomes the authority: `ModelDriver` holds the first driver constructed,
an authority driver with an empty input buffer, which then receives the packet
`7`. After `SetNetRole` with the role of a simulated proxy no driver has been
constructed, only the tick callback of the first driver has been removed, and
`ModelDriver` still holds the first driver with the packet in its buffer; a
later `ReceiveInputPackets` with the packet `8` is handed to that driver.
With the role of the authority or of the autonomous proxy instead, a second
driver is constructed and replaces the first one. -/
theorem SetNetRole_keeps_previous_driver :
    ∃ m1 m3 m4 m5 : FPhysicsModel Nat Nat Unit (List (FInputPacket Nat)) Unit,
      (FPhysicsModel.Initialized Nat Nat Unit (List (FInputPacket Nat)) Unit).SetNetRole
        listPhysicsModelEnv ENetRole.ROLE_Authority = some m1 ∧
      m1.authorityInputBuf = some (0, []) ∧
      (m1.ReceiveInputPackets listPhysicsModelEnv [{ PacketNumber := 0, Body := 7 }]).SetNetRole
        listPhysicsModelEnv ENetRole.ROLE_SimulatedProxy = some m3 ∧
      m3.Constructed = 1 ∧
      m3.Calls = [WorldManagerCall.AddTickCallback 0, WorldManagerCall.RemoveTickCallback 0] ∧
      m3.authorityInputBuf = some (0, [{ PacketNumber := 0, Body := 7 }]) ∧
      (m3.ReceiveInputPackets listPhysicsModelEnv
          [{ PacketNumber := 1, Body := 8 }]).authorityInputBuf =
        some (0, [{ PacketNumber := 0, Body := 7 }, { PacketNumber := 1, Body := 8 }]) ∧
      (m1.ReceiveInputPackets listPhysicsModelEnv [{ PacketNumber := 0, Body := 7 }]).SetNetRole
        listPhysicsModelEnv ENetRole.ROLE_Authority = some m4 ∧
      m4.authorityInputBuf = some (1, []) ∧
      (m1.ReceiveInputPackets listPhysicsModelEnv [{ PacketNumber := 0, Body := 7 }]).SetNetRole
        listPhysicsModelEnv ENetRole.ROLE_AutonomousProxy = some m5 ∧
      m5.authorityInputBuf = none ∧ m5.Constructed = 2 :=
  ⟨_, _, _, _, rfl, rfl, rfl, rfl, rfl, rfl, rfl, rfl, rfl, rfl, rfl, rfl⟩

/-! ## The counters near their wrap -/

/-- C27, as the code has it. The counters are plain `uint32` counters. The
snapshot of a tick carries the value of `NextFrame` and a produced packet the
value of `NextInputPacket`, whatever that value is; while the counter is not
the invalid sentinel `2 ^ 32 - 1` the counter then holds the next larger
number, and when it is the sentinel the snapshot or the packet carries the
sentinel and the counter wraps to `0`. `Rewind_Internal` to a state with a
valid frame number sets `NextFrame` to that number plus one, without a wrap.
`PostTickAuthority` numbers its states with `NextLocalFrame` in the same way.
All counters stay below `2 ^ 32`. -/
theorem Counters_wrap {B2 : Type} (env : Env I S B) (s : Driver I S B) (f : Bool)
    (State : FModelStateWrapper S) (menv : ModelEnv I S B2) (m : BaseClientPredictionModel I S B2)
    (hFrame : s.NextFrame < 4294967296) (hPacket : s.NextInputPacket < 4294967296)
    (hState : State.FrameNumber < 4294967296) (hLocal : m.NextLocalFrame < 4294967296) :
    ((TickBody env s f).CurrentState.FrameNumber = s.NextFrame ∧
      (s.NextFrame ≠ kInvalidFrame → (TickBody env s f).NextFrame = s.NextFrame + 1) ∧
      (s.NextFrame = kInvalidFrame → (TickBody env s f).NextFrame = 0) ∧
      (TickBody env s f).NextFrame < 4294967296) ∧
    ((f = false ∨ env.InputBuffer.RemoteBufferSize s.InputBuffer = 0) →
      (TickBody env s f).SlidingInputWindow.head?.map (fun p => p.PacketNumber) =
        some s.NextInputPacket ∧
      (s.NextInputPacket ≠ kInvalidFrame →
        (TickBody env s f).NextInputPacket = s.NextInputPacket + 1) ∧
      (s.NextInputPacket = kInvalidFrame → (TickBody env s f).NextInputPacket = 0) ∧
      (TickBody env s f).NextInputPacket < 4294967296) ∧
    ((State.FrameNumber ≠ kInvalidFrame →
        (Rewind_Internal env s State).NextFrame = State.FrameNumber + 1) ∧
      (Rewind_Internal env s State).NextFrame < 4294967296) ∧
    ((PostTickAuthority menv m).CurrentState.FrameNumber = m.NextLocalFrame ∧
      (m.NextLocalFrame ≠ kInvalidFrame →
        (PostTickAuthority menv m).NextLocalFrame = m.NextLocalFrame + 1) ∧
      (m.NextLocalFrame = kInvalidFrame → (PostTickAuthority menv m).NextLocalFrame = 0) ∧
      (PostTickAuthority menv m).NextLocalFrame < 4294967296) := by
  have hw : ∀ n, n < 4294967296 → (n ≠ kInvalidFrame → wrap32 (n + 1) = n + 1) ∧
      (n = kInvalidFrame → wrap32 (n + 1) = 0) ∧ wrap32 (n + 1) < 4294967296 := by
    intro n hn
    unfold kInvalidFrame wrap32
    refine ⟨fun h => ?_, fun h => ?_, ?_⟩ <;> omega
  refine ⟨⟨TickBody_CurrentState_FrameNumber env s f, ?_, ?_, ?_⟩, ?_, ⟨?_, ?_⟩, ⟨rfl, ?_, ?_, ?_⟩⟩
  · intro h
    rw [TickBody_NextFrame]
    exact (hw _ hFrame).1 h
  · intro h
    rw [TickBody_NextFrame]
    exact (hw _ hFrame).2.1 h
  · rw [TickBody_NextFrame]
    exact (hw _ hFrame).2.2
  · intro hp
    have hN : (TickBody env s f).NextInputPacket = wrap32 (s.NextInputPacket + 1) := by
      simp only [TickBody, PreTick]
      rw [if_pos hp]
    refine ⟨?_, ?_, ?_, ?_⟩
    · simp only [TickBody, PreTick]
      rw [if_pos hp]
      rfl
    · intro h
      rw [hN]
      exact (hw _ hPacket).1 h
    · intro h
      rw [hN]
      exact (hw _ hPacket).2.1 h
    · rw [hN]
      exact (hw _ hPacket).2.2
  · intro h
    exact (hw _ hState).1 h
  · exact (hw _ hState).2.2
  · intro h
    exact (hw _ hLocal).1 h
  · intro h
    exact (hw _ hLocal).2.1 h
  · exact (hw _ hLocal).2.2

/-- Witness of C27 as amended: the first tick of a fresh driver numbers its
snapshot and its packet `0` and moves both counters to `1`. -/
theorem Counters_wrap_witness :
    (TickBody counterEnv (Driver.fresh counterEnv) false).CurrentState.FrameNumber = 0 ∧
    (TickBody counterEnv (Driver.fresh counterEnv) false).NextFrame = 0 + 1 ∧
    (TickBody counterEnv (Driver.fresh counterEnv) false).NextInputPacket = 0 + 1 := by
  have h := Counters_wrap counterEnv (Driver.fresh counterEnv) false
    { FrameNumber := 3, InputPacketNumber := 0, State := 42 } counterModelEnv (filledModel 5)
    (by decide) (by decide) (by decide) (by decide)
  exact ⟨h.1.1, h.1.2.1 (by decide), (h.2.1 (Or.inl rfl)).2.1 (by decide)⟩

/-- C27, evaluated where the code departs from it. A fresh driver receives an
authority state whose frame number, `4294967291`, is valid, and ticks once: it
jumps to that frame and resimulates five frames. The fourth of the five
snapshots carries the frame number `4294967295`, the invalid sentinel, the
fifth carries `0`, smaller than the numbers assigned before it, and
`NextFrame` ends at `1`. -/
theorem Counters_wrap_counterexample :
    Runs counterEnv wrapStart ∧
    wrapStart.LastAuthorityState.FrameNumber ≠ kInvalidFrame ∧
    Tick counterEnv wrapStart false = Except.ok wrapEnd ∧
    wrapEnd.History.map (fun h => h.FrameNumber) =
      [4294967292, 4294967293, 4294967294, kInvalidFrame, 0] ∧
    wrapEnd.NextFrame = 1 :=
  ⟨Runs.receive _ Runs.fresh, by decide, rfl, by decide, by decide⟩

/-! ## The scenario of a client behind the authority -/

/-- C28, as the code has it. In a real tick with a lawful input buffer, if the
tick about to be simulated is `140`, the frame number of `LastAuthorityState`
is `150`, that state passes the guards, and the input buffer holds at most
`kClientForwardPredictionFrames` packets after the rewind, then the driver
snaps to the authority state and forces exactly five ticks, the value of
`kClientForwardPredictionFrames` in the header of the driver: the tick returns
with `AckedFrame = 150`, the five snapshots `151` to `155` in the history and
`NextFrame = 156`. -/
theorem Scenario_ahead [BEq S] [Inhabited S] (env : Env I S B) (hbuf : env.InputBuffer.Lawful)
    (s : Driver I S B)
    (hLocal : s.NextFrame = 140)
    (hAuthority : s.LastAuthorityState.FrameNumber = 150)
    (hInputValid : s.LastAuthorityState.InputPacketNumber ≠ kInvalidFrame)
    (hNotAcked : s.AckedFrame = kInvalidFrame ∨ s.AckedFrame < 150)
    (hSize : env.InputBuffer.RemoteBufferSize
        (env.InputBuffer.Rewind (TickBody env s false).InputBuffer
          s.LastAuthorityState.InputPacketNumber) ≤ kClientForwardPredictionFrames) :
    kClientForwardPredictionFrames = 5 ∧
    resimulatedTicks env s = 5 ∧
    ∃ s', Tick env s false = Except.ok s' ∧
      s'.AckedFrame = 150 ∧
      s'.NextFrame = 156 ∧
      s'.History.map (fun h => h.FrameNumber) = [151, 152, 153, 154, 155] ∧
      ∃ cs, s'.Calls = s.Calls ++ tickBodyCalls env s false ++
          [Call.InputBufferRewind s.LastAuthorityState.InputPacketNumber,
            Call.Rewind s.LastAuthorityState.State, Call.ForceSimulate 5] ++ cs ∧
        cs.filter Call.isReconcile = [] ∧ cs.countP Call.isSimulate = 5 := by
  have hn : resimulatedTicks env s = 5 := by
    unfold resimulatedTicks
    unfold kClientForwardPredictionFrames at hSize ⊢
    omega
  have hna : ¬ (s.LastAuthorityState.FrameNumber ≤ s.AckedFrame ∧ s.AckedFrame ≠ kInvalidFrame) := by
    rintro ⟨h1, h2⟩
    rcases hNotAcked with h3 | h3
    · exact h2 h3
    · omega
  have hv : s.LastAuthorityState.FrameNumber ≠ kInvalidFrame := by
    rw [hAuthority]
    decide
  have hT : Tick env s false =
      Except.ok (ForceBody env (resimulatedTicks env s) (Rewound env (TickBody env s false))) := by
    rw [Tick_real env hbuf, Reconcile_TickBody, if_neg hv, if_neg hna, if_neg hInputValid,
      if_pos (by omega), RewindAndResimulate_ok env hbuf]
  have hB := ForceBody_Rewound env s
  simp only [] at hB
  obtain ⟨hA, _, _, hW, cs, hc1, hc2, hc3⟩ := hB
  have hW2 := hW (by omega)
  rw [hn] at hT hA hW2 hc1 hc3
  rw [hAuthority] at hA hW2
  exact ⟨rfl, hn, _, hT, hA, hW2.1, hW2.2, cs, hc1, hc2, hc3⟩

/-- Witness of C28 as amended: the driver `scenarioStart`, at frame `140` with
an authority state for frame `150`, ends its tick at `NextFrame = 156`. -/
theorem Scenario_ahead_witness :
    ∃ s', Tick counterEnv scenarioStart false = Except.ok s' ∧ s'.AckedFrame = 150 ∧
      s'.NextFrame = 156 :=
  (Scenario_ahead counterEnv counterEnv_lawful scenarioStart (by decide) (by decide) (by decide)
    (Or.inr (by decide)) (by decide)).2.2.imp
    fun s' h => ⟨h.1, h.2.1, h.2.2.1⟩

/-- C28, evaluated where the code departs from it. A driver reaches frame
`140` and receives an authority state for frame `150`; after the rewind its
buffer holds one packet, fewer than `kClientForwardPredictionFrames`. Its next
real tick simulates frame `140`, snaps to the authority state and forces five
ticks, not ten, and ends with `NextFrame = 156`, not `161`. -/
theorem Scenario_ahead_counterexample :
    Runs counterEnv scenarioStart ∧
    scenarioStart.NextFrame = 140 ∧
    scenarioStart.LastAuthorityState.FrameNumber = 150 ∧
    counterEnv.InputBuffer.RemoteBufferSize
      (counterEnv.InputBuffer.Rewind (TickBody counterEnv scenarioStart false).InputBuffer
        scenarioStart.LastAuthorityState.InputPacketNumber) = 1 ∧
    Tick counterEnv scenarioStart false = Except.ok scenarioEnd ∧
    (TickBody counterEnv scenarioStart false).CurrentState.FrameNumber = 140 ∧
    (scenarioEnd.Calls.drop scenarioStart.Calls.length).filter Call.isReconcile =
      [Call.InputBufferRewind 5, Call.Rewind 42, Call.ForceSimulate 5] ∧
    scenarioEnd.History.map (fun h => h.FrameNumber) = [151, 152, 153, 154, 155] ∧
    scenarioEnd.NextFrame = 156 := by
  have h1 : Tick counterEnv scenarioBase false = Except.ok
      (ForceBody counterEnv 5 (Rewound counterEnv (TickBody counterEnv scenarioBase false))) := rfl
  exact ⟨Runs.receive _ (Runs.tick false (Runs.receive _ Runs.fresh) h1), by decide, by decide,
    by decide, rfl, by decide, by decide, by decide, by decide⟩

/-! ## The comparison of snapshots -/

/-- C31 (the equality used by the reconciliation). The comparison
`FModelStateWrapper::operator==` holds if and only if the input packet numbers
are equal and the bodies compare equal, and it does not depend on the frame
numbers. In a real tick with a lawful input buffer, an ordered history and an
authority state that passes the guards and is not ahead, a history entry with
the frame number of the authority state and a body that compares equal to its
body, but with another input packet number, compares different, and the tick
takes the Diverged branch: it rewinds to the authority state and forces the
resimulation, without acknowledging. The comparison is reflexive, symmetric
and transitive whenever the comparison of the bodies is. -/
theorem opEq_iff [BEq S] [Inhabited S] (env : Env I S B) (hbuf : env.InputBuffer.Lawful)
    (a b : FModelStateWrapper S) (n k : Nat) :
    (a.opEq b = true ↔
      a.InputPacketNumber = b.InputPacketNumber ∧ (a.State == b.State) = true) ∧
    ({ a with FrameNumber := n }).opEq { b with FrameNumber := k } = a.opEq b ∧
    (∀ (s : Driver I S B) (h : FModelStateWrapper S), HistoryOrdered s →
      s.LastAuthorityState.FrameNumber ≠ kInvalidFrame →
      s.LastAuthorityState.InputPacketNumber ≠ kInvalidFrame →
      (s.AckedFrame = kInvalidFrame ∨ s.AckedFrame < s.LastAuthorityState.FrameNumber) →
      s.LastAuthorityState.FrameNumber ≤ s.NextFrame →
      h ∈ (TickBody env s false).History →
      h.FrameNumber = s.LastAuthorityState.FrameNumber →
      (h.State == s.LastAuthorityState.State) = true →
      h.InputPacketNumber ≠ s.LastAuthorityState.InputPacketNumber →
      h.opEq s.LastAuthorityState = false ∧
      ∃ s', Tick env s false = Except.ok s' ∧
        s' = ForceBody env (resimulatedTicks env s) (Rewound env (TickBody env s false)) ∧
        s'.AckedFrame = s.LastAuthorityState.FrameNumber ∧
        ∃ cs, s'.Calls = s.Calls ++ tickBodyCalls env s false ++
            [Call.InputBufferRewind s.LastAuthorityState.InputPacketNumber,
              Call.Rewind s.LastAuthorityState.State,
              Call.ForceSimulate (resimulatedTicks env s)] ++ cs ∧
          cs.filter Call.isReconcile = [] ∧
          cs.countP Call.isSimulate = resimulatedTicks env s) ∧
    ((∀ x : S, (x == x) = true) → ∀ x : FModelStateWrapper S, x.opEq x = true) ∧
    ((∀ x y : S, (x == y) = true → (y == x) = true) →
      ∀ x y : FModelStateWrapper S, x.opEq y = true → y.opEq x = true) ∧
    ((∀ x y z : S, (x == y) = true → (y == z) = true → (x == z) = true) →
      ∀ x y z : FModelStateWrapper S, x.opEq y = true → y.opEq z = true → x.opEq z = true) := by
  have hiff : ∀ x y : FModelStateWrapper S, x.opEq y = true ↔
      x.InputPacketNumber = y.InputPacketNumber ∧ (x.State == y.State) = true := by
    intro x y
    simp [FModelStateWrapper.opEq]
  refine ⟨hiff a b, rfl, ?_, ?_, ?_, ?_⟩
  · intro s h hOrdered hFrameValid hInputValid hNotAcked hNotAhead hMem hFrame hBody hInput
    have hne : h.opEq s.LastAuthorityState = false := by
      rw [Bool.eq_false_iff]
      intro hc
      exact hInput ((hiff _ _).1 hc).1
    have hp : ((TickBody env s false).History.map (fun h => h.FrameNumber)).Pairwise
        (fun a b => a < b) := by
      rw [TickBody_History, List.map_append, List.pairwise_append]
      refine ⟨hOrdered.1, by simp, ?_⟩
      intro a ha b hb
      simp only [List.map_cons, List.map_nil, List.mem_singleton,
        TickBody_CurrentState_FrameNumber] at hb
      obtain ⟨x, hx, rfl⟩ := List.mem_map.1 ha
      rw [hb]
      exact hOrdered.2 x hx
    have hd := drainHistory_found s.LastAuthorityState.FrameNumber (TickBody env s false).History
      (FModelStateWrapper.Default S) h hp hMem hFrame
    have hna : ¬ (s.LastAuthorityState.FrameNumber ≤ s.AckedFrame ∧
        s.AckedFrame ≠ kInvalidFrame) := by
      rintro ⟨h1, h2⟩
      rcases hNotAcked with h3 | h3
      · exact h2 h3
      · omega
    have hT := Tick_real env hbuf s
    rw [Reconcile_TickBody, if_neg hFrameValid, if_neg hna, if_neg hInputValid,
      if_neg (by omega), hd] at hT
    simp only [Bool.true_eq_false, if_false, hne] at hT
    rw [RewindAndResimulate_History, RewindAndResimulate_ok env hbuf] at hT
    have hB := ForceBody_Rewound env s
    exact ⟨hne, _, hT, rfl, hB.1, hB.2.2.2.2⟩
  · intro hrefl x
    exact (hiff x x).2 ⟨rfl, hrefl _⟩
  · intro hsymm x y hxy
    have h1 := (hiff x y).1 hxy
    exact (hiff y x).2 ⟨h1.1.symm, hsymm _ _ h1.2⟩
  · intro htrans x y z hxy hyz
    have h1 := (hiff x y).1 hxy
    have h2 := (hiff y z).1 hyz
    exact (hiff x z).2 ⟨h1.1.trans h2.1, htrans _ _ _ h1.2 h2.2⟩

/-- Witness of C31: the first tick of a fresh driver produces the snapshot of
frame `0` with the body `1` and the input packet `0`; against the authority
state of frame `0` with the body `1` and the input packet `7` the tick rewinds,
with `Rewind` called on the body `1`. -/
theorem opEq_iff_witness :
    ∃ s', Tick counterEnv packetMismatchStart false = Except.ok s' ∧ s'.AckedFrame = 0 ∧
      ∃ cs, s'.Calls = packetMismatchStart.Calls ++
          tickBodyCalls counterEnv packetMismatchStart false ++
          [Call.InputBufferRewind 7, Call.Rewind 1,
            Call.ForceSimulate (resimulatedTicks counterEnv packetMismatchStart)] ++ cs ∧
        cs.filter Call.isReconcile = [] := by
  obtain ⟨_, s', h1, _, h2, cs, h3, h4, _⟩ :=
    (opEq_iff counterEnv counterEnv_lawful
      ({ FrameNumber := 0, InputPacketNumber := 0, State := 1 } : FModelStateWrapper Nat)
      { FrameNumber := 0, InputPacketNumber := 7, State := 1 } 0 0).2.2.1
      packetMismatchStart { FrameNumber := 0, InputPacketNumber := 0, State := 1 }
      ⟨List.Pairwise.nil, by intro h hh; cases hh⟩ (by decide) (by decide)
      (Or.inl rfl) (Nat.le_refl 0) (by decide) rfl rfl (by decide)
  exact ⟨s', h1, h2, cs, h3, h4⟩

/-! ## One reconciliation for each authority state -/

/-- What a real tick that returns does to `AckedFrame`: it is unchanged, or it
becomes the frame number of an authority state that passed the guards. -/
theorem Tick_AckedFrame_cases [BEq S] [Inhabited S] {env : Env I S B} {s s' : Driver I S B}
    (hT : Tick env s false = Except.ok s') :
    (s'.AckedFrame = s.AckedFrame ∧ ¬ PassesGuards s) ∨
      (s'.AckedFrame = s.LastAuthorityState.FrameNumber ∧ PassesGuards s) := by
  obtain ⟨-, hRec⟩ := Tick_real_eq_ok hT
  rw [Reconcile_TickBody] at hRec
  split at hRec
  · rename_i hv
    cases hRec
    exact Or.inl ⟨TickBody_AckedFrame env s false, fun h => h.1 hv⟩
  split at hRec
  · rename_i hacked
    cases hRec
    exact Or.inl ⟨TickBody_AckedFrame env s false, fun h => h.2.1 hacked⟩
  split at hRec
  · rename_i hinput
    cases hRec
    exact Or.inl ⟨TickBody_AckedFrame env s false, fun h => h.2.2 hinput⟩
  rename_i hv hacked hinput
  split at hRec
  · rw [RewindAndResimulate_eq_ok hRec]
    exact Or.inr ⟨(ForceBody_Rewound env s).1, hv, hacked, hinput⟩
  split at hRec
  · cases hRec
  split at hRec
  · cases hRec
    exact Or.inr ⟨rfl, hv, hacked, hinput⟩
  · rw [RewindAndResimulate_History] at hRec
    rw [RewindAndResimulate_eq_ok hRec]
    exact Or.inr ⟨(ForceBody_Rewound env s).1, hv, hacked, hinput⟩

/-- Once `AckedFrame` is valid and at least `a`, it stays so in every later
state. -/
theorem Later_AckedFrame [BEq S] [Inhabited S] {env : Env I S B} {s t : Driver I S B} (a : Nat)
    (hL : Later env s t) (h0 : s.AckedFrame ≠ kInvalidFrame ∧ a ≤ s.AckedFrame) :
    t.AckedFrame ≠ kInvalidFrame ∧ a ≤ t.AckedFrame := by
  induction hL with
  | refl => exact h0
  | receive State _ ih => exact ih
  | tick _ hT ih =>
    rcases Tick_AckedFrame_cases hT with ⟨h1, _⟩ | ⟨h1, hv, hacked, _⟩
    · rw [h1]
      exact ih
    · rw [h1]
      refine ⟨hv, ?_⟩
      by_contra hc
      exact hacked ⟨by omega, ih.1⟩

/-- C32 (an authority state is reconciled at most once). In a real tick that
returns and whose authority state `A` passes the guards, so that the tick
processes `A` through the Synced, the Diverged or the Ahead branch,
`AckedFrame` becomes the frame number of `A`. In every state the driver goes
through afterwards, by receptions and real ticks in any order, in which
`LastAuthorityState` is `A` again, a real tick with a lawful input buffer
returns and is the simulated part alone: `AckedFrame` is unchanged, the
history only gains the snapshot just simulated and is not drained, and no
reconciliation call (`InputBuffer.Ack`, `InputBuffer.Rewind`, `Rewind`,
`ForceSimulate`) is made. -/
theorem Reconciled_once [BEq S] [Inhabited S] (env : Env I S B) (hbuf : env.InputBuffer.Lawful)
    (s s' t : Driver I S B)
    (hGuards : PassesGuards s)
    (hTick : Tick env s false = Except.ok s')
    (hLater : Later env s' t)
    (hSame : t.LastAuthorityState = s.LastAuthorityState) :
    s'.AckedFrame = s.LastAuthorityState.FrameNumber ∧
    ¬ PassesGuards t ∧
    ∃ t', Tick env t false = Except.ok t' ∧
      t' = TickBody env t false ∧
      t'.AckedFrame = t.AckedFrame ∧
      t'.History = t.History ++ [t'.CurrentState] ∧
      ∃ cs, t'.Calls = t.Calls ++ cs ∧ cs.filter Call.isReconcile = [] ∧
        cs.countP Call.isSimulate = 1 := by
  have hA : s'.AckedFrame = s.LastAuthorityState.FrameNumber := by
    rcases Tick_AckedFrame_cases hTick with ⟨_, h2⟩ | ⟨h1, _⟩
    · exact absurd hGuards h2
    · exact h1
  have hInv := Later_AckedFrame s.LastAuthorityState.FrameNumber hLater
    ⟨by rw [hA]; exact hGuards.1, by rw [hA]⟩
  have hacked : t.LastAuthorityState.FrameNumber ≤ t.AckedFrame ∧
      t.AckedFrame ≠ kInvalidFrame := by
    rw [hSame]
    exact ⟨hInv.2, hInv.1⟩
  have hT : Tick env t false = Except.ok (TickBody env t false) := by
    rw [Tick_real env hbuf, Reconcile_TickBody]
    split
    · rfl
    · rfl
  exact ⟨hA, fun h => h.2.1 hacked, _, hT, rfl, TickBody_AckedFrame env t false,
    TickBody_History env t false, tickBodyCalls env t false, TickBody_Calls env t false,
    tickBodyCalls_reconcile env t false, tickBodyCalls_simulate env t false⟩

/-- Witness of C32: the driver `aheadStart` jumps to the authority state of
frame `3`; two ticks later the same authority state is left alone and
`AckedFrame` is still `3`. -/
theorem Reconciled_once_witness :
    ∃ t', Tick counterEnv (TickBody counterEnv aheadEnd false) false = Except.ok t' ∧
      t'.AckedFrame = 3 ∧ t'.History.length = 7 := by
  have hT : Tick counterEnv aheadEnd false = Except.ok (TickBody counterEnv aheadEnd false) := rfl
  obtain ⟨_, _, t', h1, h2, h3, h4, _⟩ :=
    Reconciled_once counterEnv counterEnv_lawful aheadStart aheadEnd
      (TickBody counterEnv aheadEnd false)
      ⟨by decide, by decide, by decide⟩ Tick_aheadStart (Later.tick Later.refl hT) rfl
  exact ⟨t', h1, by rw [h3]; decide, by rw [h2]; decide⟩

end ClientPrediction
